import Mathlib

/-!
# flex-http-server: serial AT layer and transmission pipeline

A shallow embedding of `include/flex_at_util.hpp` and of the pipeline part of
`main.cpp`, followed by theorems about it.

Conventions.
* A C string is the list of its `char` values (as integers) before the NUL.
* Everything the operating system or the device decides (what `poll`, `read`
  and `write` return, the clock, the external encoder) is an explicit input.
* Verbose logging to stdout/stderr is left out; it changes no control flow.
-/

namespace FlexHttpServer

/-! ## AT protocol constants (`flex_at_util.hpp`, lines 19-23) -/

def AT_BUFFER_SIZE : Nat := 1024
def AT_TIMEOUT_MS : Int := 8000
def AT_MAX_RETRIES : Nat := 5
def AT_INTER_CMD_DELAY : Nat := 200
def AT_DATA_SEND_TIMEOUT : Nat := 20000

/-- AT protocol response types (`at_response_t`). -/
inductive at_response_t where
  | AT_RESP_OK
  | AT_RESP_ERROR
  | AT_RESP_DATA
  | AT_RESP_TIMEOUT
  | AT_RESP_INVALID
  deriving DecidableEq

open at_response_t

/-- The `char` values of a string literal, as a C string without its NUL. -/
def cstr (s : String) : List Int := s.toList.map (fun ch => (ch.toNat : Int))

/-! ## Response reader (`at_read_flex_response`, lines 140-261) -/

/-- What one iteration of the reader loop observes from `poll` and `read`.
`byte c` carries the value of the `char c` that `read` stored, so a byte
above 127 is negative where `char` is signed and positive where it is not. -/
inductive PollEvent where
  /-- The call `poll()` returned a negative value. -/
  | pollError
  /-- The call `poll()` returned 0: the 50 ms slice passed without data. -/
  | pollTimeout
  /-- The call `poll()` returned a positive value but `revents` lacks `POLLIN`. -/
  | noPollin
  /-- The call `read()` returned a negative value. -/
  | readError
  /-- The call `read()` returned 0. -/
  | readEmpty
  /-- The call `read()` returned 1 and stored `c`. -/
  | byte (c : Int)
  deriving DecidableEq

/-- Local variables of `at_read_flex_response` together with the caller's
output buffer. `line_buffer` holds the characters at positions
`0 .. line_pos - 1`, so `line_pos` is its length. -/
structure ReaderState where
  line_buffer : List Int
  total_timeout : Int
  got_response : Bool
  empty_reads : Nat
  buffer : List Int
  deriving DecidableEq

/-- State after the declarations and `buffer[0] = 0` (lines 141-147). -/
def reader_init : ReaderState :=
  { line_buffer := [], total_timeout := AT_TIMEOUT_MS, got_response := false,
    empty_reads := 0, buffer := [] }

/-- One pass through the loop body either goes round again or returns. -/
inductive ReaderStep where
  | next (s : ReaderState)
  | done (r : at_response_t) (s : ReaderState)
  deriving DecidableEq

/-- The branch taken at an LF with a non-empty line (lines 206-235). -/
def reader_end_of_line (buffer_size : Nat) (s : ReaderState) : ReaderStep :=
  if s.line_buffer = cstr "OK" then ReaderStep.done AT_RESP_OK s
  else if s.line_buffer = cstr "ERROR" then ReaderStep.done AT_RESP_ERROR s
  else if s.line_buffer.head? = some 43 then
    if s.line_buffer.length < buffer_size then
      ReaderStep.next { s with buffer := s.line_buffer, got_response := true,
                               line_buffer := [], total_timeout := AT_TIMEOUT_MS }
    else
      ReaderStep.next { s with line_buffer := [], total_timeout := AT_TIMEOUT_MS }
  else
    ReaderStep.next { s with line_buffer := [], total_timeout := AT_TIMEOUT_MS }

/-- Loop body for a successfully read character, after `empty_reads = 0`
(lines 188-253). -/
def reader_char (buffer_size : Nat) (s : ReaderState) (c : Int) : ReaderStep :=
  if c = 13 then ReaderStep.next s
  else if c = 10 then
    if s.line_buffer.length = 0 then ReaderStep.next s
    else reader_end_of_line buffer_size s
  else if s.line_buffer.length < AT_BUFFER_SIZE - 1 ∧ c ≥ 32 ∧ c ≤ 126 then
    ReaderStep.next { s with line_buffer := s.line_buffer ++ [c],
                             total_timeout := AT_TIMEOUT_MS }
  else if c < 32 ∧ c ≠ 13 ∧ c ≠ 10 then
    if s.line_buffer.length > 0 then
      ReaderStep.next { s with line_buffer := [], total_timeout := AT_TIMEOUT_MS }
    else ReaderStep.next { s with total_timeout := AT_TIMEOUT_MS }
  else ReaderStep.next { s with total_timeout := AT_TIMEOUT_MS }

/-- One pass through the body of the `while` loop (lines 150-253). -/
def reader_step (buffer_size : Nat) (s : ReaderState) : PollEvent → ReaderStep
  | PollEvent.pollError => ReaderStep.done AT_RESP_INVALID s
  | PollEvent.pollTimeout =>
      ReaderStep.next { s with total_timeout := s.total_timeout - 50,
                               empty_reads := s.empty_reads + 1 }
  | PollEvent.noPollin =>
      ReaderStep.next { s with total_timeout := s.total_timeout - 50 }
  | PollEvent.readError => ReaderStep.done AT_RESP_INVALID s
  | PollEvent.readEmpty =>
      ReaderStep.next { s with total_timeout := s.total_timeout - 50,
                               empty_reads := s.empty_reads + 1 }
  | PollEvent.byte c => reader_char buffer_size { s with empty_reads := 0 } c

/-- Outcome of a call of the reader: the returned classification, the local
state at the `return` (its `buffer` field is the caller's output buffer), the
number of loop iterations executed, and the events left unconsumed. -/
structure ReadResult where
  result : at_response_t
  state : ReaderState
  slices : Nat
  rest : List PollEvent
  deriving DecidableEq

/-- The output buffer as the caller sees it after the call. -/
def ReadResult.buffer (r : ReadResult) : List Int := r.state.buffer

/-- Code after the loop (lines 256-260). -/
def reader_exit (s : ReaderState) (slices : Nat) (rest : List PollEvent) : ReadResult :=
  if s.got_response then ⟨AT_RESP_DATA, s, slices, rest⟩
  else ⟨AT_RESP_TIMEOUT, s, slices, rest⟩

/-- The loop once the listed events are used up: the line is silent, every
further `poll()` returns 0. Each such pass raises `empty_reads`, so the
counter `quiet` of passes still allowed is started at 20. -/
def reader_silence (buffer_size : Nat) : Nat → ReaderState → Nat → ReadResult
  | 0, s, n => reader_exit s n []
  | quiet + 1, s, n =>
    if s.total_timeout > 0 ∧ s.empty_reads < 20 then
      match reader_step buffer_size s PollEvent.pollTimeout with
      | ReaderStep.next s1 => reader_silence buffer_size quiet s1 (n + 1)
      | ReaderStep.done r s1 => ⟨r, s1, n + 1, []⟩
    else reader_exit s n []

/-- The `while (total_timeout > 0 && empty_reads < 20)` loop, one event per
iteration, followed by silence when the list ends. -/
def reader_loop (buffer_size : Nat) : List PollEvent → ReaderState → Nat → ReadResult
  | [], s, n => reader_silence buffer_size 20 s n
  | e :: es, s, n =>
    if s.total_timeout > 0 ∧ s.empty_reads < 20 then
      match reader_step buffer_size s e with
      | ReaderStep.next s1 => reader_loop buffer_size es s1 (n + 1)
      | ReaderStep.done r s1 => ⟨r, s1, n + 1, es⟩
    else reader_exit s n (e :: es)

/-- Model of `at_read_flex_response(fd, buffer, buffer_size)`. The previous
content of `buffer` is overwritten by `buffer[0] = 0` before the loop. -/
def at_read_flex_response (buffer_size : Nat) (_buffer : List Int)
    (events : List PollEvent) : ReadResult :=
  reader_loop buffer_size events reader_init 0

/-- A run of bytes, each delivered by its own successful `poll` and `read`. -/
def bytes (cs : List Int) : List PollEvent := cs.map PollEvent.byte

/-- A slice that yields no data: `poll()` timed out, or `read()` returned 0. -/
def PollEvent.is_empty_slice : PollEvent → Bool
  | PollEvent.pollTimeout => true
  | PollEvent.readEmpty => true
  | _ => false

/-- The loop test `total_timeout > 0 && empty_reads < 20`. -/
def ReaderState.running (s : ReaderState) : Prop :=
  s.total_timeout > 0 ∧ s.empty_reads < 20

instance (s : ReaderState) : Decidable s.running := by
  unfold ReaderState.running; infer_instance

/-- Local state of the loop after it has consumed all of the given events,
or `none` when the call returns or leaves the loop before that. -/
def reader_state_after (buffer_size : Nat) : List PollEvent → ReaderState → Option ReaderState
  | [], s => some s
  | e :: es, s =>
    if s.total_timeout > 0 ∧ s.empty_reads < 20 then
      match reader_step buffer_size s e with
      | ReaderStep.next s1 => reader_state_after buffer_size es s1
      | ReaderStep.done _ _ => none
    else none

/-! ## Command executor (`at_execute_flex_command`, lines 266-330) -/

/-- Calls made on the serial descriptor, in program order. -/
inductive SerialCall where
  /-- The call `flush_flex_at_buffers(fd)`. -/
  | flush
  /-- The call `write(fd, text, strlen(text))`. -/
  | write (text : String)
  /-- The call `tcdrain(fd)`. -/
  | tcdrain
  /-- The call `usleep(us)`. -/
  | usleep (us : Nat)
  /-- A call of `at_read_flex_response` on the descriptor. -/
  | read
  deriving DecidableEq

/-- What the device and the operating system do during one pass of the retry
loop: whether `write` accepts the command, what the reader then observes, and
the same two for the resynchronising `AT` of the timeout branch. -/
structure AttemptScript where
  write_ok : Bool
  events : List PollEvent
  ping_write_ok : Bool
  ping_events : List PollEvent

/-- Model of `at_send_flex_command` (lines 121-134): return value and calls. -/
def at_send_flex_command (command : String) (write_ok : Bool) : Int × List SerialCall :=
  if write_ok then
    (0, [SerialCall.write command, SerialCall.tcdrain,
         SerialCall.usleep (AT_INTER_CMD_DELAY * 1000)])
  else (-1, [SerialCall.write command])

/-- Outcome of `at_execute_flex_command`: return value, content of the
caller's `response` buffer, the serial calls made, and `sends`, the number of
times line 274 wrote the command successfully. -/
structure ExecResult where
  ret : Int
  response : List Int
  log : List SerialCall
  sends : Nat
  deriving DecidableEq

/-- Put the calls of an earlier pass in front of a later outcome. -/
def ExecResult.after (calls : List SerialCall) (sent : Nat) (r : ExecResult) : ExecResult :=
  { r with log := calls ++ r.log, sends := sent + r.sends }

/-- The `while (retries-- > 0)` loop. The first argument is the value of
`retries` at the loop test; the pass then runs with `retries` one lower and is
attempt number `AT_MAX_RETRIES - retries`, counted from 1. -/
def execute_loop (command : String) (response_size : Nat) (script : Nat → AttemptScript) :
    Nat → List Int → ExecResult
  | 0, response => ⟨-1, response, [], 0⟩
  | retries + 1, response =>
    let a := script (AT_MAX_RETRIES - retries)
    let sent := at_send_flex_command command a.write_ok
    if sent.1 < 0 then
      ⟨-1, response, SerialCall.flush :: sent.2, 0⟩
    else
      let r := at_read_flex_response response_size response a.events
      let calls := SerialCall.flush :: sent.2 ++ [SerialCall.read]
      match r.result with
      | AT_RESP_OK => ⟨0, r.buffer, calls, 1⟩
      | AT_RESP_ERROR =>
        if retries > 0 then
          (execute_loop command response_size script retries r.buffer).after
            (calls ++ [SerialCall.usleep 500000]) 1
        else ⟨-1, r.buffer, calls, 1⟩
      | AT_RESP_TIMEOUT =>
        if retries > 0 then
          let ping := at_send_flex_command "AT\r\n" a.ping_write_ok
          let pr := at_read_flex_response response_size r.buffer a.ping_events
          (execute_loop command response_size script retries pr.buffer).after
            (calls ++ [SerialCall.flush] ++ ping.2 ++
              [SerialCall.usleep 200000, SerialCall.read, SerialCall.usleep 500000]) 1
        else ⟨-1, r.buffer, calls, 1⟩
      | AT_RESP_INVALID =>
        if retries > 0 then
          (execute_loop command response_size script retries r.buffer).after
            (calls ++ [SerialCall.usleep 1000000]) 1
        else ⟨-1, r.buffer, calls, 1⟩
      | AT_RESP_DATA => ⟨-1, r.buffer, calls, 1⟩

/-- Model of `at_execute_flex_command(fd, command, response, response_size)`. -/
def at_execute_flex_command (command : String) (response : List Int) (response_size : Nat)
    (script : Nat → AttemptScript) : ExecResult :=
  execute_loop command response_size script AT_MAX_RETRIES response

/-- The serial calls of one pass of the retry loop whose write succeeds:
flush, write, drain, the 200 ms settle delay, and the read. -/
def attempt_calls (command : String) : List SerialCall :=
  [SerialCall.flush, SerialCall.write command, SerialCall.tcdrain,
   SerialCall.usleep 200000, SerialCall.read]

/-- The serial calls of the timeout branch between two passes (lines 304-308):
flush, the resynchronising `AT`, 200 ms, a read whose result is discarded, and
the 500 ms wait. -/
def ping_calls (ping_write_ok : Bool) : List SerialCall :=
  [SerialCall.flush] ++ (at_send_flex_command "AT\r\n" ping_write_ok).2 ++
    [SerialCall.usleep 200000, SerialCall.read, SerialCall.usleep 500000]

/-- Classification the reader gives to attempt `n` of a script. -/
def attempt_result (response_size : Nat) (script : Nat → AttemptScript) (n : Nat) :
    at_response_t :=
  (at_read_flex_response response_size [] (script n).events).result

/-! ## Device initializer (`at_initialize_flex_device`, lines 335-378) -/

/-- Outcome of `at_initialize_flex_device`: return value, the serial calls
made (those of the executor included), `attempts`, the number of passes of
the `for` loop that were started, `executions`, the number of calls of
`at_execute_flex_command`, and `delays`, the arguments of the `usleep` of
line 373 in the order in which they were slept. -/
structure InitResult where
  ret : Int
  log : List SerialCall
  attempts : Nat
  executions : Nat
  delays : List Nat
  deriving DecidableEq

/-- Put an earlier pass of the `for` loop in front of a later outcome. -/
def InitResult.after (calls : List SerialCall) (execs : Nat) (slept : List Nat)
    (r : InitResult) : InitResult :=
  { r with log := calls ++ r.log, attempts := 1 + r.attempts,
           executions := execs + r.executions, delays := slept ++ r.delays }

/-- The loop `for (int i = 0; i < 10; i++)`. The first argument is `10 - i`,
the number of passes still to run. Pass `i` is attempt number `i + 1`; its
probe runs against `probe (i + 1)` and its confirming probe against
`confirm (i + 1)`. -/
def initialize_loop (probe confirm : Nat → Nat → AttemptScript) :
    Nat → Nat → List Int → InitResult
  | 0, _, _ => ⟨-1, [], 0, 0, []⟩
  | left + 1, i, response =>
    let p := at_execute_flex_command "AT\r\n" response AT_BUFFER_SIZE (probe (i + 1))
    let probed := [SerialCall.flush, SerialCall.usleep 200000] ++ p.log
    if p.ret = 0 then
      let c := at_execute_flex_command "AT\r\n" p.response AT_BUFFER_SIZE (confirm (i + 1))
      let confirmed := probed ++ [SerialCall.usleep 200000] ++ c.log
      if c.ret = 0 then ⟨0, confirmed, 1, 2, []⟩
      else
        (initialize_loop probe confirm left (i + 1) c.response).after
          (confirmed ++ [SerialCall.usleep (500000 * (i + 1))]) 2 [500000 * (i + 1)]
    else
      (initialize_loop probe confirm left (i + 1) p.response).after
        (probed ++ [SerialCall.usleep (500000 * (i + 1))]) 1 [500000 * (i + 1)]

/-- Model of `at_initialize_flex_device(fd)`. The local `response` array is
written by the reader before anything reads it; it starts empty here. -/
def at_initialize_flex_device (probe confirm : Nat → Nat → AttemptScript) : InitResult :=
  let r := initialize_loop probe confirm 10 0 []
  { r with log := [SerialCall.flush, SerialCall.usleep 1000000] ++ r.log }

/-- Return value of the executor for a bare `AT` run against a script. -/
def probe_result (script : Nat → AttemptScript) : Int :=
  (at_execute_flex_command "AT\r\n" [] AT_BUFFER_SIZE script).ret

/-! ## Message transmitter (`send_flex_via_at_commands`, lines 411-584) -/

/-- Mirror of `struct FlexATConfig`. The member `frequency` is a `double` in
MHz that is only ever formatted with `%.4f`; `frequency_text` is that
rendering. -/
structure FlexATConfig where
  frequency_text : String
  power : Int

/-- Calls made by `send_flex_via_at_commands`, in program order. A call of
the executor is one entry carrying its command and return value. -/
inductive SendCall where
  /-- A call of `at_execute_flex_command`. -/
  | execute (command : String) (ret : Int)
  /-- The call `flush_flex_at_buffers(fd)`. -/
  | flush
  /-- The `write` of the text `AT+SEND=<size>` at line 469, and whether it
  succeeded. -/
  | write_send (size : Nat) (ok : Bool)
  /-- The call `tcdrain(fd)`. -/
  | tcdrain
  /-- A call of `at_read_flex_response` and its classification. -/
  | read (result : at_response_t)
  /-- The `write` of a chunk of the payload at line 515 and its return value. -/
  | write_data (offered : List Nat) (written : Int)
  /-- The call `usleep(us)`. -/
  | usleep (us : Nat)
  /-- The call `sleep(s)`. -/
  | sleep (s : Nat)
  deriving DecidableEq

/-- Recognises the write of `AT+SEND=<size>`. -/
def SendCall.is_send_write : SendCall → Bool
  | SendCall.write_send _ _ => true
  | _ => false

/-- Recognises the write of a payload chunk. -/
def SendCall.is_data_write : SendCall → Bool
  | SendCall.write_data _ _ => true
  | _ => false

/-- The bytes a chunk write put on the wire: the first `written` bytes of the
chunk offered, nothing when the write failed. -/
def SendCall.data_written : SendCall → List Nat
  | SendCall.write_data offered written => offered.take written.toNat
  | _ => []

/-- All payload bytes put on the wire by a list of calls, in order. -/
def bytes_written (calls : List SendCall) : List Nat :=
  (calls.map SendCall.data_written).foldr (fun chunk acc => chunk ++ acc) []

/-- The chunks offered to the payload writes of a list of calls, in order. -/
def chunks_offered : List SendCall → List (List Nat)
  | [] => []
  | SendCall.write_data offered _ :: calls => offered :: chunks_offered calls
  | _ :: calls => chunks_offered calls

/-- `strncmp(text, word, strlen(word)) == 0`: `text` begins with `word`. -/
def starts_with : List Int → List Int → Bool
  | _, [] => true
  | [], _ :: _ => false
  | c :: text, w :: word => c == w && starts_with text word

/-- `strstr(haystack, needle) != NULL` on C strings. -/
def strstr_found : List Int → List Int → Bool
  | [], needle => starts_with [] needle
  | c :: haystack, needle => starts_with (c :: haystack) needle || strstr_found haystack needle

/-- `CHUNK_SIZE` of line 508. -/
def CHUNK_SIZE : Nat := 32

/-- What one pass of the chunk loop observes: whether `write` returned a
negative value; otherwise how many bytes of the chunk offered it left
unwritten (`write` returns a count between 0 and the size offered, so 0 here
means the whole chunk was accepted); and the value of
`time(NULL) - send_start_time`, in seconds, at the check of line 529. -/
structure ChunkStep where
  write_fails : Bool
  short : Nat
  elapsed : Nat
  deriving DecidableEq

/-- State at the end of the chunk loop and the calls it made. -/
structure ChunkResult where
  send_success : Bool
  bytes_sent : Nat
  calls : List SendCall
  deriving DecidableEq

/-- Put earlier calls in front of the outcome of the rest of the chunk loop. -/
def ChunkResult.after (calls : List SendCall) (r : ChunkResult) : ChunkResult :=
  { r with calls := calls ++ r.calls }

/-- The loop `while (bytes_sent < size && send_success)` (lines 512-539), one
observation per pass; `size` is `data.length`. The result is `none` when the
observations run out while the loop is still running. -/
def chunk_loop (data : List Nat) : List ChunkStep → Nat → Option ChunkResult
  | [], bytes_sent =>
    if bytes_sent < data.length then none else some ⟨true, bytes_sent, []⟩
  | st :: steps, bytes_sent =>
    if bytes_sent < data.length then
      let chunk_size :=
        if data.length - bytes_sent > CHUNK_SIZE then CHUNK_SIZE else data.length - bytes_sent
      let offered := (data.drop bytes_sent).take chunk_size
      if st.write_fails then
        some ⟨false, bytes_sent, [SendCall.write_data offered (-1)]⟩
      else
        let written := chunk_size - st.short
        if st.elapsed > AT_DATA_SEND_TIMEOUT / 1000 then
          some ⟨false, bytes_sent + written, [SendCall.write_data offered written]⟩
        else
          (chunk_loop data steps (bytes_sent + written)).map
            (ChunkResult.after [SendCall.write_data offered written, SendCall.usleep 5000])
    else some ⟨true, bytes_sent, []⟩

/-- What the device and the operating system do during one pass of the outer
send loop: the script of the resetting `AT`, whether the write of `AT+SEND`
succeeds, what the reader observes while waiting for readiness, the
observations of the chunk loop, and what the reader observes at the end. -/
structure SendAttempt where
  reset : Nat → AttemptScript
  send_write_ok : Bool
  ready_events : List PollEvent
  chunk_steps : List ChunkStep
  final_events : List PollEvent

/-- Outcome of one pass of the outer send loop: whether it reached
`return 0`; if not, the argument of the `usleep` that precedes the next pass;
the calls made; and the content of `response`. -/
structure PassResult where
  success : Bool
  backoff : Nat
  calls : List SendCall
  response : List Int
  deriving DecidableEq

/-- One pass of the body of `while (send_retries-- > 0)` (lines 445-579), up
to the point where it returns 0 or reaches one of its four
`if (send_retries > 0) { usleep(..); continue; } return -1;` exits. -/
def send_pass (data : List Nat) (a : SendAttempt) (response : List Int) : Option PassResult :=
  let reset := at_execute_flex_command "AT\r\n" response AT_BUFFER_SIZE a.reset
  let c1 := [SendCall.flush, SendCall.execute "AT\r\n" reset.ret, SendCall.flush,
             SendCall.write_send data.length a.send_write_ok]
  if !a.send_write_ok then some ⟨false, 1000000, c1, reset.response⟩
  else
    let ready := at_read_flex_response AT_BUFFER_SIZE reset.response a.ready_events
    let c2 := c1 ++ [SendCall.tcdrain, SendCall.read ready.result]
    if ready.result ≠ AT_RESP_DATA ∨
        strstr_found ready.buffer (cstr "+SEND: READY") = false then
      some ⟨false, 2000000, c2, ready.buffer⟩
    else
      match chunk_loop data a.chunk_steps 0 with
      | none => none
      | some ch =>
        let c3 := c2 ++ ch.calls
        if !ch.send_success then some ⟨false, 2000000, c3, ready.buffer⟩
        else
          let final := at_read_flex_response AT_BUFFER_SIZE ready.buffer a.final_events
          let c4 := c3 ++ [SendCall.tcdrain, SendCall.sleep 5, SendCall.read final.result]
          if final.result ≠ AT_RESP_OK then some ⟨false, 2000000, c4, final.buffer⟩
          else some ⟨true, 0, c4, final.buffer⟩

/-- Outcome of `send_flex_via_at_commands`: return value and calls made. -/
structure SendResult where
  ret : Int
  trace : List SendCall
  deriving DecidableEq

/-- Put earlier calls in front of a later outcome. -/
def SendResult.after (calls : List SendCall) (r : SendResult) : SendResult :=
  { r with trace := calls ++ r.trace }

/-- The loop `while (send_retries-- > 0)`. The first argument is the value of
`send_retries` at the loop test; the pass is outer attempt number
`3 - send_retries` with `send_retries` already decremented. -/
def send_loop (data : List Nat) (attempt : Nat → SendAttempt) :
    Nat → List Int → Option SendResult
  | 0, _ => some ⟨-1, []⟩
  | send_retries + 1, response =>
    match send_pass data (attempt (3 - send_retries)) response with
    | none => none
    | some p =>
      if p.success then some ⟨0, p.calls⟩
      else if send_retries > 0 then
        (send_loop data attempt send_retries p.response).map
          (SendResult.after (p.calls ++ [SendCall.usleep p.backoff]))
      else some ⟨-1, p.calls⟩

/-- What the device does during one call of `send_flex_via_at_commands`. -/
structure SendEnv where
  freq : Nat → AttemptScript
  power : Nat → AttemptScript
  attempt : Nat → SendAttempt

/-- Model of `send_flex_via_at_commands(fd, config, data, size)`, with
`size = data.length`. The local `response` array is written by the reader
before anything reads it; it starts empty here. -/
def send_flex_via_at_commands (env : SendEnv) (config : FlexATConfig) (data : List Nat) :
    Option SendResult :=
  let freq_command := "AT+FREQ=" ++ config.frequency_text ++ "\r\n"
  let f := at_execute_flex_command freq_command [] AT_BUFFER_SIZE env.freq
  if f.ret < 0 then some ⟨-1, [SendCall.execute freq_command f.ret]⟩
  else
    let power_command := "AT+POWER=" ++ toString config.power ++ "\r\n"
    let p := at_execute_flex_command power_command f.response AT_BUFFER_SIZE env.power
    if p.ret < 0 then
      some ⟨-1, [SendCall.execute freq_command f.ret, SendCall.execute power_command p.ret]⟩
    else
      (send_loop data env.attempt 3 p.response).map
        (SendResult.after
          [SendCall.execute freq_command f.ret, SendCall.execute power_command p.ret])

/-- Classification of the read that follows `AT+SEND` in a send attempt. -/
def ready_result (a : SendAttempt) : at_response_t :=
  (at_read_flex_response AT_BUFFER_SIZE [] a.ready_events).result

/-- Content of `response` after the read that follows `AT+SEND`. -/
def ready_buffer (a : SendAttempt) : List Int :=
  (at_read_flex_response AT_BUFFER_SIZE [] a.ready_events).buffer

/-- Classification of the read that follows the payload in a send attempt. -/
def final_result (a : SendAttempt) : at_response_t :=
  (at_read_flex_response AT_BUFFER_SIZE [] a.final_events).result

/-! ## Transmission pipeline (`main.cpp`, lines 106-305) -/

/-- Mirror of `struct Config` (`config.hpp`). -/
structure Config where
  BIND_ADDRESS : String
  SERIAL_LISTEN_PORT : Nat
  HTTP_LISTEN_PORT : Nat
  HTTP_AUTH_CREDENTIALS : String
  FLEX_DEVICE : String
  FLEX_BAUDRATE : Nat
  FLEX_POWER : Int
  DEFAULT_FREQUENCY : Nat

/-- Mirror of `struct ConnectionState`. A `steady_clock` time point is its
count of nanoseconds. -/
structure ConnectionState where
  last_transmission : Int
  first_message : Bool
  deriving DecidableEq

/-- Nanoseconds in one minute, the factor of `duration_cast<minutes>`. -/
def NANOS_PER_MINUTE : Int := 60000000000

/-- Largest value of the signed 64-bit count of a `steady_clock` time point
or duration. -/
def INT64_MAX : Int := 9223372036854775807

/-- The value a signed 64-bit count holds when the exact result of an
operation is `x`: `x` itself when it fits, its two's-complement wrap-around
otherwise. -/
def wrap_int64 (x : Int) : Int := (x + 2 ^ 63) % 2 ^ 64 - 2 ^ 63

/-- Model of `should_send_emr`; `now` is what `steady_clock::now()` returns.
The difference `now - state.last_transmission` is a 64-bit nanosecond count,
and the cast to whole minutes truncates toward zero. -/
def should_send_emr (state : ConnectionState) (now : Int) : Bool :=
  if state.first_message then true
  else decide (Int.tdiv (wrap_int64 (now - state.last_transmission)) NANOS_PER_MINUTE ≥ 10)

/-- Calls that `process_message` makes on its collaborators, in order. The
frequency handed to the transmitter is `frequency / 1000000.0` MHz; the call
records the value in Hz it is computed from. -/
inductive PipelineCall where
  | tf_encode_flex_message_ex (message : String) (capcode : Nat)
  | open_flex_at_serial (device : String) (baudrate : Nat)
  | at_initialize_flex_device (fd : Int)
  | send_flex_via_at_commands (fd : Int) (frequency : Nat) (power : Int) (data : List Nat)
  | close_flex_at_serial (fd : Int)
  deriving DecidableEq

/-- The external results one call of `process_message` depends on. -/
structure PipelineEnv where
  /-- The external capcode validity rule. -/
  is_capcode_valid : Nat → Bool
  /-- The external encoder: the bytes `flex_buffer[0 .. flex_len)` and `error`. -/
  tf_encode_flex_message_ex : String → Nat → List Nat × Int
  /-- Return value of `open_flex_at_serial`. -/
  open_result : Int
  /-- Return value of `at_initialize_flex_device`. -/
  init_result : Int
  /-- Clock reading inside `should_send_emr`. -/
  emr_now : Int
  /-- Return value of `send_flex_via_at_commands` for the EMR burst. -/
  emr_send_result : Int
  /-- Return value of `send_flex_via_at_commands` for the payload. -/
  payload_send_result : Int
  /-- Clock reading taken after a successful payload transmission. -/
  success_now : Int

/-- Outcome of `process_message`: return value, the connection state left
behind, and the collaborator calls made. -/
structure PipelineResult where
  success : Bool
  conn_state : ConnectionState
  trace : List PipelineCall
  deriving DecidableEq

/-- The synchronisation pattern of `send_emr_messages`. -/
def emr_buffer : List Nat := [0xA5, 0x5A, 0xA5, 0x5A]

/-- Model of `send_emr_messages` (lines 125-150): the calls it makes. -/
def send_emr_messages (flex_fd : Int) (frequency : Nat) (power : Int) (debug_mode : Bool) :
    List PipelineCall :=
  if debug_mode then []
  else [PipelineCall.send_flex_via_at_commands flex_fd frequency power emr_buffer]

/-- Model of `process_message` (lines 226-305). -/
def process_message (env : PipelineEnv) (capcode : Nat) (message : String) (frequency : Nat)
    (conn_state : ConnectionState) (config : Config) (debug_mode : Bool) : PipelineResult :=
  if !env.is_capcode_valid capcode then ⟨false, conn_state, []⟩
  else if frequency < 1000000 ∨ frequency > 6000000000 then ⟨false, conn_state, []⟩
  else
    let enc := env.tf_encode_flex_message_ex message capcode
    let t1 := [PipelineCall.tf_encode_flex_message_ex message capcode]
    if enc.2 < 0 then ⟨false, conn_state, t1⟩
    else
      let flex_fd := env.open_result
      let t2 := t1 ++ [PipelineCall.open_flex_at_serial config.FLEX_DEVICE config.FLEX_BAUDRATE]
      if flex_fd < 0 then ⟨false, conn_state, t2⟩
      else
        let t3 := t2 ++ [PipelineCall.at_initialize_flex_device flex_fd]
        if env.init_result < 0 then
          ⟨false, conn_state, t3 ++ [PipelineCall.close_flex_at_serial flex_fd]⟩
        else
          let need_emr := should_send_emr conn_state env.emr_now
          let t4 := t3 ++
            (if need_emr then send_emr_messages flex_fd frequency config.FLEX_POWER debug_mode
             else [])
          if !debug_mode then
            let t5 := t4 ++
              [PipelineCall.send_flex_via_at_commands flex_fd frequency config.FLEX_POWER enc.1]
            if env.payload_send_result = 0 then
              ⟨true, { last_transmission := env.success_now, first_message := false },
                t5 ++ [PipelineCall.close_flex_at_serial flex_fd]⟩
            else ⟨false, conn_state, t5 ++ [PipelineCall.close_flex_at_serial flex_fd]⟩
          else ⟨true, conn_state, t4 ++ [PipelineCall.close_flex_at_serial flex_fd]⟩

/-! ## Front-end handlers and start-up (`main.cpp`, lines 307-535 and 609-791) -/

/-- `std::string::find(ch)`: index of the first occurrence, `none` for `npos`. -/
def find_char (ch : Char) : List Char → Option Nat
  | [] => none
  | c :: cs => if c = ch then some 0 else (find_char ch cs).map (fun i => i + 1)

/-- `std::string::rfind(ch)`: index of the last occurrence, `none` for `npos`. -/
def rfind_char (ch : Char) : List Char → Option Nat
  | [] => none
  | c :: cs =>
    match rfind_char ch cs with
    | some i => some (i + 1)
    | none => if c = ch then some 0 else none

/-- The three fields cut out of the input by `handle_serial_client`. -/
structure SerialFields where
  capcode_str : List Char
  message : List Char
  freq_str : List Char
  deriving DecidableEq

/-- The split of lines 322-332: `none` when the format check of line 324
rejects the input. `substr(pos, n)` is `drop pos` followed by `take n`. -/
def split_serial_input (input : List Char) : Option SerialFields :=
  match find_char '|' input, rfind_char '|' input with
  | some pos1, some pos2 =>
    if pos1 = pos2 then none
    else some ⟨input.take pos1, (input.drop (pos1 + 1)).take (pos2 - pos1 - 1),
               input.drop (pos2 + 1)⟩
  | _, _ => none

/-- A call of `process_message` made by a handler: its arguments and result. -/
structure ProcessCall where
  capcode : Nat
  message : String
  frequency : Nat
  result : PipelineResult
  deriving DecidableEq

/-- Outcome of `handle_serial_client`: the text sent to the client, if any,
the call of `process_message`, if made, and the connection state left. -/
structure SerialOutcome where
  reply : Option String
  processed : Option ProcessCall
  conn_state : ConnectionState
  deriving DecidableEq

/-- Model of `handle_serial_client` (lines 307-355). `valRead` is the result
of the `read`, `input` the string built from the buffer at line 321, and
`stoull` stands for `std::stoull`, `none` where it throws. -/
def handle_serial_client (stoull : List Char → Option Nat) (env : PipelineEnv)
    (valRead : Int) (input : List Char) (conn_state : ConnectionState) (config : Config)
    (debug_mode : Bool) : SerialOutcome :=
  if valRead ≤ 0 then ⟨none, none, conn_state⟩
  else
    match split_serial_input input with
    | none =>
      ⟨some "Invalid input format. Expected: CAPCODE|MESSAGE|FREQUENCY", none, conn_state⟩
    | some fields =>
      match stoull fields.capcode_str, stoull fields.freq_str with
      | some capcode, some frequency =>
        let r := process_message env capcode (String.mk fields.message) frequency conn_state
          config debug_mode
        if r.success then
          ⟨some "Message sent successfully!",
            some ⟨capcode, String.mk fields.message, frequency, r⟩, r.conn_state⟩
        else
          ⟨some "Failed to process message",
            some ⟨capcode, String.mk fields.message, frequency, r⟩, r.conn_state⟩
      | _, _ => ⟨some "Invalid capcode or frequency format", none, conn_state⟩

/-- The parts of `HttpRequest` that `handle_http_client` looks at; the
`authorization` member is the result of `headers.find("authorization")`. -/
structure HttpRequest where
  method : String
  authorization : Option String
  body : String

/-- Mirror of `JsonMessage` as `handle_http_client` uses it. -/
structure JsonMessage where
  valid : Bool
  capcode : Nat
  message : String
  frequency : Nat

/-- The external results one call of `handle_http_client` depends on: the
result of the first `read`, the request `parse_http_request` builds from what
was read, and the functions `authenticate_user` (with the loaded passwords)
and `parse_json_message`. -/
structure HttpEnv where
  initial_read : Int
  request : HttpRequest
  authenticate_user : String → Bool
  parse_json_message : String → JsonMessage

/-- Modelled from the spec: the status code sent by
`send_unauthorized_response`, a function of `http_util.hpp`, which is not
among the sources. The spec gives 401 for missing or invalid credentials. -/
def unauthorized_status : Nat := 401

/-- Outcome of `handle_http_client`: the status code sent, the call of
`process_message`, if made, and the connection state left. -/
structure HttpOutcome where
  status : Nat
  processed : Option ProcessCall
  conn_state : ConnectionState
  deriving DecidableEq

/-- Model of `handle_http_client` (lines 356-535). -/
def handle_http_client (http : HttpEnv) (env : PipelineEnv) (conn_state : ConnectionState)
    (config : Config) (debug_mode : Bool) : HttpOutcome :=
  if http.initial_read ≤ 0 then ⟨400, none, conn_state⟩
  else if http.request.method ≠ "POST" then ⟨405, none, conn_state⟩
  else
    match http.request.authorization with
    | none => ⟨unauthorized_status, none, conn_state⟩
    | some credentials =>
      if !http.authenticate_user credentials then ⟨unauthorized_status, none, conn_state⟩
      else
        let json_msg := http.parse_json_message http.request.body
        if !json_msg.valid then ⟨400, none, conn_state⟩
        else if json_msg.capcode = 0 then ⟨400, none, conn_state⟩
        else if json_msg.message.isEmpty then ⟨400, none, conn_state⟩
        else
          let frequency :=
            if json_msg.frequency > 0 then json_msg.frequency else config.DEFAULT_FREQUENCY
          let r := process_message env json_msg.capcode json_msg.message frequency conn_state
            config debug_mode
          if r.success then
            ⟨200, some ⟨json_msg.capcode, json_msg.message, frequency, r⟩, r.conn_state⟩
          else ⟨500, some ⟨json_msg.capcode, json_msg.message, frequency, r⟩, r.conn_state⟩

/-- A connection accepted by the main loop, with the external results its
handling depends on: one accepted on the raw-TCP listener or one accepted on
the HTTP listener. -/
inductive Connection where
  | serial (valRead : Int) (input : List Char) (env : PipelineEnv)
  | http (request : HttpEnv) (env : PipelineEnv)

/-- What the handling of a connection produced. -/
inductive ConnectionOutcome where
  | serial (outcome : SerialOutcome)
  | http (outcome : HttpOutcome)
  deriving DecidableEq

/-- The connection state a handler left behind. -/
def ConnectionOutcome.conn_state : ConnectionOutcome → ConnectionState
  | ConnectionOutcome.serial o => o.conn_state
  | ConnectionOutcome.http o => o.conn_state

/-- The call of `process_message` a handler made, if any. -/
def ConnectionOutcome.processed : ConnectionOutcome → Option ProcessCall
  | ConnectionOutcome.serial o => o.processed
  | ConnectionOutcome.http o => o.processed

/-- Dispatch of one accepted connection in the main loop (lines 759-791):
both handlers are passed the same `conn_state` variable of `main`. -/
def handle_connection (stoull : List Char → Option Nat) (config : Config) (debug_mode : Bool)
    (conn_state : ConnectionState) : Connection → ConnectionOutcome
  | Connection.serial valRead input env =>
    ConnectionOutcome.serial
      (handle_serial_client stoull env valRead input conn_state config debug_mode)
  | Connection.http request env =>
    ConnectionOutcome.http (handle_http_client request env conn_state config debug_mode)

/-- The main server loop over the connections accepted, in order, starting
from the given value of the variable `conn_state`. -/
def serve (stoull : List Char → Option Nat) (config : Config) (debug_mode : Bool) :
    ConnectionState → List Connection → List ConnectionOutcome
  | _, [] => []
  | conn_state, c :: cs =>
    let o := handle_connection stoull config debug_mode conn_state c
    o :: serve stoull config debug_mode o.conn_state cs

/-- The constructor `ConnectionState() : first_message(true) {}`; the time
point member is value-initialised. -/
def ConnectionState.fresh : ConnectionState := ⟨0, true⟩

/-- The server loop of `main`, which declares the one `ConnectionState` at
line 713. -/
def main_loop (stoull : List Char → Option Nat) (config : Config) (debug_mode : Bool)
    (connections : List Connection) : List ConnectionOutcome :=
  serve stoull config debug_mode ConnectionState.fresh connections

/-- The configuration checks of `main` (lines 609-637): the exit code they
return, `none` when start-up goes on. -/
def startup_validation (config : Config) : Option Nat :=
  if config.FLEX_POWER < 2 ∨ config.FLEX_POWER > 20 then some 2
  else if config.SERIAL_LISTEN_PORT = 0 ∧ config.HTTP_LISTEN_PORT = 0 then some 2
  else none

/-! ## Line view of the response reader -/

/-- The bytes among a list of reader events, in order. -/
def event_bytes : List PollEvent → List Int
  | [] => []
  | PollEvent.byte c :: es => c :: event_bytes es
  | _ :: es => event_bytes es

/-- The in-progress line after one more character, as lines 189-250 of
`at_read_flex_response` update `line_pos` and `line_buffer`. -/
def line_after_char (line : List Int) (c : Int) : List Int :=
  if c = 13 then line
  else if c = 10 then []
  else if line.length < AT_BUFFER_SIZE - 1 ∧ c ≥ 32 ∧ c ≤ 126 then line ++ [c]
  else if c < 32 ∧ c ≠ 13 ∧ c ≠ 10 then []
  else line

/-- The in-progress line after a run of characters. -/
def line_after (line : List Int) : List Int → List Int
  | [] => line
  | c :: cs => line_after (line_after_char line c) cs

/-- The non-empty lines that a run of characters completes, in order, when
the in-progress line at its start is `line`: a line is completed by an LF
that finds `line_pos > 0` (lines 193-200). -/
def completed_lines (line : List Int) : List Int → List (List Int)
  | [] => []
  | c :: cs =>
    if c = 10 ∧ line.length ≠ 0 then line :: completed_lines [] cs
    else completed_lines (line_after_char line c) cs

/-- A completed line on which the reader returns: `strcmp` equal to `OK` or
to `ERROR`. -/
def is_terminal_line (line : List Int) : Bool :=
  line = cstr "OK" || line = cstr "ERROR"

/-- A completed line that the reader copies into the output buffer: it is
not terminal, starts with `+` and is shorter than `buffer_size`. -/
def is_stored_line (buffer_size : Nat) (line : List Int) : Bool :=
  !is_terminal_line line && line.head? = some 43 && decide (line.length < buffer_size)

/-- Recognises a call of the message transmitter in a pipeline trace. -/
def PipelineCall.is_send : PipelineCall → Bool
  | PipelineCall.send_flex_via_at_commands _ _ _ _ => true
  | _ => false

/-- A device that sends a blank line (`CR LF`) after every 18 empty slices,
eight times over, then stays quiet for 16 slices and only then answers `OK`.
No 20 consecutive slices are empty. -/
def blank_line_stream : List PollEvent :=
  (List.replicate 8
    (List.replicate 18 PollEvent.pollTimeout ++ [PollEvent.byte 13, PollEvent.byte 10])).foldr
      (fun block acc => block ++ acc) [] ++
  List.replicate 16 PollEvent.pollTimeout ++ bytes (cstr "OK\r\n")

/-- A data line of 1024 characters: `+` followed by 1023 times `A`. -/
def long_data_line : List Int := 43 :: List.replicate 1023 65

/-- An attempt in which the device answers with the given bytes. -/
def answer (text : String) : AttemptScript :=
  { write_ok := true, events := bytes (cstr text), ping_write_ok := true, ping_events := [] }

/-- A device that answers `ERROR` to the first attempt and `OK` from then on. -/
def error_then_ok_script : Nat → AttemptScript :=
  fun n => if n = 1 then answer "ERROR\r\n" else answer "OK\r\n"

/-- A device that answers every attempt with a data line and nothing more. -/
def data_only_script : Nat → AttemptScript :=
  fun _ => answer "+SEND: READY\r\n"

/-- A device that answers `ERROR` to every attempt. -/
def always_error_script : Nat → AttemptScript :=
  fun _ => answer "ERROR\r\n"

/-- A device that stays silent after every command. -/
def silent_script : Nat → AttemptScript :=
  fun _ => { write_ok := true, events := [], ping_write_ok := true, ping_events := [] }

/-- A descriptor on which every `poll()` fails. -/
def poll_error_script : Nat → AttemptScript :=
  fun _ => { write_ok := true, events := [PollEvent.pollError], ping_write_ok := true,
             ping_events := [] }

/-- A device that answers `OK` to every command. -/
def always_ok_script : Nat → AttemptScript :=
  fun _ => answer "OK\r\n"

/-- Confirming probes that fail in the first attempt and succeed afterwards. -/
def flaky_confirm : Nat → Nat → AttemptScript :=
  fun i => if i = 1 then always_error_script else always_ok_script

/-- Return value of the executor for a command run against a script. -/
def command_result (command : String) (script : Nat → AttemptScript) : Int :=
  (at_execute_flex_command command [] AT_BUFFER_SIZE script).ret

/-- The calls of a pass of the outer send loop in which `AT+SEND` is written
but the device does not report readiness. -/
def not_ready_calls (size : Nat) (a : SendAttempt) : List SendCall :=
  [SendCall.flush, SendCall.execute "AT\r\n" (probe_result a.reset), SendCall.flush,
   SendCall.write_send size true, SendCall.tcdrain, SendCall.read (ready_result a)]

/-- A payload of 70 bytes. -/
def sample_payload : List Nat := List.range 70

/-- Observations of `k` chunk writes that are accepted whole at once. -/
def full_steps (k : Nat) : List ChunkStep := List.replicate k ⟨false, 0, 0⟩

/-- A send attempt on a device that answers `AT+SEND` with `ERROR`. -/
def refused_attempt : SendAttempt :=
  { reset := always_ok_script, send_write_ok := true,
    ready_events := bytes (cstr "ERROR\r\n"), chunk_steps := [], final_events := [] }

/-- A send attempt on a device that follows `+SEND: READY` with `OK` at once. -/
def ready_ok_attempt : SendAttempt :=
  { reset := always_ok_script, send_write_ok := true,
    ready_events := bytes (cstr "+SEND: READY\r\nOK\r\n"), chunk_steps := full_steps 3,
    final_events := bytes (cstr "OK\r\n") }

/-- A send attempt on a device that reports readiness, takes the payload and
confirms with `OK`. -/
def good_attempt : SendAttempt :=
  { reset := always_ok_script, send_write_ok := true,
    ready_events := bytes (cstr "+SEND: READY\r\n"), chunk_steps := full_steps 3,
    final_events := bytes (cstr "OK\r\n") }

/-- A send attempt like `good_attempt` whose final answer is `ERROR`. -/
def unconfirmed_attempt : SendAttempt :=
  { reset := always_ok_script, send_write_ok := true,
    ready_events := bytes (cstr "+SEND: READY\r\n"), chunk_steps := full_steps 3,
    final_events := bytes (cstr "ERROR\r\n") }

/-- A device that accepts the radio settings and refuses every `AT+SEND`. -/
def never_ready_env : SendEnv :=
  { freq := always_ok_script, power := always_ok_script, attempt := fun _ => refused_attempt }

/-- A device that fails to confirm the first transmission and confirms the
second. -/
def second_try_env : SendEnv :=
  { freq := always_ok_script, power := always_ok_script,
    attempt := fun k => if k = 1 then unconfirmed_attempt else good_attempt }

/-- Radio settings: 916 MHz at power 2. -/
def sample_radio : FlexATConfig := { frequency_text := "916.0000", power := 2 }

/-- A pipeline environment in which every collaborator succeeds. -/
def sample_env : PipelineEnv :=
  { is_capcode_valid := fun c => decide (0 < c),
    tf_encode_flex_message_ex := fun _ _ => ([0x87, 0x0C, 0xA6, 0xC6], 0),
    open_result := 3, init_result := 0, emr_now := 1000,
    emr_send_result := -1, payload_send_result := 0, success_now := 2000 }

/-- The defaults set by `load_config` (`config.hpp`). -/
def sample_config : Config :=
  { BIND_ADDRESS := "127.0.0.1", SERIAL_LISTEN_PORT := 16175, HTTP_LISTEN_PORT := 16180,
    HTTP_AUTH_CREDENTIALS := "passwords", FLEX_DEVICE := "/dev/ttyUSB0",
    FLEX_BAUDRATE := 115200, FLEX_POWER := 2, DEFAULT_FREQUENCY := 916000000 }

/-- Recognises a call of `close_flex_at_serial` in a pipeline trace. -/
def PipelineCall.is_close : PipelineCall → Bool
  | PipelineCall.close_flex_at_serial _ => true
  | _ => false

/-- Like `sample_env`, with no serial device attached: the open fails. -/
def no_device_env : PipelineEnv := { sample_env with open_result := -1 }

/-- Like `sample_env`, with a device that does not answer the `AT` probes. -/
def mute_device_env : PipelineEnv := { sample_env with init_result := -1 }

/-- The pipeline environment that comes with a connection. -/
def Connection.env : Connection → PipelineEnv
  | Connection.serial _ _ env => env
  | Connection.http _ env => env

/-- A stand-in for `std::stoull` on non-empty strings of decimal digits. -/
def sample_stoull (s : List Char) : Option Nat :=
  if s ≠ [] ∧ s.all (fun ch => decide (48 ≤ ch.toNat ∧ ch.toNat ≤ 57)) = true then
    some (s.foldl (fun n ch => 10 * n + (ch.toNat - 48)) 0)
  else none

/-- An authenticated `POST` whose JSON body gives a capcode and a message and
leaves the frequency out. -/
def sample_http : HttpEnv :=
  { initial_read := 120,
    request := { method := "POST", authorization := some "Basic YWRtaW46cGFzc3cwcmQ=",
                 body := "\x7b\"capcode\":1122334,\"message\":\"Hi\"\x7d" },
    authenticate_user := fun credentials => credentials == "Basic YWRtaW46cGFzc3cwcmQ=",
    parse_json_message := fun _ => ⟨true, 1122334, "Hi", 0⟩ }

/-- Like `sample_http`, with the method `GET`. -/
def get_http : HttpEnv :=
  { sample_http with request := { sample_http.request with method := "GET" } }

/-- Like `sample_http`, without an `Authorization` header. -/
def anonymous_http : HttpEnv :=
  { sample_http with request := { sample_http.request with authorization := none } }

/-- Like `sample_http`, with the capcode 0 in the body. -/
def capcode_zero_http : HttpEnv :=
  { sample_http with parse_json_message := fun _ => ⟨true, 0, "Hi", 0⟩ }

/-- Like `sample_env`, a little later on the clock. -/
def later_env : PipelineEnv := { sample_env with emr_now := 3000, success_now := 4000 }

/-- Lines that contain or start with `OK` or `ERROR` without being equal to
them, followed by the line `ERROR` and then the line `OK`. -/
def near_terminal_stream : List Int :=
  cstr "OK \r\nXOK\r\n+OK\r\nERROR: 1\r\nERROR\r\nOK\r\n"

/-- The first `n` events of an unending sequence of events. -/
def first_events (stream : Nat → PollEvent) : Nat → List PollEvent
  | 0 => []
  | n + 1 => first_events stream n ++ [stream n]

/-- A device that sends the letter `A` for ever. -/
def letter_stream : Nat → PollEvent := fun _ => PollEvent.byte 65

/-! ## Theorems -/

set_option maxRecDepth 100000

/-! ### Helper lemmas on the reader loop -/

theorem cstr_ok_line : cstr "OK\r\n" = [79, 75, 13, 10] := by decide

theorem cstr_error_line : cstr "ERROR\r\n" = [69, 82, 82, 79, 82, 13, 10] := by decide

theorem cstr_ok : cstr "OK" = [79, 75] := by decide

theorem cstr_error : cstr "ERROR" = [69, 82, 82, 79, 82] := by decide

/-- Consuming a prefix of the events without returning leaves the rest of
the call to run from the state reached. -/
theorem reader_loop_append (buffer_size : Nat) (es rest : List PollEvent) :
    ∀ (s st : ReaderState) (n : Nat), reader_state_after buffer_size es s = some st →
      st.running →
      reader_loop buffer_size (es ++ rest) s n =
        reader_loop buffer_size rest st (n + es.length) := by
  induction es with
  | nil =>
    intro s st n h _
    simp only [reader_state_after, Option.some.injEq] at h
    subst h
    simp
  | cons e es ih =>
    intro s st n h hrun
    simp only [reader_state_after] at h
    by_cases hc : s.total_timeout > 0 ∧ s.empty_reads < 20
    · simp only [hc, and_self, if_true] at h
      cases hstep : reader_step buffer_size s e with
      | next s1 =>
        rw [hstep] at h
        have hih := ih s1 st (n + 1) h hrun
        simp only [List.cons_append, reader_loop, hc, and_self, if_true, hstep]
        have hlen : n + (e :: es).length = n + 1 + es.length := by
          simp only [List.length_cons]; omega
        rw [hlen]
        exact hih
      | done r s1 =>
        rw [hstep] at h
        simp at h
    · simp [hc] at h

/-- A byte never stops the loop test from holding on the next pass. -/
theorem reader_char_running (buffer_size : Nat) (s s1 : ReaderState) (c : Int)
    (hs : s.total_timeout > 0)
    (h : reader_step buffer_size s (PollEvent.byte c) = ReaderStep.next s1) :
    s1.running := by
  simp only [reader_step, reader_char, reader_end_of_line] at h
  unfold ReaderState.running
  split_ifs at h <;>
    (simp only [ReaderStep.next.injEq] at h; subst h; simp [AT_TIMEOUT_MS]; try omega)

/-- Over a run of bytes the loop test keeps holding. -/
theorem reader_bytes_running (buffer_size : Nat) (cs : List Int) :
    ∀ (s st : ReaderState), s.running →
      reader_state_after buffer_size (bytes cs) s = some st → st.running := by
  induction cs with
  | nil =>
    intro s st hs h
    simp only [bytes, List.map_nil, reader_state_after, Option.some.injEq] at h
    subst h
    exact hs
  | cons c cs ih =>
    intro s st hs h
    simp only [bytes, List.map_cons, reader_state_after] at h
    by_cases hc : s.total_timeout > 0 ∧ s.empty_reads < 20
    · simp only [hc, and_self, if_true] at h
      cases hstep : reader_step buffer_size s (PollEvent.byte c) with
      | next s1 =>
        rw [hstep] at h
        exact ih s1 st (reader_char_running buffer_size s s1 c hc.1 hstep) h
      | done r s1 =>
        rw [hstep] at h
        simp at h
    · simp [hc] at h

/-- From an empty in-progress line the bytes `OK CR LF` end the call with
`AT_RESP_OK`, leaving whatever follows unread. -/
theorem reader_loop_ok_line (buffer_size : Nat) (s : ReaderState) (n : Nat)
    (rest : List PollEvent) (hline : s.line_buffer = []) (hrun : s.running) :
    reader_loop buffer_size (bytes (cstr "OK\r\n") ++ rest) s n =
      ⟨AT_RESP_OK, { s with line_buffer := [79, 75], total_timeout := AT_TIMEOUT_MS,
                            empty_reads := 0 }, n + 4, rest⟩ := by
  obtain ⟨h1, h2⟩ := hrun
  rw [cstr_ok_line]
  simp [bytes, reader_loop, reader_step, reader_char, reader_end_of_line, hline, h1, h2,
    AT_BUFFER_SIZE, AT_TIMEOUT_MS, cstr_ok]

/-- From an empty in-progress line the bytes `ERROR CR LF` end the call with
`AT_RESP_ERROR`, leaving whatever follows unread. -/
theorem reader_loop_error_line (buffer_size : Nat) (s : ReaderState) (n : Nat)
    (rest : List PollEvent) (hline : s.line_buffer = []) (hrun : s.running) :
    reader_loop buffer_size (bytes (cstr "ERROR\r\n") ++ rest) s n =
      ⟨AT_RESP_ERROR, { s with line_buffer := [69, 82, 82, 79, 82],
                               total_timeout := AT_TIMEOUT_MS, empty_reads := 0 },
        n + 7, rest⟩ := by
  obtain ⟨h1, h2⟩ := hrun
  rw [cstr_error_line]
  simp [bytes, reader_loop, reader_step, reader_char, reader_end_of_line, hline, h1, h2,
    AT_BUFFER_SIZE, AT_TIMEOUT_MS, cstr_ok, cstr_error]

/-- Twenty silent passes are always enough: once `quiet + empty_reads` covers
the limit of 20, a larger `quiet` changes nothing, so the `quiet = 0` case of
`reader_silence` is only ever reached when the loop test fails. -/
theorem reader_silence_enough (buffer_size : Nat) :
    ∀ (quiet : Nat) (s : ReaderState) (n : Nat), 20 ≤ quiet + s.empty_reads →
      reader_silence buffer_size (quiet + 1) s n = reader_silence buffer_size quiet s n := by
  intro quiet
  induction quiet with
  | zero =>
    intro s n h
    have hc : ¬ (s.total_timeout > 0 ∧ s.empty_reads < 20) := by omega
    simp [reader_silence, hc]
  | succ quiet ih =>
    intro s n h
    have hl : reader_silence buffer_size (quiet + 1 + 1) s n =
        if s.total_timeout > 0 ∧ s.empty_reads < 20 then
          reader_silence buffer_size (quiet + 1)
            { s with total_timeout := s.total_timeout - 50,
                     empty_reads := s.empty_reads + 1 } (n + 1)
        else reader_exit s n [] := rfl
    have hr : reader_silence buffer_size (quiet + 1) s n =
        if s.total_timeout > 0 ∧ s.empty_reads < 20 then
          reader_silence buffer_size quiet
            { s with total_timeout := s.total_timeout - 50,
                     empty_reads := s.empty_reads + 1 } (n + 1)
        else reader_exit s n [] := rfl
    rw [hl, hr]
    by_cases hc : s.total_timeout > 0 ∧ s.empty_reads < 20
    · rw [if_pos hc, if_pos hc]
      exact ih _ (n + 1) (by simp only; omega)
    · rw [if_neg hc, if_neg hc]

/-- On a silent line the loop ends when `empty_reads` reaches 20. -/
theorem reader_silence_quiet (buffer_size : Nat) :
    ∀ (quiet k : Nat) (s : ReaderState) (n : Nat), s.empty_reads = k →
      s.total_timeout = 8000 - 50 * (k : Int) → k ≤ 20 → 20 ≤ quiet + k →
      reader_silence buffer_size quiet s n =
        reader_exit { s with total_timeout := 7000, empty_reads := 20 } (n + (20 - k)) [] := by
  intro quiet
  induction quiet with
  | zero =>
    intro k s n hk ht hle hge
    have h20 : k = 20 := by omega
    subst h20
    have hs : s = { s with total_timeout := 7000, empty_reads := 20 } := by
      cases s
      simp only [ReaderState.mk.injEq, true_and, and_true] at *
      exact ⟨by omega, hk⟩
    rw [← hs]
    simp [reader_silence]
  | succ quiet ih =>
    intro k s n hk ht hle hge
    by_cases h20 : k = 20
    · subst h20
      have hs : s = { s with total_timeout := 7000, empty_reads := 20 } := by
        cases s
        simp only [ReaderState.mk.injEq, true_and, and_true] at *
        exact ⟨by omega, hk⟩
      rw [← hs]
      have hc : ¬ (s.total_timeout > 0 ∧ s.empty_reads < 20) := by omega
      simp [reader_silence, hc]
    · have hc : s.total_timeout > 0 ∧ s.empty_reads < 20 := by omega
      simp only [reader_silence, hc, and_self, if_true, reader_step]
      rw [ih (k + 1) _ (n + 1) (by simp [hk]) (by simp only [ht]; push_cast; omega)
        (by omega) (by omega)]
      have hn : n + 1 + (20 - (k + 1)) = n + (20 - k) := by omega
      rw [hn]

/-- While every slice is empty the loop ends when `empty_reads` reaches 20,
whether the list of events is shorter or longer than that. -/
theorem reader_loop_quiet (buffer_size : Nat) :
    ∀ (events : List PollEvent) (k : Nat) (s : ReaderState) (n : Nat),
      (∀ e ∈ events, e.is_empty_slice = true) → s.empty_reads = k →
      s.total_timeout = 8000 - 50 * (k : Int) → k ≤ 20 →
      reader_loop buffer_size events s n =
        reader_exit { s with total_timeout := 7000, empty_reads := 20 } (n + (20 - k))
          (events.drop (20 - k)) := by
  intro events
  induction events with
  | nil =>
    intro k s n _ hk ht hle
    simp only [reader_loop, List.drop_nil]
    exact reader_silence_quiet buffer_size 20 k s n hk ht hle (by omega)
  | cons e es ih =>
    intro k s n hall hk ht hle
    by_cases h20 : k = 20
    · subst h20
      have hs : s = { s with total_timeout := 7000, empty_reads := 20 } := by
        cases s
        simp only [ReaderState.mk.injEq, true_and, and_true] at *
        exact ⟨by omega, hk⟩
      rw [← hs]
      have hc : ¬ (s.total_timeout > 0 ∧ s.empty_reads < 20) := by omega
      simp [reader_loop, hc]
    · have hc : s.total_timeout > 0 ∧ s.empty_reads < 20 := by omega
      have he := hall e (List.mem_cons_self e es)
      have hes : ∀ x ∈ es, x.is_empty_slice = true :=
        fun x hx => hall x (List.mem_cons_of_mem e hx)
      have hdrop : (e :: es).drop (20 - k) = es.drop (20 - (k + 1)) := by
        have h1 : 20 - k = (20 - (k + 1)) + 1 := by omega
        rw [h1, List.drop_succ_cons]
      have hn : n + 1 + (20 - (k + 1)) = n + (20 - k) := by omega
      cases e with
      | pollTimeout =>
        simp only [reader_loop, hc, and_self, if_true, reader_step]
        rw [ih (k + 1) _ (n + 1) hes (by simp [hk]) (by simp only [ht]; push_cast; omega)
          (by omega), hdrop, hn]
      | readEmpty =>
        simp only [reader_loop, hc, and_self, if_true, reader_step]
        rw [ih (k + 1) _ (n + 1) hes (by simp [hk]) (by simp only [ht]; push_cast; omega)
          (by omega), hdrop, hn]
      | pollError => simp [PollEvent.is_empty_slice] at he
      | noPollin => simp [PollEvent.is_empty_slice] at he
      | readError => simp [PollEvent.is_empty_slice] at he
      | byte c => simp [PollEvent.is_empty_slice] at he

/-- Running over two runs of events is running over the first, then the second. -/
theorem reader_state_after_append (buffer_size : Nat) (es rest : List PollEvent) :
    ∀ (s : ReaderState), reader_state_after buffer_size (es ++ rest) s =
      (reader_state_after buffer_size es s).bind (reader_state_after buffer_size rest) := by
  induction es with
  | nil => intro s; simp [reader_state_after]
  | cons e es ih =>
    intro s
    simp only [List.cons_append, reader_state_after]
    by_cases hc : s.total_timeout > 0 ∧ s.empty_reads < 20
    · simp only [hc, and_self, if_true]
      cases hstep : reader_step buffer_size s e with
      | next s1 => exact ih s1
      | done r s1 => simp
    · simp [hc]

/-- Printable characters that fit the line buffer are appended to the line. -/
theorem reader_state_after_printable (buffer_size : Nat) (cs : List Int) :
    ∀ (s : ReaderState), s.total_timeout = AT_TIMEOUT_MS → s.empty_reads = 0 →
      (∀ c ∈ cs, 32 ≤ c ∧ c ≤ 126) → s.line_buffer.length + cs.length < AT_BUFFER_SIZE →
      reader_state_after buffer_size (bytes cs) s =
        some { s with line_buffer := s.line_buffer ++ cs } := by
  induction cs with
  | nil => intro s _ _ _ _; simp [bytes, reader_state_after]
  | cons c cs ih =>
    intro s ht he hall hlen
    have hc := hall c (List.mem_cons_self c cs)
    have hcs : ∀ x ∈ cs, 32 ≤ x ∧ x ≤ 126 := fun x hx => hall x (List.mem_cons_of_mem c hx)
    simp only [List.length_cons, AT_BUFFER_SIZE] at hlen
    have h13 : c ≠ 13 := by omega
    have h10 : c ≠ 10 := by omega
    have hfit : s.line_buffer.length < AT_BUFFER_SIZE - 1 := by
      simp only [AT_BUFFER_SIZE]; omega
    have hrun : s.total_timeout > 0 ∧ s.empty_reads < 20 := by
      simp only [ht, he, AT_TIMEOUT_MS]; omega
    simp only [bytes, List.map_cons, reader_state_after, hrun, and_self, if_true, reader_step,
      reader_char, h13, h10, if_false, hfit, hc.1, hc.2, ge_iff_le, true_and]
    have hih := ih { s with empty_reads := 0, line_buffer := s.line_buffer ++ [c],
                            total_timeout := AT_TIMEOUT_MS } rfl rfl hcs
      (by simp only [List.length_append, List.length_cons, List.length_nil, AT_BUFFER_SIZE]
          omega)
    simp only [bytes] at hih
    rw [hih]
    cases s
    simp only [List.append_assoc, List.singleton_append] at *
    simp [ht, he]

/-- An LF after a line that starts with `+` stores the line when it fits the
output buffer, and only clears the line otherwise. -/
theorem reader_step_data_line (buffer_size : Nat) (s : ReaderState)
    (hrun : s.running) (hplus : s.line_buffer.head? = some 43) :
    reader_state_after buffer_size [PollEvent.byte 10] s =
      some (if s.line_buffer.length < buffer_size then
              { s with buffer := s.line_buffer, got_response := true, line_buffer := [],
                       total_timeout := AT_TIMEOUT_MS, empty_reads := 0 }
            else { s with line_buffer := [], total_timeout := AT_TIMEOUT_MS,
                          empty_reads := 0 }) := by
  obtain ⟨h1, h2⟩ := hrun
  have hne : s.line_buffer.length ≠ 0 := by
    cases hl : s.line_buffer with
    | nil => simp [hl] at hplus
    | cons a l => simp
  have hok : s.line_buffer ≠ cstr "OK" := by
    intro h; rw [h, cstr_ok] at hplus; simp at hplus
  have herr : s.line_buffer ≠ cstr "ERROR" := by
    intro h; rw [h, cstr_error] at hplus; simp at hplus
  simp only [reader_state_after, h1, h2, and_self, if_true, reader_step, reader_char,
    reader_end_of_line, hne, hok, herr, hplus, if_false]
  by_cases hfit : s.line_buffer.length < buffer_size <;> simp [hfit]

/-- A printable line that starts with `+` and fits the line buffer, followed
by LF, leaves the reader running with the line stored (when it fits the output
buffer) and the in-progress line empty. -/
theorem reader_state_after_data_line (buffer_size : Nat) (line : List Int)
    (hprint : ∀ c ∈ line, 32 ≤ c ∧ c ≤ 126) (hplus : line.head? = some 43)
    (hlen : line.length < AT_BUFFER_SIZE) :
    reader_state_after buffer_size (bytes line ++ [PollEvent.byte 10]) reader_init =
      some (if line.length < buffer_size then
              { reader_init with buffer := line, got_response := true }
            else reader_init) := by
  have h1 := reader_state_after_printable buffer_size line reader_init rfl rfl hprint
    (by simpa [reader_init] using hlen)
  rw [reader_state_after_append, h1]
  simp only [Option.some_bind, reader_init, List.nil_append]
  rw [reader_step_data_line buffer_size _ (by simp [ReaderState.running, AT_TIMEOUT_MS])
    (by simpa using hplus)]

/-- The reader started on events that run it into a state with fresh
counters, then left in silence, gives up after 20 more passes. -/
theorem reader_loop_then_silence (buffer_size : Nat) (es : List PollEvent)
    (st : ReaderState) (hst : reader_state_after buffer_size es reader_init = some st)
    (ht : st.total_timeout = AT_TIMEOUT_MS) (he : st.empty_reads = 0) :
    reader_loop buffer_size es reader_init 0 =
      reader_exit { st with total_timeout := 7000, empty_reads := 20 } (es.length + 20) [] := by
  have hrun : st.running := by
    simp only [ReaderState.running, ht, he, AT_TIMEOUT_MS]; omega
  have h := reader_loop_append buffer_size es [] reader_init st 0 hst hrun
  rw [List.append_nil] at h
  rw [h, reader_loop_quiet buffer_size [] 0 st (0 + es.length) (by simp) he
    (by simp [ht, AT_TIMEOUT_MS]) (by omega)]
  simp

/-- A printable character that arrives when the line buffer is full is
dropped. -/
theorem reader_state_after_full_line (buffer_size : Nat) (s : ReaderState) (c : Int)
    (ht : s.total_timeout = AT_TIMEOUT_MS) (he : s.empty_reads = 0)
    (hfull : s.line_buffer.length = AT_BUFFER_SIZE - 1) (hc : 32 ≤ c ∧ c ≤ 126) :
    reader_state_after buffer_size [PollEvent.byte c] s = some s := by
  have h13 : c ≠ 13 := by omega
  have h10 : c ≠ 10 := by omega
  have h32 : ¬ c < 32 := by omega
  have hrun : s.total_timeout > 0 ∧ s.empty_reads < 20 := by
    simp only [ht, he, AT_TIMEOUT_MS]; omega
  simp only [reader_state_after, hrun, and_self, if_true, reader_step, reader_char, h13, h10,
    if_false, hfull, lt_irrefl, false_and, h32]
  cases s
  simp only [Option.some.injEq, ReaderState.mk.injEq, true_and, and_true] at *
  exact ⟨ht.symm, he.symm⟩

/-- The 1024-character data line followed by LF leaves its first 1023
characters in any output buffer of more than 1023 bytes. -/
theorem reader_state_after_long_data_line (buffer_size : Nat) (hsize : 1023 < buffer_size) :
    reader_state_after buffer_size (bytes long_data_line ++ [PollEvent.byte 10]) reader_init =
      some { reader_init with buffer := 43 :: List.replicate 1022 65, got_response := true } := by
  have hsplit : bytes long_data_line ++ [PollEvent.byte 10] =
      bytes (43 :: List.replicate 1022 65) ++ ([PollEvent.byte 65] ++ [PollEvent.byte 10]) := by
    have : long_data_line = (43 :: List.replicate 1022 65) ++ [65] := by decide
    rw [this]
    simp [bytes]
  have hprint : ∀ c ∈ (43 :: List.replicate 1022 65 : List Int), 32 ≤ c ∧ c ≤ 126 := by
    intro c hc
    simp only [List.mem_cons, List.mem_replicate] at hc
    omega
  have h1 := reader_state_after_printable buffer_size (43 :: List.replicate 1022 65)
    reader_init rfl rfl hprint (by simp [reader_init, AT_BUFFER_SIZE])
  rw [hsplit, reader_state_after_append, h1, Option.some_bind, reader_state_after_append,
    reader_state_after_full_line buffer_size _ 65 rfl rfl
      (by simp [reader_init, AT_BUFFER_SIZE]) (by omega),
    Option.some_bind,
    reader_step_data_line buffer_size _ (by simp [ReaderState.running, reader_init, AT_TIMEOUT_MS])
      (by simp [reader_init])]
  simp [reader_init, hsize]

/-! ### Helper lemmas on the retry loop -/

/-- A pass whose write fails returns -1 without reading. -/
theorem execute_loop_write_fails (command : String) (response_size : Nat)
    (script : Nat → AttemptScript) (retries : Nat) (response : List Int)
    (hw : (script (AT_MAX_RETRIES - retries)).write_ok = false) :
    execute_loop command response_size script (retries + 1) response =
      ⟨-1, response, [SerialCall.flush, SerialCall.write command], 0⟩ := by
  simp [execute_loop, at_send_flex_command, hw]

/-- A pass classified OK returns 0 at once. -/
theorem execute_loop_ok (command : String) (response_size : Nat)
    (script : Nat → AttemptScript) (retries : Nat) (response : List Int)
    (hw : (script (AT_MAX_RETRIES - retries)).write_ok = true)
    (hr : attempt_result response_size script (AT_MAX_RETRIES - retries) = AT_RESP_OK) :
    execute_loop command response_size script (retries + 1) response =
      ⟨0, (at_read_flex_response response_size []
             (script (AT_MAX_RETRIES - retries)).events).buffer, attempt_calls command, 1⟩ := by
  have hr2 : (at_read_flex_response response_size response
      (script (AT_MAX_RETRIES - retries)).events).result = AT_RESP_OK := hr
  simp only [execute_loop, at_send_flex_command, hw, if_true, hr2]
  simp [attempt_calls, AT_INTER_CMD_DELAY, at_read_flex_response]

/-- A pass classified DATA returns -1 at once. -/
theorem execute_loop_data (command : String) (response_size : Nat)
    (script : Nat → AttemptScript) (retries : Nat) (response : List Int)
    (hw : (script (AT_MAX_RETRIES - retries)).write_ok = true)
    (hr : attempt_result response_size script (AT_MAX_RETRIES - retries) = AT_RESP_DATA) :
    execute_loop command response_size script (retries + 1) response =
      ⟨-1, (at_read_flex_response response_size []
              (script (AT_MAX_RETRIES - retries)).events).buffer, attempt_calls command, 1⟩ := by
  have hr2 : (at_read_flex_response response_size response
      (script (AT_MAX_RETRIES - retries)).events).result = AT_RESP_DATA := hr
  simp only [execute_loop, at_send_flex_command, hw, if_true, hr2]
  simp [attempt_calls, AT_INTER_CMD_DELAY, at_read_flex_response]

/-- The last pass, when classified ERROR, TIMEOUT or INVALID, returns -1. -/
theorem execute_loop_last (command : String) (response_size : Nat)
    (script : Nat → AttemptScript) (response : List Int)
    (hw : (script (AT_MAX_RETRIES - 0)).write_ok = true)
    (hr : attempt_result response_size script (AT_MAX_RETRIES - 0) = AT_RESP_ERROR ∨
          attempt_result response_size script (AT_MAX_RETRIES - 0) = AT_RESP_TIMEOUT ∨
          attempt_result response_size script (AT_MAX_RETRIES - 0) = AT_RESP_INVALID) :
    execute_loop command response_size script (0 + 1) response =
      ⟨-1, (at_read_flex_response response_size []
              (script (AT_MAX_RETRIES - 0)).events).buffer, attempt_calls command, 1⟩ := by
  rcases hr with hr | hr | hr
  all_goals
    have hr2 : (at_read_flex_response response_size response
        (script (AT_MAX_RETRIES - 0)).events).result = _ := hr
    simp only [execute_loop, at_send_flex_command, hw, if_true, hr2]
    simp [attempt_calls, AT_INTER_CMD_DELAY, at_read_flex_response]

/-- A pass classified ERROR with retries left sleeps 500 ms and goes round. -/
theorem execute_loop_error_retry (command : String) (response_size : Nat)
    (script : Nat → AttemptScript) (retries : Nat) (response : List Int)
    (hw : (script (AT_MAX_RETRIES - (retries + 1))).write_ok = true)
    (hr : attempt_result response_size script (AT_MAX_RETRIES - (retries + 1))
      = AT_RESP_ERROR) :
    execute_loop command response_size script (retries + 1 + 1) response =
      (execute_loop command response_size script (retries + 1)
        (at_read_flex_response response_size []
          (script (AT_MAX_RETRIES - (retries + 1))).events).buffer).after
        (attempt_calls command ++ [SerialCall.usleep 500000]) 1 := by
  have hr2 : (at_read_flex_response response_size response
      (script (AT_MAX_RETRIES - (retries + 1))).events).result = AT_RESP_ERROR := hr
  rw [execute_loop]
  simp only [at_send_flex_command, hw, if_true, hr2]
  simp [attempt_calls, AT_INTER_CMD_DELAY, at_read_flex_response]

/-- A pass classified ERROR, TIMEOUT or INVALID with retries left goes round
after some further calls, none of which is the command write of line 274. -/
theorem execute_loop_retry (command : String) (response_size : Nat)
    (script : Nat → AttemptScript) (retries : Nat) (response : List Int)
    (hw : (script (AT_MAX_RETRIES - (retries + 1))).write_ok = true)
    (hr : attempt_result response_size script (AT_MAX_RETRIES - (retries + 1))
            = AT_RESP_ERROR ∨
          attempt_result response_size script (AT_MAX_RETRIES - (retries + 1))
            = AT_RESP_TIMEOUT ∨
          attempt_result response_size script (AT_MAX_RETRIES - (retries + 1))
            = AT_RESP_INVALID) :
    ∃ (calls : List SerialCall) (buf : List Int),
      execute_loop command response_size script (retries + 1 + 1) response =
        (execute_loop command response_size script (retries + 1) buf).after
          (attempt_calls command ++ calls) 1 ∧
      (command ≠ "AT\r\n" → calls.count (SerialCall.write command) = 0) := by
  rcases hr with hr | hr | hr
  · exact ⟨_, _, execute_loop_error_retry command response_size script retries response hw hr,
      fun _ => by simp⟩
  · have hr2 : (at_read_flex_response response_size response
        (script (AT_MAX_RETRIES - (retries + 1))).events).result = AT_RESP_TIMEOUT := hr
    refine ⟨[SerialCall.flush] ++ (at_send_flex_command "AT\r\n"
        (script (AT_MAX_RETRIES - (retries + 1))).ping_write_ok).2 ++
        [SerialCall.usleep 200000, SerialCall.read, SerialCall.usleep 500000],
      (at_read_flex_response response_size []
        (script (AT_MAX_RETRIES - (retries + 1))).ping_events).buffer, ?_, ?_⟩
    · rw [execute_loop]
      simp only [at_send_flex_command, hw, if_true, hr2]
      simp [attempt_calls, AT_INTER_CMD_DELAY]
      rfl
    · intro hne
      have hne2 : ¬ ("AT\r\n" = command) := fun h => hne h.symm
      cases (script (AT_MAX_RETRIES - (retries + 1))).ping_write_ok <;>
        simp [at_send_flex_command, List.count_cons, hne2]
  · have hr2 : (at_read_flex_response response_size response
        (script (AT_MAX_RETRIES - (retries + 1))).events).result = AT_RESP_INVALID := hr
    refine ⟨[SerialCall.usleep 1000000],
      (at_read_flex_response response_size []
        (script (AT_MAX_RETRIES - (retries + 1))).events).buffer, ?_, fun _ => by simp⟩
    rw [execute_loop]
    simp only [at_send_flex_command, hw, if_true, hr2]
    simp [attempt_calls, AT_INTER_CMD_DELAY]
    rfl

theorem ExecResult.after_nil (x : ExecResult) : x.after [] 0 = x := by
  cases x
  simp [ExecResult.after]

theorem ExecResult.after_after (x : ExecResult) (p q : List SerialCall) (m n : Nat) :
    (x.after p m).after q n = x.after (q ++ p) (n + m) := by
  cases x
  simp [ExecResult.after, Nat.add_assoc]

/-- As long as the passes before attempt `AT_MAX_RETRIES - r0` all write
successfully and are classified ERROR, TIMEOUT or INVALID, the loop arrives at
that attempt, having sent the command once per earlier pass. -/
theorem execute_loop_reach (command : String) (response_size : Nat)
    (script : Nat → AttemptScript) :
    ∀ (d r0 : Nat) (response : List Int), r0 + d ≤ 4 →
      (∀ j, AT_MAX_RETRIES - (r0 + d) ≤ j → j < AT_MAX_RETRIES - r0 →
        (script j).write_ok = true ∧
        (attempt_result response_size script j = AT_RESP_ERROR ∨
         attempt_result response_size script j = AT_RESP_TIMEOUT ∨
         attempt_result response_size script j = AT_RESP_INVALID)) →
      ∃ (pre : List SerialCall) (buf : List Int),
        execute_loop command response_size script (r0 + d + 1) response =
          (execute_loop command response_size script (r0 + 1) buf).after pre d ∧
        (command ≠ "AT\r\n" → pre.count (SerialCall.write command) = d) := by
  intro d
  induction d with
  | zero =>
    intro r0 response _ _
    exact ⟨[], response, (ExecResult.after_nil _).symm, fun _ => by simp⟩
  | succ d ih =>
    intro r0 response hle hall
    have hj := hall (AT_MAX_RETRIES - (r0 + d + 1)) (Nat.le_refl _)
      (by simp only [AT_MAX_RETRIES]; omega)
    obtain ⟨calls, buf, hstep, hcalls⟩ := execute_loop_retry command response_size script
      (r0 + d) response hj.1 hj.2
    obtain ⟨pre, buf2, hrest, hpre⟩ := ih r0 buf (by omega)
      (fun j h1 h2 => hall j (by simp only [AT_MAX_RETRIES] at *; omega) h2)
    refine ⟨attempt_calls command ++ calls ++ pre, buf2, ?_, ?_⟩
    · have hstep2 : execute_loop command response_size script (r0 + (d + 1) + 1) response =
          (execute_loop command response_size script (r0 + d + 1) buf).after
            (attempt_calls command ++ calls) 1 := hstep
      rw [hstep2, hrest, ExecResult.after_after, Nat.add_comm 1 d]
    · intro hne
      rw [List.count_append, List.count_append, hpre hne, hcalls hne]
      simp [attempt_calls, List.count_cons]
      omega

/-- A return value of 0 can only come from a pass classified OK that was
reached through passes classified ERROR, TIMEOUT or INVALID. -/
theorem execute_loop_ret_zero (command : String) (response_size : Nat)
    (script : Nat → AttemptScript) :
    ∀ (r : Nat) (response : List Int), r ≤ 5 →
      (execute_loop command response_size script r response).ret = 0 →
      ∃ k, 6 - r ≤ k ∧ k ≤ 5 ∧ (script k).write_ok = true ∧
        attempt_result response_size script k = AT_RESP_OK ∧
        ∀ j, 6 - r ≤ j → j < k →
          (script j).write_ok = true ∧
          (attempt_result response_size script j = AT_RESP_ERROR ∨
           attempt_result response_size script j = AT_RESP_TIMEOUT ∨
           attempt_result response_size script j = AT_RESP_INVALID) := by
  intro r
  induction r with
  | zero =>
    intro response _ h
    simp [execute_loop] at h
  | succ r ih =>
    intro response hle h
    have ha : AT_MAX_RETRIES - r = 5 - r := rfl
    cases hw : (script (AT_MAX_RETRIES - r)).write_ok with
    | false =>
      rw [execute_loop_write_fails command response_size script r response hw] at h
      simp at h
    | true =>
      cases hres : attempt_result response_size script (AT_MAX_RETRIES - r) with
      | AT_RESP_OK =>
        refine ⟨5 - r, by omega, by omega, hw, hres, ?_⟩
        intro j h1 h2
        omega
      | AT_RESP_DATA =>
        rw [execute_loop_data command response_size script r response hw hres] at h
        simp at h
      | AT_RESP_ERROR | AT_RESP_TIMEOUT | AT_RESP_INVALID =>
        have hretry : attempt_result response_size script (AT_MAX_RETRIES - r)
              = AT_RESP_ERROR ∨
            attempt_result response_size script (AT_MAX_RETRIES - r) = AT_RESP_TIMEOUT ∨
            attempt_result response_size script (AT_MAX_RETRIES - r) = AT_RESP_INVALID := by
          simp [hres]
        cases r with
        | zero =>
          rw [execute_loop_last command response_size script response hw hretry] at h
          simp at h
        | succ r =>
          obtain ⟨calls, buf, hstep, _⟩ := execute_loop_retry command response_size script r
            response hw hretry
          rw [hstep] at h
          obtain ⟨k, hk1, hk2, hkw, hkr, hkall⟩ := ih buf (by omega) h
          refine ⟨k, by omega, hk2, hkw, hkr, ?_⟩
          intro j h1 h2
          by_cases hj : j = 5 - (r + 1)
          · subst hj
            exact ⟨hw, hretry⟩
          · exact hkall j (by omega) h2

/-- The executor arrives at attempt `k` when all earlier attempts write
successfully and are classified ERROR, TIMEOUT or INVALID. -/
theorem at_execute_flex_command_reach (command : String) (response : List Int)
    (response_size : Nat) (script : Nat → AttemptScript) (k : Nat) (hk1 : 1 ≤ k) (hk5 : k ≤ 5)
    (hpre : ∀ j, 1 ≤ j → j < k →
      (script j).write_ok = true ∧
      (attempt_result response_size script j = AT_RESP_ERROR ∨
       attempt_result response_size script j = AT_RESP_TIMEOUT ∨
       attempt_result response_size script j = AT_RESP_INVALID)) :
    ∃ (pre : List SerialCall) (buf : List Int),
      at_execute_flex_command command response response_size script =
        (execute_loop command response_size script (5 - k + 1) buf).after pre (k - 1) ∧
      (command ≠ "AT\r\n" → pre.count (SerialCall.write command) = k - 1) := by
  obtain ⟨pre, buf, h, hcount⟩ := execute_loop_reach command response_size script (k - 1)
    (5 - k) response (by omega)
    (fun j h1 h2 => hpre j (by simp only [AT_MAX_RETRIES] at h1; omega)
      (by simp only [AT_MAX_RETRIES] at h2; omega))
  have e : 5 - k + (k - 1) + 1 = AT_MAX_RETRIES := by simp only [AT_MAX_RETRIES]; omega
  rw [e] at h
  exact ⟨pre, buf, h, hcount⟩

/-! ### Claims -/

/-- C1: whenever `process_message` invokes `send_flex_via_at_commands` (for the
EMR burst or for the payload), in that same call the capcode was valid, the
frequency was within [1,000,000, 6,000,000,000] Hz, the encoder reported
`error >= 0`, `open_flex_at_serial` returned a descriptor `>= 0` and
`at_initialize_flex_device` (which returns 0 or -1) returned 0; the encoder,
the open and the initializer were called, in this order, before any send. -/
theorem process_message_send_gated (env : PipelineEnv) (capcode : Nat) (message : String)
    (frequency : Nat) (conn_state : ConnectionState) (config : Config) (debug_mode : Bool)
    (hinit : env.init_result = 0 ∨ env.init_result = -1)
    (hsend : ∃ c ∈ (process_message env capcode message frequency conn_state config
      debug_mode).trace, c.is_send = true) :
    env.is_capcode_valid capcode = true ∧
    1000000 ≤ frequency ∧ frequency ≤ 6000000000 ∧
    0 ≤ (env.tf_encode_flex_message_ex message capcode).2 ∧
    0 ≤ env.open_result ∧ env.init_result = 0 ∧
    (process_message env capcode message frequency conn_state config debug_mode).trace.take 3 =
      [PipelineCall.tf_encode_flex_message_ex message capcode,
       PipelineCall.open_flex_at_serial config.FLEX_DEVICE config.FLEX_BAUDRATE,
       PipelineCall.at_initialize_flex_device env.open_result] := by
  obtain ⟨c, hc, hs⟩ := hsend
  unfold process_message at hc ⊢
  by_cases h1 : env.is_capcode_valid capcode = true
  · by_cases h2 : frequency < 1000000 ∨ frequency > 6000000000
    · simp [h1, h2] at hc
    · by_cases h3 : (env.tf_encode_flex_message_ex message capcode).2 < 0
      · simp [h1, h2, h3] at hc
        subst hc
        simp [PipelineCall.is_send] at hs
      · by_cases h4 : env.open_result < 0
        · simp [h1, h2, h3, h4] at hc
          rcases hc with hc | hc <;> subst hc <;> simp [PipelineCall.is_send] at hs
        · by_cases h5 : env.init_result < 0
          · simp [h1, h2, h3, h4, h5] at hc
            rcases hc with hc | hc | hc | hc <;> subst hc <;>
              simp [PipelineCall.is_send] at hs
          · have h6 : env.init_result = 0 := by omega
            refine ⟨h1, by omega, by omega, by omega, by omega, h6, ?_⟩
            simp only [h1, h2, h3, h4, h5]
            cases debug_mode <;> by_cases h7 : env.payload_send_result = 0 <;> simp [h7]
  · simp [h1] at hc

/-- Witness for C1: a first message at 916 MHz on a healthy device is sent. -/
theorem process_message_send_gated_witness :
    (sample_env.init_result = 0 ∨ sample_env.init_result = -1) ∧
    (∃ c ∈ (process_message sample_env 1122334 "Hello" 916000000 ⟨0, true⟩ sample_config
      false).trace, c.is_send = true) ∧
    (sample_env.is_capcode_valid 1122334 = true ∧
     1000000 ≤ 916000000 ∧ 916000000 ≤ 6000000000 ∧
     0 ≤ (sample_env.tf_encode_flex_message_ex "Hello" 1122334).2 ∧
     0 ≤ sample_env.open_result ∧ sample_env.init_result = 0 ∧
     (process_message sample_env 1122334 "Hello" 916000000 ⟨0, true⟩ sample_config
        false).trace.take 3 =
       [PipelineCall.tf_encode_flex_message_ex "Hello" 1122334,
        PipelineCall.open_flex_at_serial sample_config.FLEX_DEVICE sample_config.FLEX_BAUDRATE,
        PipelineCall.at_initialize_flex_device sample_env.open_result]) :=
  ⟨by decide, by decide,
   process_message_send_gated sample_env 1122334 "Hello" 916000000 ⟨0, true⟩ sample_config
     false (by decide) (by decide)⟩

/-- C2: with a valid capcode, `process_message` stops at the frequency gate
(returns false, calls neither the encoder nor the serial open, leaves the
connection state alone) when `f < 1,000,000` or `f > 6,000,000,000`, and goes
on to the encoder for every `f` with `1,000,000 <= f <= 6,000,000,000`, both
boundary values included. -/
theorem process_message_frequency_gate (env : PipelineEnv) (capcode : Nat) (message : String)
    (frequency : Nat) (conn_state : ConnectionState) (config : Config) (debug_mode : Bool)
    (hvalid : env.is_capcode_valid capcode = true) :
    ((frequency < 1000000 ∨ frequency > 6000000000) →
      process_message env capcode message frequency conn_state config debug_mode =
        ⟨false, conn_state, []⟩) ∧
    ((1000000 ≤ frequency ∧ frequency ≤ 6000000000) →
      (process_message env capcode message frequency conn_state config debug_mode).trace.head? =
        some (PipelineCall.tf_encode_flex_message_ex message capcode)) := by
  constructor
  · intro h
    simp [process_message, hvalid, h]
  · intro h
    have h2 : ¬ (frequency < 1000000 ∨ frequency > 6000000000) := by omega
    simp only [process_message, hvalid, h2]
    by_cases h3 : (env.tf_encode_flex_message_ex message capcode).2 < 0
    · simp [h3]
    · by_cases h4 : env.open_result < 0
      · simp [h3, h4]
      · by_cases h5 : env.init_result < 0
        · simp [h3, h4, h5]
        · cases debug_mode <;> by_cases h7 : env.payload_send_result = 0 <;>
            simp [h3, h4, h5, h7]

/-- Witness for C2: the four values next to and on the two boundaries. -/
theorem process_message_frequency_gate_witness :
    sample_env.is_capcode_valid 1122334 = true ∧
    process_message sample_env 1122334 "Hello" 999999 ⟨0, true⟩ sample_config false =
      ⟨false, ⟨0, true⟩, []⟩ ∧
    process_message sample_env 1122334 "Hello" 6000000001 ⟨0, true⟩ sample_config false =
      ⟨false, ⟨0, true⟩, []⟩ ∧
    (process_message sample_env 1122334 "Hello" 1000000 ⟨0, true⟩ sample_config
      false).trace.head? = some (PipelineCall.tf_encode_flex_message_ex "Hello" 1122334) ∧
    (process_message sample_env 1122334 "Hello" 6000000000 ⟨0, true⟩ sample_config
      false).trace.head? = some (PipelineCall.tf_encode_flex_message_ex "Hello" 1122334) :=
  ⟨by decide,
   (process_message_frequency_gate sample_env 1122334 "Hello" 999999 ⟨0, true⟩ sample_config
      false (by decide)).1 (Or.inl (by decide)),
   (process_message_frequency_gate sample_env 1122334 "Hello" 6000000001 ⟨0, true⟩
      sample_config false (by decide)).1 (Or.inr (by decide)),
   (process_message_frequency_gate sample_env 1122334 "Hello" 1000000 ⟨0, true⟩ sample_config
      false (by decide)).2 ⟨by decide, by decide⟩,
   (process_message_frequency_gate sample_env 1122334 "Hello" 6000000000 ⟨0, true⟩
      sample_config false (by decide)).2 ⟨by decide, by decide⟩⟩

/-- Within its range the 64-bit count holds the exact value. -/
theorem wrap_int64_of_fits (x : Int) (h0 : 0 ≤ x) (h1 : x ≤ INT64_MAX) : wrap_int64 x = x := by
  unfold INT64_MAX at h1
  unfold wrap_int64
  rw [Int.emod_eq_of_lt (by omega) (by omega)]
  omega

/-- Where the subtraction `now - last_transmission` leaves the 64-bit range
the count wraps around: from the lowest time point to the reading 1 the
difference comes out negative and no EMR is due. -/
theorem should_send_emr_overflow :
    should_send_emr ⟨-9223372036854775808, false⟩ 1 = false := by
  decide

/-- C3: for every connection state and every clock reading `now` not before
`last_transmission`, the difference `now - last_transmission` being a value of
the 64-bit nanosecond count in which the code computes it, `should_send_emr`
is true exactly when `first_message` is set or `now - last_transmission` is at
least 10 minutes, the truncating cast to whole minutes notwithstanding; with
`first_message` cleared and `now = last_transmission` it is false. -/
theorem should_send_emr_iff (state : ConnectionState) (now : Int)
    (hnow : state.last_transmission ≤ now)
    (hfit : now - state.last_transmission ≤ INT64_MAX) :
    (should_send_emr state now = true ↔
      (state.first_message = true ∨
        now - state.last_transmission ≥ 10 * NANOS_PER_MINUTE)) ∧
    (state.first_message = false → now = state.last_transmission →
      should_send_emr state now = false) := by
  have hd : 0 ≤ now - state.last_transmission := by omega
  have hdiv : Int.tdiv (now - state.last_transmission) NANOS_PER_MINUTE =
      (now - state.last_transmission) / NANOS_PER_MINUTE :=
    Int.tdiv_eq_ediv hd (by decide)
  unfold should_send_emr
  rw [wrap_int64_of_fits _ hd hfit, hdiv]
  unfold NANOS_PER_MINUTE
  constructor
  · cases hfm : state.first_message
    · simp only [Bool.false_eq_true, if_false, false_or, decide_eq_true_eq]
      omega
    · simp
  · intro hfm heq
    simp only [hfm, Bool.false_eq_true, if_false, decide_eq_false_iff_not]
    omega

/-- Witness for C3: one tick short of ten minutes, exactly ten minutes, the
instant of the last transmission, and the longest difference the 64-bit count
can hold. -/
theorem should_send_emr_iff_witness :
    ((0 : Int) ≤ 599999999999 ∧ should_send_emr ⟨0, false⟩ 599999999999 = false) ∧
    ((5 : Int) ≤ 600000000005 ∧ should_send_emr ⟨5, false⟩ 600000000005 = true) ∧
    should_send_emr ⟨7, false⟩ 7 = false ∧
    should_send_emr ⟨0, false⟩ INT64_MAX = true :=
  ⟨⟨by decide, by decide⟩,
   ⟨by decide, (should_send_emr_iff ⟨5, false⟩ 600000000005 (by decide) (by decide)).1.2
      (Or.inr (by decide))⟩,
   (should_send_emr_iff ⟨7, false⟩ 7 (by decide) (by decide)).2 rfl rfl,
   (should_send_emr_iff ⟨0, false⟩ INT64_MAX (by decide) (by decide)).1.2
      (Or.inr (by decide))⟩

/-- C4, as stated, fails: a stream that ends in `OK CR LF` is classified
TIMEOUT when those bytes do not start a line, and a stream that ends in
`ERROR CR LF` is classified OK when an `OK` line came first. -/
theorem at_read_flex_response_ending_counterexample :
    (at_read_flex_response 1024 [] (bytes (cstr "X" ++ cstr "OK\r\n"))).result
      = AT_RESP_TIMEOUT ∧
    (at_read_flex_response 1024 [] (bytes (cstr "OK\r\n" ++ cstr "ERROR\r\n"))).result
      = AT_RESP_OK := by
  decide

/-- C4, amended: for every byte stream `pre` on which the reader has not yet
returned and after which the in-progress line is empty, the stream `pre`
followed by exactly `OK CR LF` makes `at_read_flex_response` return
`AT_RESP_OK`, and `pre` followed by exactly `ERROR CR LF` makes it return
`AT_RESP_ERROR`; the call returns at that LF, leaving later events unread. -/
theorem at_read_flex_response_terminal_line (buffer_size : Nat) (buffer : List Int)
    (pre : List Int) (st : ReaderState) (rest : List PollEvent)
    (hpre : reader_state_after buffer_size (bytes pre) reader_init = some st)
    (hline : st.line_buffer = []) :
    (at_read_flex_response buffer_size buffer
        (bytes (pre ++ cstr "OK\r\n") ++ rest)).result = AT_RESP_OK ∧
    (at_read_flex_response buffer_size buffer
        (bytes (pre ++ cstr "OK\r\n") ++ rest)).rest = rest ∧
    (at_read_flex_response buffer_size buffer
        (bytes (pre ++ cstr "ERROR\r\n") ++ rest)).result = AT_RESP_ERROR ∧
    (at_read_flex_response buffer_size buffer
        (bytes (pre ++ cstr "ERROR\r\n") ++ rest)).rest = rest := by
  have hinit : reader_init.running := by
    simp [ReaderState.running, reader_init, AT_TIMEOUT_MS]
  have hrun : st.running := reader_bytes_running buffer_size pre reader_init st hinit hpre
  have hsplit : ∀ tail : List Int,
      bytes (pre ++ tail) ++ rest = bytes pre ++ (bytes tail ++ rest) := by
    intro tail
    simp [bytes, List.append_assoc]
  unfold at_read_flex_response
  rw [hsplit, hsplit, reader_loop_append buffer_size (bytes pre) _ reader_init st 0 hpre hrun,
    reader_loop_append buffer_size (bytes pre) _ reader_init st 0 hpre hrun,
    reader_loop_ok_line buffer_size st _ rest hline hrun,
    reader_loop_error_line buffer_size st _ rest hline hrun]
  exact ⟨rfl, rfl, rfl, rfl⟩

/-- Witness for C4: the echoed command line `AT` precedes the terminal line. -/
theorem at_read_flex_response_terminal_line_witness :
    reader_state_after 1024 (bytes (cstr "AT\r\n")) reader_init = some reader_init ∧
    reader_init.line_buffer = [] ∧
    (at_read_flex_response 1024 []
        (bytes (cstr "AT\r\n" ++ cstr "OK\r\n") ++ [])).result = AT_RESP_OK ∧
    (at_read_flex_response 1024 []
        (bytes (cstr "AT\r\n" ++ cstr "ERROR\r\n") ++ [])).result = AT_RESP_ERROR :=
  ⟨by decide, rfl,
   (at_read_flex_response_terminal_line 1024 [] (cstr "AT\r\n") reader_init []
      (by decide) rfl).1,
   (at_read_flex_response_terminal_line 1024 [] (cstr "AT\r\n") reader_init []
      (by decide) rfl).2.2.1⟩

/-- C5: when every poll slice yields no data, `at_read_flex_response` returns
`AT_RESP_TIMEOUT` after exactly 20 passes of the loop; at that point
`empty_reads` is 20 while 7000 ms of the 8000 ms budget remain, so it is the
empty-read counter that ends the loop; the output buffer is the empty string
and events beyond the twentieth are left unread. -/
theorem at_read_flex_response_all_empty (buffer_size : Nat) (buffer : List Int)
    (events : List PollEvent) (hall : ∀ e ∈ events, e.is_empty_slice = true) :
    (at_read_flex_response buffer_size buffer events).result = AT_RESP_TIMEOUT ∧
    (at_read_flex_response buffer_size buffer events).slices = 20 ∧
    (at_read_flex_response buffer_size buffer events).buffer = [] ∧
    (at_read_flex_response buffer_size buffer events).state.empty_reads = 20 ∧
    (at_read_flex_response buffer_size buffer events).state.total_timeout = 7000 ∧
    (at_read_flex_response buffer_size buffer events).rest = events.drop 20 := by
  unfold at_read_flex_response
  rw [reader_loop_quiet buffer_size events 0 reader_init 0 hall rfl
    (by simp [reader_init, AT_TIMEOUT_MS]) (by omega)]
  simp [reader_exit, reader_init, ReadResult.buffer]

/-- Witness for C5: twenty-five empty slices, of which twenty are consumed. -/
theorem at_read_flex_response_all_empty_witness :
    (∀ e ∈ List.replicate 25 PollEvent.pollTimeout, e.is_empty_slice = true) ∧
    (at_read_flex_response 1024 [43] (List.replicate 25 PollEvent.pollTimeout)).result
      = AT_RESP_TIMEOUT ∧
    (at_read_flex_response 1024 [43] (List.replicate 25 PollEvent.pollTimeout)).slices = 20 ∧
    (at_read_flex_response 1024 [43] (List.replicate 25 PollEvent.pollTimeout)).buffer = [] :=
  ⟨by decide,
   (at_read_flex_response_all_empty 1024 [43] (List.replicate 25 PollEvent.pollTimeout)
      (by decide)).1,
   (at_read_flex_response_all_empty 1024 [43] (List.replicate 25 PollEvent.pollTimeout)
      (by decide)).2.1,
   (at_read_flex_response_all_empty 1024 [43] (List.replicate 25 PollEvent.pollTimeout)
      (by decide)).2.2.1⟩

/-- C6, evaluated on the code: a CR, and an LF that ends an empty line, leave
`total_timeout` as it was (here 50 ms) instead of resetting it to 8000 ms;
and on a stream that delivers a blank line after every 18 empty slices the
reader gives up with `AT_RESP_TIMEOUT` after 176 passes, with the budget at 0
and only 16 consecutive empty reads, leaving the device's `OK` line unread. -/
theorem at_read_flex_response_blank_lines_exhaust_budget :
    reader_step 1024 { reader_init with total_timeout := 50, empty_reads := 19 }
        (PollEvent.byte 13) =
      ReaderStep.next { reader_init with total_timeout := 50, empty_reads := 0 } ∧
    reader_step 1024 { reader_init with total_timeout := 50, empty_reads := 19 }
        (PollEvent.byte 10) =
      ReaderStep.next { reader_init with total_timeout := 50, empty_reads := 0 } ∧
    (at_read_flex_response 1024 [] blank_line_stream).result = AT_RESP_TIMEOUT ∧
    (at_read_flex_response 1024 [] blank_line_stream).slices = 176 ∧
    (at_read_flex_response 1024 [] blank_line_stream).state.total_timeout = 0 ∧
    (at_read_flex_response 1024 [] blank_line_stream).state.empty_reads = 16 ∧
    (at_read_flex_response 1024 [] blank_line_stream).rest = bytes (cstr "OK\r\n") := by
  decide

/-- C7, as stated, fails on lines of 1024 characters or more: the line
`+AAA...` of 1024 characters is shorter than an output buffer of 2048 bytes,
yet the buffer receives only its first 1023 characters; and with an output
buffer of 1024 bytes the same line, whose length is not below `buffer_size`,
is copied (cut to 1023 characters) and yields `AT_RESP_DATA`. -/
theorem at_read_flex_response_long_line_counterexample :
    long_data_line.length < 2048 ∧
    (at_read_flex_response 2048 [] (bytes long_data_line ++ [PollEvent.byte 10])).buffer
      ≠ long_data_line ∧
    1024 ≤ long_data_line.length ∧
    (at_read_flex_response 1024 [] (bytes long_data_line ++ [PollEvent.byte 10])).result
      = AT_RESP_DATA ∧
    (at_read_flex_response 1024 [] (bytes long_data_line ++ [PollEvent.byte 10])).buffer
      = 43 :: List.replicate 1022 65 := by
  have hlen : long_data_line.length = 1024 := by simp [long_data_line]
  have h2048 := reader_loop_then_silence 2048 _ _
    (reader_state_after_long_data_line 2048 (by omega)) rfl rfl
  have h1024 := reader_loop_then_silence 1024 _ _
    (reader_state_after_long_data_line 1024 (by omega)) rfl rfl
  unfold at_read_flex_response
  rw [h2048, h1024]
  refine ⟨by omega, ?_, by omega, by simp [reader_exit], by simp [reader_exit, ReadResult.buffer]⟩
  intro h
  have hl := congrArg List.length h
  rw [hlen] at hl
  simp [reader_exit, ReadResult.buffer] at hl

/-- C7, amended: for every line of printable characters that starts with `+`
and is shorter than both the output buffer and the 1024-byte line buffer, the
stream made of the line, LF and then silence makes `at_read_flex_response`
return `AT_RESP_DATA` with the output buffer equal to the line verbatim; the
data line does not end the read, a following `OK` or `ERROR` line decides the
outcome while the buffer keeps the line; and such a line of fewer than 1024
characters whose length is `>= buffer_size` is not copied and yields
`AT_RESP_TIMEOUT` with an empty buffer, not `AT_RESP_DATA`. -/
theorem at_read_flex_response_data_line (buffer_size : Nat) (buffer : List Int)
    (line : List Int) (hprint : ∀ c ∈ line, 32 ≤ c ∧ c ≤ 126) (hplus : line.head? = some 43)
    (hlen : line.length < AT_BUFFER_SIZE) :
    (line.length < buffer_size →
      (at_read_flex_response buffer_size buffer
        (bytes line ++ [PollEvent.byte 10])).result = AT_RESP_DATA ∧
      (at_read_flex_response buffer_size buffer
        (bytes line ++ [PollEvent.byte 10])).buffer = line ∧
      (at_read_flex_response buffer_size buffer
        (bytes line ++ [PollEvent.byte 10] ++ bytes (cstr "OK\r\n"))).result
          = AT_RESP_OK ∧
      (at_read_flex_response buffer_size buffer
        (bytes line ++ [PollEvent.byte 10] ++ bytes (cstr "OK\r\n"))).buffer
          = line ∧
      (at_read_flex_response buffer_size buffer
        (bytes line ++ [PollEvent.byte 10] ++ bytes (cstr "ERROR\r\n"))).result
          = AT_RESP_ERROR ∧
      (at_read_flex_response buffer_size buffer
        (bytes line ++ [PollEvent.byte 10] ++ bytes (cstr "ERROR\r\n"))).buffer
          = line) ∧
    (buffer_size ≤ line.length →
      (at_read_flex_response buffer_size buffer
        (bytes line ++ [PollEvent.byte 10])).result = AT_RESP_TIMEOUT ∧
      (at_read_flex_response buffer_size buffer
        (bytes line ++ [PollEvent.byte 10])).buffer = []) := by
  have hst := reader_state_after_data_line buffer_size line hprint hplus hlen
  unfold at_read_flex_response
  constructor
  · intro hfit
    rw [if_pos hfit] at hst
    have hrun : ({ reader_init with buffer := line, got_response := true } :
        ReaderState).running := by
      simp [ReaderState.running, reader_init, AT_TIMEOUT_MS]
    have hok := reader_loop_ok_line buffer_size _ (0 + (bytes line ++
      [PollEvent.byte 10]).length) [] rfl hrun
    have herr := reader_loop_error_line buffer_size _ (0 + (bytes line ++
      [PollEvent.byte 10]).length) [] rfl hrun
    rw [List.append_nil] at hok herr
    rw [reader_loop_then_silence buffer_size _ _ hst rfl rfl,
      reader_loop_append buffer_size _ _ reader_init _ 0 hst hrun,
      reader_loop_append buffer_size _ _ reader_init _ 0 hst hrun, hok, herr]
    simp [reader_exit, ReadResult.buffer, reader_init]
  · intro hbig
    rw [if_neg (by omega)] at hst
    rw [reader_loop_then_silence buffer_size _ _ hst rfl rfl]
    simp [reader_exit, ReadResult.buffer, reader_init]

/-- Witness for C7: the line `+SEND: READY` with a 1024-byte buffer, and with
a buffer of 12 bytes, which the 12 characters of the line do not fit. -/
theorem at_read_flex_response_data_line_witness :
    (∀ c ∈ cstr "+SEND: READY", 32 ≤ c ∧ c ≤ 126) ∧
    (cstr "+SEND: READY").head? = some 43 ∧
    (cstr "+SEND: READY").length < AT_BUFFER_SIZE ∧
    ((at_read_flex_response 1024 [] (bytes (cstr "+SEND: READY") ++
        [PollEvent.byte 10])).result = AT_RESP_DATA ∧
     (at_read_flex_response 1024 [] (bytes (cstr "+SEND: READY") ++
        [PollEvent.byte 10])).buffer = cstr "+SEND: READY") ∧
    ((at_read_flex_response 12 [] (bytes (cstr "+SEND: READY") ++
        [PollEvent.byte 10])).result = AT_RESP_TIMEOUT ∧
     (at_read_flex_response 12 [] (bytes (cstr "+SEND: READY") ++
        [PollEvent.byte 10])).buffer = []) :=
  ⟨by decide, by decide, by decide,
   ⟨((at_read_flex_response_data_line 1024 [] (cstr "+SEND: READY") (by decide) (by decide)
        (by decide)).1 (by decide)).1,
    ((at_read_flex_response_data_line 1024 [] (cstr "+SEND: READY") (by decide) (by decide)
        (by decide)).1 (by decide)).2.1⟩,
   (at_read_flex_response_data_line 12 [] (cstr "+SEND: READY") (by decide) (by decide)
      (by decide)).2 (by decide)⟩

/-- C8, as stated, fails: a device that answers `AT+SEND=4` with the data
line `+SEND: READY` and no terminal marker is classified DATA by the reader,
and `at_execute_flex_command` returns -1, not 0. -/
theorem at_execute_flex_command_data_counterexample :
    attempt_result 1024 data_only_script 1 = AT_RESP_DATA ∧
    (at_execute_flex_command "AT+SEND=4\r\n" [] 1024 data_only_script).ret = -1 := by
  decide

/-- C8, amended: when the reader classifies an attempt of
`at_execute_flex_command` as DATA (the earlier attempts having been retried
after ERROR, TIMEOUT or INVALID), the executor returns -1 at once: the read
of that attempt is its last serial call, no backoff and no retry follow, and
the data line is left in the response buffer. -/
theorem at_execute_flex_command_data_fails (command : String) (response : List Int)
    (response_size : Nat) (script : Nat → AttemptScript) (k : Nat) (hk1 : 1 ≤ k) (hk5 : k ≤ 5)
    (hpre : ∀ j, 1 ≤ j → j < k →
      (script j).write_ok = true ∧
      (attempt_result response_size script j = AT_RESP_ERROR ∨
       attempt_result response_size script j = AT_RESP_TIMEOUT ∨
       attempt_result response_size script j = AT_RESP_INVALID))
    (hw : (script k).write_ok = true)
    (hdata : attempt_result response_size script k = AT_RESP_DATA) :
    (at_execute_flex_command command response response_size script).ret = -1 ∧
    (at_execute_flex_command command response response_size script).response =
      (at_read_flex_response response_size [] (script k).events).buffer ∧
    (at_execute_flex_command command response response_size script).sends = k ∧
    ∃ pre, (at_execute_flex_command command response response_size script).log =
      pre ++ attempt_calls command := by
  obtain ⟨pre, buf, h, _⟩ := at_execute_flex_command_reach command response response_size
    script k hk1 hk5 hpre
  have e2 : AT_MAX_RETRIES - (5 - k) = k := by simp only [AT_MAX_RETRIES]; omega
  have hstop := execute_loop_data command response_size script (5 - k) buf
    (by rw [e2]; exact hw) (by rw [e2]; exact hdata)
  rw [e2] at hstop
  rw [h, hstop]
  refine ⟨rfl, rfl, ?_, pre, rfl⟩
  simp only [ExecResult.after]
  omega

/-- Witness for C8: the data-only device at the first attempt. -/
theorem at_execute_flex_command_data_fails_witness :
    (data_only_script 1).write_ok = true ∧
    attempt_result 1024 data_only_script 1 = AT_RESP_DATA ∧
    (at_execute_flex_command "AT+SEND=4\r\n" [] 1024 data_only_script).ret = -1 ∧
    (at_execute_flex_command "AT+SEND=4\r\n" [] 1024 data_only_script).response =
      cstr "+SEND: READY" :=
  ⟨by decide, by decide,
   (at_execute_flex_command_data_fails "AT+SEND=4\r\n" [] 1024 data_only_script 1
      (by decide) (by decide) (fun j h1 h2 => by omega) (by decide) (by decide)).1,
   ((at_execute_flex_command_data_fails "AT+SEND=4\r\n" [] 1024 data_only_script 1
      (by decide) (by decide) (fun j h1 h2 => by omega) (by decide) (by decide)).2.1).trans
      (by decide)⟩

/-- C9: for a device whose every response is classified ERROR and whose every
write succeeds, `at_execute_flex_command` sends the command exactly
`AT_MAX_RETRIES = 5` times, sleeps the 500 ms backoff exactly 4 times, once
between each two consecutive attempts and not after the last, and returns -1. -/
theorem at_execute_flex_command_always_error (command : String) (response : List Int)
    (response_size : Nat) (script : Nat → AttemptScript)
    (hw : ∀ n, 1 ≤ n → n ≤ 5 → (script n).write_ok = true)
    (herr : ∀ n, 1 ≤ n → n ≤ 5 → attempt_result response_size script n = AT_RESP_ERROR) :
    (at_execute_flex_command command response response_size script).ret = -1 ∧
    (at_execute_flex_command command response response_size script).sends = AT_MAX_RETRIES ∧
    (at_execute_flex_command command response response_size script).log =
      attempt_calls command ++ [SerialCall.usleep 500000] ++
      attempt_calls command ++ [SerialCall.usleep 500000] ++
      attempt_calls command ++ [SerialCall.usleep 500000] ++
      attempt_calls command ++ [SerialCall.usleep 500000] ++
      attempt_calls command ∧
    (at_execute_flex_command command response response_size script).log.count
      (SerialCall.write command) = 5 ∧
    (at_execute_flex_command command response response_size script).log.count
      (SerialCall.usleep 500000) = 4 := by
  have h1 : execute_loop command response_size script 5 response = _ :=
    execute_loop_error_retry command response_size script 3 response
      (hw 1 (by omega) (by omega)) (herr 1 (by omega) (by omega))
  have h2 : ∀ buf, execute_loop command response_size script 4 buf = _ := fun buf =>
    execute_loop_error_retry command response_size script 2 buf
      (hw 2 (by omega) (by omega)) (herr 2 (by omega) (by omega))
  have h3 : ∀ buf, execute_loop command response_size script 3 buf = _ := fun buf =>
    execute_loop_error_retry command response_size script 1 buf
      (hw 3 (by omega) (by omega)) (herr 3 (by omega) (by omega))
  have h4 : ∀ buf, execute_loop command response_size script 2 buf = _ := fun buf =>
    execute_loop_error_retry command response_size script 0 buf
      (hw 4 (by omega) (by omega)) (herr 4 (by omega) (by omega))
  have h5 : ∀ buf, execute_loop command response_size script 1 buf = _ := fun buf =>
    execute_loop_last command response_size script buf
      (hw 5 (by omega) (by omega)) (Or.inl (herr 5 (by omega) (by omega)))
  have hrun : at_execute_flex_command command response response_size script =
      execute_loop command response_size script 5 response := rfl
  rw [hrun, h1, h2, h3, h4, h5]
  simp [ExecResult.after, attempt_calls, AT_MAX_RETRIES, List.count_cons]

/-- Witness for C9: the device that answers `ERROR` to everything. -/
theorem at_execute_flex_command_always_error_witness :
    (∀ n, 1 ≤ n → n ≤ 5 → (always_error_script n).write_ok = true) ∧
    (∀ n, 1 ≤ n → n ≤ 5 → attempt_result 1024 always_error_script n = AT_RESP_ERROR) ∧
    (at_execute_flex_command "AT+FREQ=916.0000\r\n" [] 1024 always_error_script).ret = -1 ∧
    (at_execute_flex_command "AT+FREQ=916.0000\r\n" [] 1024 always_error_script).sends = 5 :=
  ⟨fun _ _ _ => rfl, fun _ _ _ => rfl,
   (at_execute_flex_command_always_error "AT+FREQ=916.0000\r\n" [] 1024 always_error_script
      (fun _ _ _ => rfl) (fun _ _ _ => rfl)).1,
   (at_execute_flex_command_always_error "AT+FREQ=916.0000\r\n" [] 1024 always_error_script
      (fun _ _ _ => rfl) (fun _ _ _ => rfl)).2.1⟩

/-- C10: `at_execute_flex_command` returns 0 if and only if there is an
attempt `k` with `1 <= k <= 5` whose write succeeds and whose response is
classified OK while every earlier attempt wrote successfully and was
classified ERROR, TIMEOUT or INVALID; for such a `k` the command is sent
exactly `k` times (line 274 runs `k` times, and for a command other than the
bare `AT` of the resynchronising ping the log holds exactly `k` writes of it),
the read that returned OK is the last serial call, and the response buffer is
the one that read left. -/
theorem at_execute_flex_command_success_iff (command : String) (response : List Int)
    (response_size : Nat) (script : Nat → AttemptScript) :
    ((at_execute_flex_command command response response_size script).ret = 0 ↔
      ∃ k, 1 ≤ k ∧ k ≤ 5 ∧ (script k).write_ok = true ∧
        attempt_result response_size script k = AT_RESP_OK ∧
        ∀ j, 1 ≤ j → j < k →
          (script j).write_ok = true ∧
          (attempt_result response_size script j = AT_RESP_ERROR ∨
           attempt_result response_size script j = AT_RESP_TIMEOUT ∨
           attempt_result response_size script j = AT_RESP_INVALID)) ∧
    (∀ k, 1 ≤ k → k ≤ 5 → (script k).write_ok = true →
      attempt_result response_size script k = AT_RESP_OK →
      (∀ j, 1 ≤ j → j < k →
        (script j).write_ok = true ∧
        (attempt_result response_size script j = AT_RESP_ERROR ∨
         attempt_result response_size script j = AT_RESP_TIMEOUT ∨
         attempt_result response_size script j = AT_RESP_INVALID)) →
      (at_execute_flex_command command response response_size script).ret = 0 ∧
      (at_execute_flex_command command response response_size script).sends = k ∧
      (command ≠ "AT\r\n" →
        (at_execute_flex_command command response response_size script).log.count
          (SerialCall.write command) = k) ∧
      (∃ pre, (at_execute_flex_command command response response_size script).log =
        pre ++ attempt_calls command) ∧
      (at_execute_flex_command command response response_size script).response =
        (at_read_flex_response response_size [] (script k).events).buffer) := by
  have hstop : ∀ k, 1 ≤ k → k ≤ 5 → (script k).write_ok = true →
      attempt_result response_size script k = AT_RESP_OK →
      (∀ j, 1 ≤ j → j < k →
        (script j).write_ok = true ∧
        (attempt_result response_size script j = AT_RESP_ERROR ∨
         attempt_result response_size script j = AT_RESP_TIMEOUT ∨
         attempt_result response_size script j = AT_RESP_INVALID)) →
      (at_execute_flex_command command response response_size script).ret = 0 ∧
      (at_execute_flex_command command response response_size script).sends = k ∧
      (command ≠ "AT\r\n" →
        (at_execute_flex_command command response response_size script).log.count
          (SerialCall.write command) = k) ∧
      (∃ pre, (at_execute_flex_command command response response_size script).log =
        pre ++ attempt_calls command) ∧
      (at_execute_flex_command command response response_size script).response =
        (at_read_flex_response response_size [] (script k).events).buffer := by
    intro k hk1 hk5 hw hok hpre
    obtain ⟨pre, buf, h, hcount⟩ := at_execute_flex_command_reach command response
      response_size script k hk1 hk5 hpre
    have e2 : AT_MAX_RETRIES - (5 - k) = k := by simp only [AT_MAX_RETRIES]; omega
    have hlast := execute_loop_ok command response_size script (5 - k) buf
      (by rw [e2]; exact hw) (by rw [e2]; exact hok)
    rw [e2] at hlast
    rw [h, hlast]
    refine ⟨rfl, ?_, ?_, ⟨pre, rfl⟩, rfl⟩
    · simp only [ExecResult.after]
      omega
    · intro hne
      simp only [ExecResult.after]
      rw [List.count_append, hcount hne]
      simp [attempt_calls, List.count_cons]
      omega
  refine ⟨⟨?_, ?_⟩, hstop⟩
  · intro h
    obtain ⟨k, hk1, hk5, hw, hok, hpre⟩ :=
      execute_loop_ret_zero command response_size script 5 response (by omega) h
    exact ⟨k, by omega, hk5, hw, hok, fun j h1 h2 => hpre j (by omega) h2⟩
  · rintro ⟨k, hk1, hk5, hw, hok, hpre⟩
    exact (hstop k hk1 hk5 hw hok hpre).1

/-- Witness for C10: `ERROR` on the first attempt, `OK` on the second. -/
theorem at_execute_flex_command_success_iff_witness :
    (error_then_ok_script 2).write_ok = true ∧
    attempt_result 1024 error_then_ok_script 2 = AT_RESP_OK ∧
    (error_then_ok_script 1).write_ok = true ∧
    attempt_result 1024 error_then_ok_script 1 = AT_RESP_ERROR ∧
    (at_execute_flex_command "AT+POWER=2\r\n" [] 1024 error_then_ok_script).ret = 0 ∧
    (at_execute_flex_command "AT+POWER=2\r\n" [] 1024 error_then_ok_script).sends = 2 :=
  ⟨by decide, by decide, by decide, by decide,
   ((at_execute_flex_command_success_iff "AT+POWER=2\r\n" [] 1024 error_then_ok_script).2 2
      (by decide) (by decide) (by decide) (by decide)
      (fun j h1 h2 => by
        have hj : j = 1 := by omega
        subst hj
        exact ⟨by decide, Or.inl (by decide)⟩)).1,
   ((at_execute_flex_command_success_iff "AT+POWER=2\r\n" [] 1024 error_then_ok_script).2 2
      (by decide) (by decide) (by decide) (by decide)
      (fun j h1 h2 => by
        have hj : j = 1 := by omega
        subst hj
        exact ⟨by decide, Or.inl (by decide)⟩)).2.1⟩

/-! ### Further lemmas on the retry loop -/

/-- A pass classified TIMEOUT with retries left pings the device and goes
round. -/
theorem execute_loop_timeout_retry (command : String) (response_size : Nat)
    (script : Nat → AttemptScript) (retries : Nat) (response : List Int)
    (hw : (script (AT_MAX_RETRIES - (retries + 1))).write_ok = true)
    (hr : attempt_result response_size script (AT_MAX_RETRIES - (retries + 1))
      = AT_RESP_TIMEOUT) :
    execute_loop command response_size script (retries + 1 + 1) response =
      (execute_loop command response_size script (retries + 1)
        (at_read_flex_response response_size []
          (script (AT_MAX_RETRIES - (retries + 1))).ping_events).buffer).after
        (attempt_calls command ++
          ping_calls (script (AT_MAX_RETRIES - (retries + 1))).ping_write_ok) 1 := by
  have hr2 : (at_read_flex_response response_size response
      (script (AT_MAX_RETRIES - (retries + 1))).events).result = AT_RESP_TIMEOUT := hr
  rw [execute_loop]
  simp only [hw, if_true, hr2]
  simp [attempt_calls, ping_calls, at_send_flex_command, AT_INTER_CMD_DELAY]
  rfl

/-- A pass classified INVALID with retries left sleeps one second and goes
round. -/
theorem execute_loop_invalid_retry (command : String) (response_size : Nat)
    (script : Nat → AttemptScript) (retries : Nat) (response : List Int)
    (hw : (script (AT_MAX_RETRIES - (retries + 1))).write_ok = true)
    (hr : attempt_result response_size script (AT_MAX_RETRIES - (retries + 1))
      = AT_RESP_INVALID) :
    execute_loop command response_size script (retries + 1 + 1) response =
      (execute_loop command response_size script (retries + 1)
        (at_read_flex_response response_size []
          (script (AT_MAX_RETRIES - (retries + 1))).events).buffer).after
        (attempt_calls command ++ [SerialCall.usleep 1000000]) 1 := by
  have hr2 : (at_read_flex_response response_size response
      (script (AT_MAX_RETRIES - (retries + 1))).events).result = AT_RESP_INVALID := hr
  rw [execute_loop]
  simp only [at_send_flex_command, hw, if_true, hr2]
  simp [attempt_calls, AT_INTER_CMD_DELAY]
  rfl

theorem attempt_calls_count_self (command : String) :
    (attempt_calls command).count (SerialCall.write command) = 1 := by
  simp [attempt_calls, List.count_cons]

theorem attempt_calls_count_other (command text : String) (h : command ≠ text) :
    (attempt_calls command).count (SerialCall.write text) = 0 := by
  simp [attempt_calls, List.count_cons, h]

theorem attempt_calls_count_usleep (command : String) (us : Nat) (h : us ≠ 200000) :
    (attempt_calls command).count (SerialCall.usleep us) = 0 := by
  have h2 : ¬ (200000 = us) := fun e => h e.symm
  simp [attempt_calls, List.count_cons, h2]

theorem ping_calls_count_ping (ok : Bool) :
    (ping_calls ok).count (SerialCall.write "AT\r\n") = 1 := by
  cases ok <;> simp [ping_calls, at_send_flex_command, List.count_cons]

theorem ping_calls_count_other (ok : Bool) (text : String) (h : text ≠ "AT\r\n") :
    (ping_calls ok).count (SerialCall.write text) = 0 := by
  have h2 : ¬ ("AT\r\n" = text) := fun e => h e.symm
  cases ok <;> simp [ping_calls, at_send_flex_command, List.count_cons, h2]

theorem ping_calls_count_backoff (ok : Bool) :
    (ping_calls ok).count (SerialCall.usleep 500000) = 1 := by
  cases ok <;> simp [ping_calls, at_send_flex_command, List.count_cons, AT_INTER_CMD_DELAY]

/-- C11: for a device whose every response to the command is classified
TIMEOUT (every write of the command succeeding), `at_execute_flex_command`
sends the command exactly 5 times and the bare `AT` ping exactly 4 times, one
after each of the first four attempts, each ping followed by the 500 ms wait,
none after the fifth attempt, and returns -1; for a device whose every
response is classified INVALID it sends the command exactly 5 times with a
1000 ms wait between consecutive attempts, sends no ping, and returns -1. -/
theorem at_execute_flex_command_timeout_invalid (command : String) (response : List Int)
    (response_size : Nat) (script : Nat → AttemptScript)
    (hw : ∀ n, 1 ≤ n → n ≤ 5 → (script n).write_ok = true) :
    ((∀ n, 1 ≤ n → n ≤ 5 → attempt_result response_size script n = AT_RESP_TIMEOUT) →
      (at_execute_flex_command command response response_size script).ret = -1 ∧
      (at_execute_flex_command command response response_size script).sends = 5 ∧
      (at_execute_flex_command command response response_size script).log =
        attempt_calls command ++ ping_calls (script 1).ping_write_ok ++
        attempt_calls command ++ ping_calls (script 2).ping_write_ok ++
        attempt_calls command ++ ping_calls (script 3).ping_write_ok ++
        attempt_calls command ++ ping_calls (script 4).ping_write_ok ++
        attempt_calls command ∧
      (command ≠ "AT\r\n" →
        (at_execute_flex_command command response response_size script).log.count
          (SerialCall.write command) = 5 ∧
        (at_execute_flex_command command response response_size script).log.count
          (SerialCall.write "AT\r\n") = 4) ∧
      (at_execute_flex_command command response response_size script).log.count
        (SerialCall.usleep 500000) = 4) ∧
    ((∀ n, 1 ≤ n → n ≤ 5 → attempt_result response_size script n = AT_RESP_INVALID) →
      (at_execute_flex_command command response response_size script).ret = -1 ∧
      (at_execute_flex_command command response response_size script).sends = 5 ∧
      (at_execute_flex_command command response response_size script).log =
        attempt_calls command ++ [SerialCall.usleep 1000000] ++
        attempt_calls command ++ [SerialCall.usleep 1000000] ++
        attempt_calls command ++ [SerialCall.usleep 1000000] ++
        attempt_calls command ++ [SerialCall.usleep 1000000] ++
        attempt_calls command ∧
      (at_execute_flex_command command response response_size script).log.count
        (SerialCall.write command) = 5 ∧
      (at_execute_flex_command command response response_size script).log.count
        (SerialCall.usleep 1000000) = 4) := by
  have hrun : at_execute_flex_command command response response_size script =
      execute_loop command response_size script 5 response := rfl
  constructor
  · intro ht
    have h1 : execute_loop command response_size script 5 response = _ :=
      execute_loop_timeout_retry command response_size script 3 response
        (hw 1 (by omega) (by omega)) (ht 1 (by omega) (by omega))
    have h2 : ∀ buf, execute_loop command response_size script 4 buf = _ := fun buf =>
      execute_loop_timeout_retry command response_size script 2 buf
        (hw 2 (by omega) (by omega)) (ht 2 (by omega) (by omega))
    have h3 : ∀ buf, execute_loop command response_size script 3 buf = _ := fun buf =>
      execute_loop_timeout_retry command response_size script 1 buf
        (hw 3 (by omega) (by omega)) (ht 3 (by omega) (by omega))
    have h4 : ∀ buf, execute_loop command response_size script 2 buf = _ := fun buf =>
      execute_loop_timeout_retry command response_size script 0 buf
        (hw 4 (by omega) (by omega)) (ht 4 (by omega) (by omega))
    have h5 : ∀ buf, execute_loop command response_size script 1 buf = _ := fun buf =>
      execute_loop_last command response_size script buf
        (hw 5 (by omega) (by omega)) (Or.inr (Or.inl (ht 5 (by omega) (by omega))))
    rw [hrun, h1, h2, h3, h4, h5]
    have e1 : AT_MAX_RETRIES - (3 + 1) = 1 := rfl
    have e2 : AT_MAX_RETRIES - (2 + 1) = 2 := rfl
    have e3 : AT_MAX_RETRIES - (1 + 1) = 3 := rfl
    have e4 : AT_MAX_RETRIES - (0 + 1) = 4 := rfl
    rw [e1, e2, e3, e4]
    refine ⟨rfl, rfl, ?_, ?_, ?_⟩
    · simp [ExecResult.after]
    · intro hne
      simp only [ExecResult.after, List.count_append, List.count_nil, List.append_nil,
        attempt_calls_count_self, ping_calls_count_other _ _ hne, ping_calls_count_ping,
        attempt_calls_count_other _ _ hne]
      simp
    · simp only [ExecResult.after, List.count_append, List.count_nil, List.append_nil,
        ping_calls_count_backoff, attempt_calls_count_usleep _ 500000 (by decide)]
  · intro hi
    have h1 : execute_loop command response_size script 5 response = _ :=
      execute_loop_invalid_retry command response_size script 3 response
        (hw 1 (by omega) (by omega)) (hi 1 (by omega) (by omega))
    have h2 : ∀ buf, execute_loop command response_size script 4 buf = _ := fun buf =>
      execute_loop_invalid_retry command response_size script 2 buf
        (hw 2 (by omega) (by omega)) (hi 2 (by omega) (by omega))
    have h3 : ∀ buf, execute_loop command response_size script 3 buf = _ := fun buf =>
      execute_loop_invalid_retry command response_size script 1 buf
        (hw 3 (by omega) (by omega)) (hi 3 (by omega) (by omega))
    have h4 : ∀ buf, execute_loop command response_size script 2 buf = _ := fun buf =>
      execute_loop_invalid_retry command response_size script 0 buf
        (hw 4 (by omega) (by omega)) (hi 4 (by omega) (by omega))
    have h5 : ∀ buf, execute_loop command response_size script 1 buf = _ := fun buf =>
      execute_loop_last command response_size script buf
        (hw 5 (by omega) (by omega)) (Or.inr (Or.inr (hi 5 (by omega) (by omega))))
    rw [hrun, h1, h2, h3, h4, h5]
    simp [ExecResult.after, attempt_calls, List.count_cons]

/-- Witness for C11: a silent device, and a descriptor on which `poll` fails. -/
theorem at_execute_flex_command_timeout_invalid_witness :
    (∀ n, 1 ≤ n → n ≤ 5 → (silent_script n).write_ok = true) ∧
    (∀ n, 1 ≤ n → n ≤ 5 → attempt_result 1024 silent_script n = AT_RESP_TIMEOUT) ∧
    (at_execute_flex_command "AT+POWER=2\r\n" [] 1024 silent_script).ret = -1 ∧
    (at_execute_flex_command "AT+POWER=2\r\n" [] 1024 silent_script).log.count
      (SerialCall.usleep 500000) = 4 ∧
    (∀ n, 1 ≤ n → n ≤ 5 → attempt_result 1024 poll_error_script n = AT_RESP_INVALID) ∧
    (at_execute_flex_command "AT+POWER=2\r\n" [] 1024 poll_error_script).ret = -1 ∧
    (at_execute_flex_command "AT+POWER=2\r\n" [] 1024 poll_error_script).log.count
      (SerialCall.usleep 1000000) = 4 :=
  ⟨fun _ _ _ => rfl, fun _ _ _ => rfl,
   ((at_execute_flex_command_timeout_invalid "AT+POWER=2\r\n" [] 1024 silent_script
      (fun _ _ _ => rfl)).1 (fun _ _ _ => rfl)).1,
   ((at_execute_flex_command_timeout_invalid "AT+POWER=2\r\n" [] 1024 silent_script
      (fun _ _ _ => rfl)).1 (fun _ _ _ => rfl)).2.2.2.2,
   fun _ _ _ => rfl,
   ((at_execute_flex_command_timeout_invalid "AT+POWER=2\r\n" [] 1024 poll_error_script
      (fun _ _ _ => rfl)).2 (fun _ _ _ => rfl)).1,
   ((at_execute_flex_command_timeout_invalid "AT+POWER=2\r\n" [] 1024 poll_error_script
      (fun _ _ _ => rfl)).2 (fun _ _ _ => rfl)).2.2.2.2⟩

/-! ### Lemmas on the device initializer -/

/-- The reader overwrites the response buffer it is given, so the return
value, the calls and the send count of the retry loop do not depend on it. -/
theorem execute_loop_response_irrelevant (command : String) (response_size : Nat)
    (script : Nat → AttemptScript) (retries : Nat) (r1 r2 : List Int) :
    (execute_loop command response_size script retries r1).ret =
      (execute_loop command response_size script retries r2).ret ∧
    (execute_loop command response_size script retries r1).log =
      (execute_loop command response_size script retries r2).log ∧
    (execute_loop command response_size script retries r1).sends =
      (execute_loop command response_size script retries r2).sends := by
  cases retries with
  | zero => simp [execute_loop]
  | succ retries =>
    simp only [execute_loop, at_read_flex_response]
    split <;> simp

/-- The return value of a probe is `probe_result`, whatever the buffer holds. -/
theorem probe_ret (script : Nat → AttemptScript) (response : List Int) :
    (at_execute_flex_command "AT\r\n" response AT_BUFFER_SIZE script).ret =
      probe_result script :=
  (execute_loop_response_irrelevant "AT\r\n" AT_BUFFER_SIZE script AT_MAX_RETRIES
    response []).1

/-- A pass whose probe fails sleeps the escalating delay and goes round. -/
theorem initialize_loop_probe_fails (probe confirm : Nat → Nat → AttemptScript)
    (left i : Nat) (response : List Int) (h : probe_result (probe (i + 1)) ≠ 0) :
    ∃ (calls : List SerialCall) (buf : List Int),
      initialize_loop probe confirm (left + 1) i response =
        (initialize_loop probe confirm left (i + 1) buf).after
          (calls ++ [SerialCall.usleep (500000 * (i + 1))]) 1 [500000 * (i + 1)] := by
  refine ⟨[SerialCall.flush, SerialCall.usleep 200000] ++
      (at_execute_flex_command "AT\r\n" response AT_BUFFER_SIZE (probe (i + 1))).log,
    (at_execute_flex_command "AT\r\n" response AT_BUFFER_SIZE (probe (i + 1))).response, ?_⟩
  rw [initialize_loop]
  simp only [probe_ret, h, if_false]

/-- A pass whose probe succeeds and whose confirming probe fails sleeps the
escalating delay and goes round. -/
theorem initialize_loop_confirm_fails (probe confirm : Nat → Nat → AttemptScript)
    (left i : Nat) (response : List Int) (hp : probe_result (probe (i + 1)) = 0)
    (hc : probe_result (confirm (i + 1)) ≠ 0) :
    ∃ (calls : List SerialCall) (buf : List Int),
      initialize_loop probe confirm (left + 1) i response =
        (initialize_loop probe confirm left (i + 1) buf).after
          (calls ++ [SerialCall.usleep (500000 * (i + 1))]) 2 [500000 * (i + 1)] := by
  refine ⟨[SerialCall.flush, SerialCall.usleep 200000] ++
      (at_execute_flex_command "AT\r\n" response AT_BUFFER_SIZE (probe (i + 1))).log ++
      [SerialCall.usleep 200000] ++
      (at_execute_flex_command "AT\r\n"
        (at_execute_flex_command "AT\r\n" response AT_BUFFER_SIZE (probe (i + 1))).response
        AT_BUFFER_SIZE (confirm (i + 1))).log,
    (at_execute_flex_command "AT\r\n"
        (at_execute_flex_command "AT\r\n" response AT_BUFFER_SIZE (probe (i + 1))).response
        AT_BUFFER_SIZE (confirm (i + 1))).response, ?_⟩
  rw [initialize_loop]
  simp only [probe_ret, hp, hc, if_true, if_false]

/-- A pass whose probe and confirming probe both succeed returns 0. -/
theorem initialize_loop_confirmed (probe confirm : Nat → Nat → AttemptScript)
    (left i : Nat) (response : List Int) (hp : probe_result (probe (i + 1)) = 0)
    (hc : probe_result (confirm (i + 1)) = 0) :
    ∃ (calls : List SerialCall),
      initialize_loop probe confirm (left + 1) i response = ⟨0, calls, 1, 2, []⟩ := by
  refine ⟨[SerialCall.flush, SerialCall.usleep 200000] ++
      (at_execute_flex_command "AT\r\n" response AT_BUFFER_SIZE (probe (i + 1))).log ++
      [SerialCall.usleep 200000] ++
      (at_execute_flex_command "AT\r\n"
        (at_execute_flex_command "AT\r\n" response AT_BUFFER_SIZE (probe (i + 1))).response
        AT_BUFFER_SIZE (confirm (i + 1))).log, ?_⟩
  rw [initialize_loop]
  simp only [probe_ret, hp, hc, if_true]

/-- A pass that does not return 0 goes round after sleeping the escalating
delay, having called the executor once or twice. -/
theorem initialize_loop_pass_fails (probe confirm : Nat → Nat → AttemptScript)
    (left i : Nat) (response : List Int)
    (h : ¬ (probe_result (probe (i + 1)) = 0 ∧ probe_result (confirm (i + 1)) = 0)) :
    ∃ (calls : List SerialCall) (buf : List Int) (execs : Nat),
      initialize_loop probe confirm (left + 1) i response =
        (initialize_loop probe confirm left (i + 1) buf).after
          (calls ++ [SerialCall.usleep (500000 * (i + 1))]) execs [500000 * (i + 1)] ∧
      (probe_result (probe (i + 1)) ≠ 0 → execs = 1) := by
  by_cases hp : probe_result (probe (i + 1)) = 0
  · obtain ⟨calls, buf, e⟩ := initialize_loop_confirm_fails probe confirm left i response hp
      (fun hc => h ⟨hp, hc⟩)
    exact ⟨calls, buf, 2, e, fun hne => absurd hp hne⟩
  · obtain ⟨calls, buf, e⟩ := initialize_loop_probe_fails probe confirm left i response hp
    exact ⟨calls, buf, 1, e, fun _ => rfl⟩

/-- The loop returns 0 exactly when some remaining attempt has both probes
succeed, all attempts before it having failed one of them. -/
theorem initialize_loop_ret_zero_iff (probe confirm : Nat → Nat → AttemptScript) :
    ∀ (left i : Nat) (response : List Int),
      (initialize_loop probe confirm left i response).ret = 0 ↔
        ∃ k, i < k ∧ k ≤ i + left ∧
          probe_result (probe k) = 0 ∧ probe_result (confirm k) = 0 ∧
          ∀ j, i < j → j < k →
            ¬ (probe_result (probe j) = 0 ∧ probe_result (confirm j) = 0) := by
  intro left
  induction left with
  | zero =>
    intro i response
    simp only [initialize_loop]
    constructor
    · intro h; simp at h
    · rintro ⟨k, h1, h2, _⟩; omega
  | succ left ih =>
    intro i response
    by_cases hok : probe_result (probe (i + 1)) = 0 ∧ probe_result (confirm (i + 1)) = 0
    · obtain ⟨calls, e⟩ := initialize_loop_confirmed probe confirm left i response hok.1 hok.2
      rw [e]
      simp only [true_iff]
      exact ⟨i + 1, by omega, by omega, hok.1, hok.2, fun j h1 h2 => by omega⟩
    · obtain ⟨calls, buf, execs, e, _⟩ :=
        initialize_loop_pass_fails probe confirm left i response hok
      rw [e]
      have hret : ((initialize_loop probe confirm left (i + 1) buf).after
          (calls ++ [SerialCall.usleep (500000 * (i + 1))]) execs [500000 * (i + 1)]).ret =
          (initialize_loop probe confirm left (i + 1) buf).ret := rfl
      rw [hret, ih (i + 1) buf]
      constructor
      · rintro ⟨k, h1, h2, hp, hc, hall⟩
        refine ⟨k, by omega, by omega, hp, hc, ?_⟩
        intro j hj1 hj2
        by_cases hj : j = i + 1
        · subst hj; exact hok
        · exact hall j (by omega) hj2
      · rintro ⟨k, h1, h2, hp, hc, hall⟩
        have hk : k ≠ i + 1 := by
          intro hk; subst hk; exact hok ⟨hp, hc⟩
        exact ⟨k, by omega, by omega, hp, hc, fun j hj1 hj2 => hall j (by omega) hj2⟩

/-- When the loop does not return 0 it returns -1 after running all its
passes, each of which slept its escalating delay. -/
theorem initialize_loop_failure (probe confirm : Nat → Nat → AttemptScript) :
    ∀ (left i : Nat) (response : List Int),
      (initialize_loop probe confirm left i response).ret ≠ 0 →
      (initialize_loop probe confirm left i response).ret = -1 ∧
      (initialize_loop probe confirm left i response).attempts = left ∧
      (initialize_loop probe confirm left i response).delays =
        (List.range' (i + 1) left).map (fun n => 500000 * n) := by
  intro left
  induction left with
  | zero =>
    intro i response _
    simp [initialize_loop]
  | succ left ih =>
    intro i response hne
    by_cases hok : probe_result (probe (i + 1)) = 0 ∧ probe_result (confirm (i + 1)) = 0
    · obtain ⟨calls, e⟩ := initialize_loop_confirmed probe confirm left i response hok.1 hok.2
      rw [e] at hne
      simp at hne
    · obtain ⟨calls, buf, execs, e, _⟩ :=
        initialize_loop_pass_fails probe confirm left i response hok
      rw [e] at hne ⊢
      have h := ih (i + 1) buf hne
      refine ⟨h.1, ?_, ?_⟩
      · show 1 + (initialize_loop probe confirm left (i + 1) buf).attempts = left + 1
        rw [h.2.1]
        omega
      · show [500000 * (i + 1)] ++ (initialize_loop probe confirm left (i + 1) buf).delays = _
        rw [h.2.2]
        simp [List.range'_succ]

/-- When every remaining probe fails the executor is called once per pass. -/
theorem initialize_loop_no_answer (probe confirm : Nat → Nat → AttemptScript) :
    ∀ (left i : Nat) (response : List Int),
      (∀ j, i < j → j ≤ i + left → probe_result (probe j) ≠ 0) →
      (initialize_loop probe confirm left i response).executions = left := by
  intro left
  induction left with
  | zero =>
    intro i response _
    simp [initialize_loop]
  | succ left ih =>
    intro i response hall
    have hp := hall (i + 1) (by omega) (by omega)
    obtain ⟨calls, buf, execs, e, hex⟩ :=
      initialize_loop_pass_fails probe confirm left i response (fun h => hp h.1)
    rw [e]
    have h := ih (i + 1) buf (fun j h1 h2 => hall j (by omega) (by omega))
    show execs + (initialize_loop probe confirm left (i + 1) buf).executions = left + 1
    rw [h, hex hp]
    omega

/-- A successful run stops at the first attempt whose two probes succeed. -/
theorem initialize_loop_success_attempts (probe confirm : Nat → Nat → AttemptScript) :
    ∀ (left i : Nat) (response : List Int) (k : Nat), i < k → k ≤ i + left →
      probe_result (probe k) = 0 → probe_result (confirm k) = 0 →
      (∀ j, i < j → j < k →
        ¬ (probe_result (probe j) = 0 ∧ probe_result (confirm j) = 0)) →
      (initialize_loop probe confirm left i response).attempts = k - i ∧
      (initialize_loop probe confirm left i response).delays =
        (List.range' (i + 1) (k - i - 1)).map (fun n => 500000 * n) := by
  intro left
  induction left with
  | zero =>
    intro i response k h1 h2
    omega
  | succ left ih =>
    intro i response k h1 h2 hp hc hall
    by_cases hk : k = i + 1
    · subst hk
      obtain ⟨calls, e⟩ := initialize_loop_confirmed probe confirm left i response hp hc
      rw [e]
      simp
    · obtain ⟨calls, buf, execs, e, _⟩ :=
        initialize_loop_pass_fails probe confirm left i response
          (hall (i + 1) (by omega) (by omega))
      rw [e]
      have h := ih (i + 1) buf k (by omega) (by omega) hp hc
        (fun j hj1 hj2 => hall j (by omega) hj2)
      have hk2 : k - i - 1 = (k - (i + 1) - 1) + 1 := by omega
      constructor
      · show 1 + (initialize_loop probe confirm left (i + 1) buf).attempts = k - i
        rw [h.1]
        omega
      · show [500000 * (i + 1)] ++ (initialize_loop probe confirm left (i + 1) buf).delays = _
        rw [h.2, hk2]
        simp [List.range'_succ]

/-- A failing run ends with the escalating delay of its last pass. -/
theorem initialize_loop_failure_last (probe confirm : Nat → Nat → AttemptScript) :
    ∀ (left i : Nat) (response : List Int),
      (initialize_loop probe confirm (left + 1) i response).ret ≠ 0 →
      ∃ pre, (initialize_loop probe confirm (left + 1) i response).log =
        pre ++ [SerialCall.usleep (500000 * (i + left + 1))] := by
  intro left
  induction left with
  | zero =>
    intro i response hne
    by_cases hok : probe_result (probe (i + 1)) = 0 ∧ probe_result (confirm (i + 1)) = 0
    · obtain ⟨calls, e⟩ := initialize_loop_confirmed probe confirm 0 i response hok.1 hok.2
      rw [e] at hne
      simp at hne
    · obtain ⟨calls, buf, execs, e, _⟩ :=
        initialize_loop_pass_fails probe confirm 0 i response hok
      rw [e]
      exact ⟨calls, by simp [InitResult.after, initialize_loop]⟩
  | succ left ih =>
    intro i response hne
    by_cases hok : probe_result (probe (i + 1)) = 0 ∧ probe_result (confirm (i + 1)) = 0
    · obtain ⟨calls, e⟩ :=
        initialize_loop_confirmed probe confirm (left + 1) i response hok.1 hok.2
      rw [e] at hne
      simp at hne
    · obtain ⟨calls, buf, execs, e, _⟩ :=
        initialize_loop_pass_fails probe confirm (left + 1) i response hok
      rw [e] at hne ⊢
      obtain ⟨pre, hpre⟩ := ih (i + 1) buf hne
      refine ⟨calls ++ [SerialCall.usleep (500000 * (i + 1))] ++ pre, ?_⟩
      show (calls ++ [SerialCall.usleep (500000 * (i + 1))]) ++
        (initialize_loop probe confirm (left + 1) (i + 1) buf).log = _
      rw [hpre]
      have hidx : i + 1 + left + 1 = i + (left + 1) + 1 := by omega
      rw [hidx]
      simp

theorem silent_probe_fails : probe_result silent_script = -1 := by decide

theorem ok_probe_succeeds : probe_result always_ok_script = 0 := by decide

theorem error_probe_fails : probe_result always_error_script = -1 := by decide

/-- When all ten attempts fail, ten escalating delays are slept, the last
one after the tenth attempt. -/
theorem at_initialize_flex_device_all_fail (probe confirm : Nat → Nat → AttemptScript)
    (hall : ∀ j, 1 ≤ j → j ≤ 10 →
      ¬ (probe_result (probe j) = 0 ∧ probe_result (confirm j) = 0)) :
    (at_initialize_flex_device probe confirm).ret = -1 ∧
    (at_initialize_flex_device probe confirm).attempts = 10 ∧
    (at_initialize_flex_device probe confirm).delays =
      [500000, 1000000, 1500000, 2000000, 2500000, 3000000, 3500000, 4000000, 4500000,
       5000000] ∧
    (at_initialize_flex_device probe confirm).delays.sum = 27500000 ∧
    ∃ pre, (at_initialize_flex_device probe confirm).log =
      pre ++ [SerialCall.usleep 5000000] := by
  have hne : (initialize_loop probe confirm 10 0 []).ret ≠ 0 := by
    intro h0
    obtain ⟨k, h1, h2, hp, hc, _⟩ := (initialize_loop_ret_zero_iff probe confirm 10 0 []).mp h0
    exact hall k (by omega) (by omega) ⟨hp, hc⟩
  have h := initialize_loop_failure probe confirm 10 0 [] hne
  obtain ⟨pre, hpre⟩ := initialize_loop_failure_last probe confirm 9 0 [] hne
  have hd : (at_initialize_flex_device probe confirm).delays =
      [500000, 1000000, 1500000, 2000000, 2500000, 3000000, 3500000, 4000000, 4500000,
       5000000] := by
    show (initialize_loop probe confirm 10 0 []).delays = _
    rw [h.2.2]
    decide
  refine ⟨h.1, h.2.1, hd, ?_, [SerialCall.flush, SerialCall.usleep 1000000] ++ pre, ?_⟩
  · rw [hd]
    decide
  · show [SerialCall.flush, SerialCall.usleep 1000000] ++
      (initialize_loop probe confirm 10 0 []).log = _
    rw [hpre]
    simp

/-- C12: `at_initialize_flex_device` returns 0 if and only if, for some
attempt `i` with `1 <= i <= 10`, the `AT` probe and the confirming `AT` probe
of attempt `i` both succeed while every earlier attempt failed its probe or
its confirming probe, and it then stops at attempt `i`; otherwise it returns
-1 after exactly 10 attempts; a device that answers no probe causes exactly
10 calls of the executor and the return value -1. -/
theorem at_initialize_flex_device_success_iff (probe confirm : Nat → Nat → AttemptScript) :
    ((at_initialize_flex_device probe confirm).ret = 0 ↔
      ∃ i, 1 ≤ i ∧ i ≤ 10 ∧
        probe_result (probe i) = 0 ∧ probe_result (confirm i) = 0 ∧
        ∀ j, 1 ≤ j → j < i →
          ¬ (probe_result (probe j) = 0 ∧ probe_result (confirm j) = 0)) ∧
    (∀ i, 1 ≤ i → i ≤ 10 → probe_result (probe i) = 0 → probe_result (confirm i) = 0 →
      (∀ j, 1 ≤ j → j < i →
        ¬ (probe_result (probe j) = 0 ∧ probe_result (confirm j) = 0)) →
      (at_initialize_flex_device probe confirm).attempts = i) ∧
    ((at_initialize_flex_device probe confirm).ret ≠ 0 →
      (at_initialize_flex_device probe confirm).ret = -1 ∧
      (at_initialize_flex_device probe confirm).attempts = 10) ∧
    ((∀ j, 1 ≤ j → j ≤ 10 → probe_result (probe j) ≠ 0) →
      (at_initialize_flex_device probe confirm).ret = -1 ∧
      (at_initialize_flex_device probe confirm).attempts = 10 ∧
      (at_initialize_flex_device probe confirm).executions = 10) := by
  have hret : (at_initialize_flex_device probe confirm).ret =
      (initialize_loop probe confirm 10 0 []).ret := rfl
  have hatt : (at_initialize_flex_device probe confirm).attempts =
      (initialize_loop probe confirm 10 0 []).attempts := rfl
  have hexe : (at_initialize_flex_device probe confirm).executions =
      (initialize_loop probe confirm 10 0 []).executions := rfl
  have hiff := initialize_loop_ret_zero_iff probe confirm 10 0 []
  rw [hret, hatt, hexe]
  refine ⟨?_, ?_, ?_, ?_⟩
  · rw [hiff]
    constructor
    · rintro ⟨k, h1, h2, hp, hc, hall⟩
      exact ⟨k, by omega, by omega, hp, hc, fun j hj1 hj2 => hall j (by omega) hj2⟩
    · rintro ⟨k, h1, h2, hp, hc, hall⟩
      exact ⟨k, by omega, by omega, hp, hc, fun j hj1 hj2 => hall j (by omega) hj2⟩
  · intro i h1 h2 hp hc hall
    have h := (initialize_loop_success_attempts probe confirm 10 0 [] i (by omega) (by omega)
      hp hc (fun j hj1 hj2 => hall j (by omega) hj2)).1
    rw [h]
    omega
  · intro hne
    have h := initialize_loop_failure probe confirm 10 0 [] hne
    exact ⟨h.1, h.2.1⟩
  · intro hall
    have hne : (initialize_loop probe confirm 10 0 []).ret ≠ 0 := by
      intro h0
      obtain ⟨k, h1, h2, hp, _⟩ := hiff.mp h0
      exact hall k (by omega) (by omega) hp
    have h := initialize_loop_failure probe confirm 10 0 [] hne
    exact ⟨h.1, h.2.1,
      initialize_loop_no_answer probe confirm 10 0 [] (fun j h1 h2 => hall j (by omega) (by omega))⟩

/-- Witness for C12: a device whose confirming probe fails in the first
attempt and succeeds in the second; and a device that never answers. -/
theorem at_initialize_flex_device_success_iff_witness :
    (probe_result always_ok_script = 0 ∧ probe_result (flaky_confirm 2) = 0 ∧
      ¬ (probe_result always_ok_script = 0 ∧ probe_result (flaky_confirm 1) = 0)) ∧
    (at_initialize_flex_device (fun _ => always_ok_script) flaky_confirm).ret = 0 ∧
    (at_initialize_flex_device (fun _ => always_ok_script) flaky_confirm).attempts = 2 ∧
    (at_initialize_flex_device (fun _ => silent_script) (fun _ => silent_script)).ret = -1 ∧
    (at_initialize_flex_device (fun _ => silent_script)
      (fun _ => silent_script)).executions = 10 :=
  ⟨⟨ok_probe_succeeds, ok_probe_succeeds, fun h => by
      have e : probe_result (flaky_confirm 1) = -1 := error_probe_fails
      rw [e] at h
      exact absurd h.2 (by decide)⟩,
   (at_initialize_flex_device_success_iff (fun _ => always_ok_script) flaky_confirm).1.2
     ⟨2, by decide, by decide, ok_probe_succeeds, ok_probe_succeeds, fun j h1 h2 h => by
       have hj : j = 1 := by omega
       subst hj
       have e : probe_result (flaky_confirm 1) = -1 := error_probe_fails
       rw [e] at h
       exact absurd h.2 (by decide)⟩,
   (at_initialize_flex_device_success_iff (fun _ => always_ok_script) flaky_confirm).2.1 2
     (by decide) (by decide) ok_probe_succeeds ok_probe_succeeds (fun j h1 h2 h => by
       have hj : j = 1 := by omega
       subst hj
       have e : probe_result (flaky_confirm 1) = -1 := error_probe_fails
       rw [e] at h
       exact absurd h.2 (by decide)),
   ((at_initialize_flex_device_success_iff (fun _ => silent_script)
      (fun _ => silent_script)).2.2.2 (fun _ _ _ h => by
        rw [silent_probe_fails] at h
        exact absurd h (by decide))).1,
   ((at_initialize_flex_device_success_iff (fun _ => silent_script)
      (fun _ => silent_script)).2.2.2 (fun _ _ _ h => by
        rw [silent_probe_fails] at h
        exact absurd h (by decide))).2.2⟩

/-- C13, evaluated on the code: when all 10 attempts fail (here on a device
that never answers) `at_initialize_flex_device` sleeps ten escalating delays,
500, 1000, ..., 5000 ms, 27,500 ms in total; the tenth, of 5000 ms, is slept
after the last attempt and is the last serial call before -1 is returned. -/
theorem at_initialize_flex_device_sleeps_after_last_attempt :
    (at_initialize_flex_device (fun _ => silent_script) (fun _ => silent_script)).ret = -1 ∧
    (at_initialize_flex_device (fun _ => silent_script) (fun _ => silent_script)).attempts
      = 10 ∧
    (at_initialize_flex_device (fun _ => silent_script) (fun _ => silent_script)).delays =
      [500000, 1000000, 1500000, 2000000, 2500000, 3000000, 3500000, 4000000, 4500000,
       5000000] ∧
    (at_initialize_flex_device (fun _ => silent_script)
      (fun _ => silent_script)).delays.sum = 27500000 ∧
    ∃ pre, (at_initialize_flex_device (fun _ => silent_script) (fun _ => silent_script)).log =
      pre ++ [SerialCall.usleep 5000000] := by
  exact at_initialize_flex_device_all_fail _ _ (fun j _ _ h => by
    rw [silent_probe_fails] at h
    exact absurd h.1 (by decide))

/-! ### Lemmas on the chunk loop -/

theorem bytes_written_nil : bytes_written [] = [] := rfl

theorem bytes_written_cons (c : SendCall) (calls : List SendCall) :
    bytes_written (c :: calls) = c.data_written ++ bytes_written calls := rfl

theorem bytes_written_append (xs ys : List SendCall) :
    bytes_written (xs ++ ys) = bytes_written xs ++ bytes_written ys := by
  induction xs with
  | nil => simp [bytes_written_nil]
  | cons c xs ih => simp [bytes_written_cons, ih]

/-- The size of the chunk offered at offset `b` of a payload of `n` bytes. -/
theorem chunk_size_eq (n b : Nat) :
    (if n - b > CHUNK_SIZE then CHUNK_SIZE else n - b) = min 32 (n - b) := by
  simp only [CHUNK_SIZE]
  split <;> omega

/-- Whatever the writes and the clock do, the bytes put on the wire are the
payload bytes from the starting offset up to `bytes_sent`, and the loop ends
with `send_success` set only when `bytes_sent` has reached the size. -/
theorem chunk_loop_written (data : List Nat) :
    ∀ (steps : List ChunkStep) (b : Nat) (r : ChunkResult), b ≤ data.length →
      chunk_loop data steps b = some r →
      b ≤ r.bytes_sent ∧ r.bytes_sent ≤ data.length ∧
      bytes_written r.calls = (data.drop b).take (r.bytes_sent - b) ∧
      (r.send_success = true → r.bytes_sent = data.length) := by
  intro steps
  induction steps with
  | nil =>
    intro b r hb h
    simp only [chunk_loop] at h
    split at h
    · simp at h
    · simp only [Option.some.injEq] at h
      subst h
      simp [bytes_written_nil]
      omega
  | cons st steps ih =>
    intro b r hb h
    simp only [chunk_loop, chunk_size_eq] at h
    by_cases hlt : b < data.length
    · simp only [hlt, if_true] at h
      by_cases hf : st.write_fails = true
      · simp only [hf, if_true, Option.some.injEq] at h
        subst h
        simp [bytes_written_cons, bytes_written_nil, SendCall.data_written]
        omega
      · simp only [hf, Bool.false_eq_true, if_false] at h
        by_cases ht : st.elapsed > AT_DATA_SEND_TIMEOUT / 1000
        · simp only [ht, if_true, Option.some.injEq] at h
          subst h
          simp only [bytes_written_cons, bytes_written_nil, SendCall.data_written,
            Int.toNat_ofNat, List.append_nil, List.take_take, Nat.add_sub_cancel_left]
          refine ⟨by omega, by omega, ?_, by simp⟩
          congr 1
          omega
        · simp only [ht, if_false] at h
          cases hrec : chunk_loop data steps (b + (min 32 (data.length - b) - st.short)) with
          | none => rw [hrec] at h; simp at h
          | some r1 =>
            rw [hrec] at h
            simp only [Option.map_some', Option.some.injEq] at h
            subst h
            obtain ⟨h1, h2, h3, h4⟩ := ih _ r1 (by omega) hrec
            refine ⟨by simp only [ChunkResult.after]; omega,
              by simp only [ChunkResult.after]; omega, ?_, ?_⟩
            · have hcalls : (r1.after [SendCall.write_data
                    ((data.drop b).take (min 32 (data.length - b)))
                    ((min 32 (data.length - b) - st.short : Nat) : Int),
                  SendCall.usleep 5000]).calls =
                  SendCall.write_data ((data.drop b).take (min 32 (data.length - b)))
                    ((min 32 (data.length - b) - st.short : Nat) : Int) ::
                  SendCall.usleep 5000 :: r1.calls := rfl
              have hbs : (r1.after [SendCall.write_data
                    ((data.drop b).take (min 32 (data.length - b)))
                    ((min 32 (data.length - b) - st.short : Nat) : Int),
                  SendCall.usleep 5000]).bytes_sent = r1.bytes_sent := rfl
              rw [hcalls, hbs, bytes_written_cons, bytes_written_cons, h3]
              simp only [SendCall.data_written, Int.toNat_ofNat, List.take_take,
                List.nil_append]
              have hmin : min (min 32 (data.length - b) - st.short)
                  (min 32 (data.length - b)) = min 32 (data.length - b) - st.short := by
                omega
              have hsplit : r1.bytes_sent - b =
                  (min 32 (data.length - b) - st.short) +
                    (r1.bytes_sent - (b + (min 32 (data.length - b) - st.short))) := by
                omega
              rw [hmin, hsplit, List.take_add, List.drop_drop]
            · intro hs
              exact h4 hs
    · simp only [hlt, if_false, Option.some.injEq] at h
      subst h
      simp [bytes_written_nil]
      omega

/-- When every write accepts the whole chunk and the ceiling is not hit, the
loop offers chunks of 32 bytes and a shorter last one, and writes all of the
payload from the starting offset on. -/
theorem chunk_loop_full (data : List Nat) :
    ∀ (steps : List ChunkStep) (b : Nat), b ≤ data.length →
      (∀ st ∈ steps, st.write_fails = false ∧ st.short = 0 ∧ st.elapsed ≤ 20) →
      (data.length - b + 31) / 32 ≤ steps.length →
      ∃ r, chunk_loop data steps b = some r ∧ r.send_success = true ∧
        r.bytes_sent = data.length ∧
        (chunks_offered r.calls).map List.length =
          List.replicate ((data.length - b) / 32) 32 ++
            (if (data.length - b) % 32 = 0 then [] else [(data.length - b) % 32]) ∧
        bytes_written r.calls = data.drop b ∧
        r.calls.countP SendCall.is_data_write = (data.length - b + 31) / 32 := by
  intro steps
  induction steps with
  | nil =>
    intro b hb _ hlen
    have hbn : b = data.length := by
      simp only [List.length_nil] at hlen
      omega
    subst hbn
    refine ⟨⟨true, data.length, []⟩, by simp [chunk_loop], rfl, rfl, ?_, ?_, ?_⟩
    · simp [chunks_offered]
    · simp [bytes_written_nil]
    · simp
  | cons st steps ih =>
    intro b hb hacc hlen
    obtain ⟨hf, hs, he⟩ := hacc st (List.mem_cons_self st steps)
    have hrest : ∀ x ∈ steps, x.write_fails = false ∧ x.short = 0 ∧ x.elapsed ≤ 20 :=
      fun x hx => hacc x (List.mem_cons_of_mem st hx)
    by_cases hlt : b < data.length
    · have ht : ¬ st.elapsed > AT_DATA_SEND_TIMEOUT / 1000 := by
        simp only [AT_DATA_SEND_TIMEOUT]
        omega
      simp only [List.length_cons] at hlen
      obtain ⟨r1, hr1, hs1, hb1, hc1, hw1, hn1⟩ := ih (b + min 32 (data.length - b))
        (by omega) hrest (by omega)
      refine ⟨r1.after [SendCall.write_data ((data.drop b).take (min 32 (data.length - b)))
          ((min 32 (data.length - b) : Nat) : Int), SendCall.usleep 5000], ?_, hs1, hb1,
        ?_, ?_, ?_⟩
      · simp only [chunk_loop, chunk_size_eq, hlt, if_true, hf, Bool.false_eq_true, if_false,
          ht, hs, Nat.sub_zero, hr1, Option.map_some']
      · have hcalls : (r1.after [SendCall.write_data
              ((data.drop b).take (min 32 (data.length - b)))
              ((min 32 (data.length - b) : Nat) : Int), SendCall.usleep 5000]).calls =
            SendCall.write_data ((data.drop b).take (min 32 (data.length - b)))
              ((min 32 (data.length - b) : Nat) : Int) :: SendCall.usleep 5000 :: r1.calls :=
          rfl
        rw [hcalls]
        simp only [chunks_offered, List.map_cons, hc1, List.length_take, List.length_drop]
        by_cases h32 : 32 ≤ data.length - b
        · have e1 : min (min 32 (data.length - b)) (data.length - b) = 32 := by omega
          have e2 : data.length - (b + min 32 (data.length - b)) = data.length - b - 32 := by
            omega
          have e3 : (data.length - b) / 32 = (data.length - b - 32) / 32 + 1 := by omega
          have e4 : (data.length - b - 32) % 32 = (data.length - b) % 32 := by omega
          rw [e1, e2, e3, e4, List.replicate_succ]
          simp
        · have e1 : min (min 32 (data.length - b)) (data.length - b) = data.length - b := by
            omega
          have e2 : data.length - (b + min 32 (data.length - b)) = 0 := by omega
          have e3 : (data.length - b) / 32 = 0 := by omega
          have e4 : (data.length - b) % 32 = data.length - b := by omega
          have e5 : ¬ (data.length - b = 0) := by omega
          rw [e1, e2, e3, e4]
          simp [e5]
      · have hcalls : (r1.after [SendCall.write_data
              ((data.drop b).take (min 32 (data.length - b)))
              ((min 32 (data.length - b) : Nat) : Int), SendCall.usleep 5000]).calls =
            SendCall.write_data ((data.drop b).take (min 32 (data.length - b)))
              ((min 32 (data.length - b) : Nat) : Int) :: SendCall.usleep 5000 :: r1.calls :=
          rfl
        rw [hcalls]
        simp only [bytes_written_cons, SendCall.data_written, Int.toNat_ofNat, List.take_take,
          Nat.min_self, hw1, List.nil_append]
        have hd : data.drop (b + min 32 (data.length - b)) =
            (data.drop b).drop (min 32 (data.length - b)) := by
          rw [List.drop_drop]
        rw [hd]
        simp
      · have hcalls : (r1.after [SendCall.write_data
              ((data.drop b).take (min 32 (data.length - b)))
              ((min 32 (data.length - b) : Nat) : Int), SendCall.usleep 5000]).calls =
            SendCall.write_data ((data.drop b).take (min 32 (data.length - b)))
              ((min 32 (data.length - b) : Nat) : Int) :: SendCall.usleep 5000 :: r1.calls :=
          rfl
        rw [hcalls]
        simp only [List.countP_cons, SendCall.is_data_write, hn1]
        simp
        omega
    · have hbn : b = data.length := by omega
      subst hbn
      refine ⟨⟨true, data.length, []⟩, by simp [chunk_loop], rfl, rfl, ?_, ?_, ?_⟩
      · simp [chunks_offered]
      · simp [bytes_written_nil]
      · simp

/-! ### Lemmas on the message transmitter -/

/-- The return value of the executor does not depend on the buffer passed. -/
theorem command_ret (command : String) (script : Nat → AttemptScript) (response : List Int) :
    (at_execute_flex_command command response AT_BUFFER_SIZE script).ret =
      command_result command script :=
  (execute_loop_response_irrelevant command AT_BUFFER_SIZE script AT_MAX_RETRIES
    response []).1

/-- The chunk loop never writes `AT+SEND`, never sleeps 2 s, and never fails
without a payload write. -/
theorem chunk_loop_calls (data : List Nat) :
    ∀ (steps : List ChunkStep) (b : Nat) (r : ChunkResult),
      chunk_loop data steps b = some r →
      r.calls.countP SendCall.is_send_write = 0 ∧
      r.calls.count (SendCall.usleep 2000000) = 0 := by
  intro steps
  induction steps with
  | nil =>
    intro b r h
    simp only [chunk_loop] at h
    split at h
    · simp at h
    · simp only [Option.some.injEq] at h
      subst h
      simp
  | cons st steps ih =>
    intro b r h
    simp only [chunk_loop] at h
    split at h
    · split at h
      · simp only [Option.some.injEq] at h
        subst h
        simp [SendCall.is_send_write, List.count_cons]
      · split at h
        · simp only [Option.some.injEq] at h
          subst h
          simp [SendCall.is_send_write, List.count_cons]
        · cases hrec : chunk_loop data steps
              (b + ((if data.length - b > CHUNK_SIZE then CHUNK_SIZE else data.length - b) -
                st.short)) with
          | none => rw [hrec] at h; simp at h
          | some r1 =>
            rw [hrec] at h
            simp only [Option.map_some', Option.some.injEq] at h
            subst h
            obtain ⟨h1, h2⟩ := ih _ r1 hrec
            simp [ChunkResult.after, SendCall.is_send_write, List.count_cons, h1, h2,
              List.countP_cons]
    · simp only [Option.some.injEq] at h
      subst h
      simp

/-- A pass in which the write of `AT+SEND` succeeds and the device does not
report readiness stops after the read, to be retried after 2 s. -/
theorem send_pass_not_ready (data : List Nat) (a : SendAttempt) (response : List Int)
    (hw : a.send_write_ok = true)
    (hnot : ¬ (ready_result a = AT_RESP_DATA ∧
      strstr_found (ready_buffer a) (cstr "+SEND: READY") = true)) :
    send_pass data a response =
      some ⟨false, 2000000, not_ready_calls data.length a, ready_buffer a⟩ := by
  have hcond : ready_result a ≠ AT_RESP_DATA ∨
      strstr_found (ready_buffer a) (cstr "+SEND: READY") = false := by
    by_cases h1 : ready_result a = AT_RESP_DATA
    · right
      cases h2 : strstr_found (ready_buffer a) (cstr "+SEND: READY") with
      | false => rfl
      | true => exact absurd ⟨h1, h2⟩ hnot
    · left; exact h1
  have hcond2 : (at_read_flex_response AT_BUFFER_SIZE
        (at_execute_flex_command "AT\r\n" response AT_BUFFER_SIZE a.reset).response
        a.ready_events).result ≠ AT_RESP_DATA ∨
      strstr_found (at_read_flex_response AT_BUFFER_SIZE
        (at_execute_flex_command "AT\r\n" response AT_BUFFER_SIZE a.reset).response
        a.ready_events).buffer (cstr "+SEND: READY") = false := hcond
  simp only [send_pass, hw, Bool.not_true, Bool.false_eq_true, if_false, hcond2, if_true,
    probe_ret, not_ready_calls]
  rfl

/-- What a successful pass implies, and what every pass writes. -/
theorem send_pass_outcome (data : List Nat) (a : SendAttempt) (response : List Int)
    (p : PassResult) (h : send_pass data a response = some p) :
    p.calls.countP SendCall.is_send_write = 1 ∧
    (p.success = true →
      a.send_write_ok = true ∧ ready_result a = AT_RESP_DATA ∧
      strstr_found (ready_buffer a) (cstr "+SEND: READY") = true ∧
      final_result a = AT_RESP_OK ∧
      (∃ ch, chunk_loop data a.chunk_steps 0 = some ch ∧ ch.send_success = true) ∧
      ∃ pre, p.calls = pre ++
        [SendCall.tcdrain, SendCall.sleep 5, SendCall.read AT_RESP_OK]) := by
  by_cases hw : a.send_write_ok = true
  · by_cases hnot : ready_result a = AT_RESP_DATA ∧
        strstr_found (ready_buffer a) (cstr "+SEND: READY") = true
    · have hcond2 : ¬ ((at_read_flex_response AT_BUFFER_SIZE
            (at_execute_flex_command "AT\r\n" response AT_BUFFER_SIZE a.reset).response
            a.ready_events).result ≠ AT_RESP_DATA ∨
          strstr_found (at_read_flex_response AT_BUFFER_SIZE
            (at_execute_flex_command "AT\r\n" response AT_BUFFER_SIZE a.reset).response
            a.ready_events).buffer (cstr "+SEND: READY") = false) := by
        intro hc
        rcases hc with hc | hc
        · exact hc hnot.1
        · have h2 : strstr_found (ready_buffer a) (cstr "+SEND: READY") = false := hc
          rw [hnot.2] at h2
          exact absurd h2 (by decide)
      simp only [send_pass, hw, Bool.not_true, Bool.false_eq_true, if_false, hcond2] at h
      cases hch : chunk_loop data a.chunk_steps 0 with
      | none => rw [hch] at h; simp at h
      | some ch =>
        rw [hch] at h
        obtain ⟨hc1, _⟩ := chunk_loop_calls data a.chunk_steps 0 ch hch
        by_cases hs : ch.send_success = true
        · by_cases hfin : final_result a = AT_RESP_OK
          · have hfin2 : ¬ ((at_read_flex_response AT_BUFFER_SIZE
                (at_read_flex_response AT_BUFFER_SIZE
                  (at_execute_flex_command "AT\r\n" response AT_BUFFER_SIZE a.reset).response
                  a.ready_events).buffer a.final_events).result ≠ AT_RESP_OK) :=
              fun hc => hc hfin
            have hfin3 : (at_read_flex_response AT_BUFFER_SIZE
                (at_read_flex_response AT_BUFFER_SIZE
                  (at_execute_flex_command "AT\r\n" response AT_BUFFER_SIZE a.reset).response
                  a.ready_events).buffer a.final_events).result = AT_RESP_OK := hfin
            simp only [hs, Bool.not_true, Bool.false_eq_true, if_false] at h
            rw [if_neg hfin2] at h
            simp only [Option.some.injEq] at h
            subst h
            refine ⟨?_, fun _ => ⟨hw, hnot.1, hnot.2, hfin, ⟨ch, rfl, hs⟩, ?_⟩⟩
            · simp [List.countP_append, List.countP_cons, SendCall.is_send_write, hc1]
            · rw [hfin3]
              exact ⟨_, rfl⟩
          · have hfin2 : (at_read_flex_response AT_BUFFER_SIZE
                (at_read_flex_response AT_BUFFER_SIZE
                  (at_execute_flex_command "AT\r\n" response AT_BUFFER_SIZE a.reset).response
                  a.ready_events).buffer a.final_events).result ≠ AT_RESP_OK := hfin
            simp only [hs, Bool.not_true, Bool.false_eq_true, if_false] at h
            rw [if_pos hfin2] at h
            simp only [Option.some.injEq] at h
            subst h
            refine ⟨?_, fun hsucc => by simp at hsucc⟩
            simp [List.countP_append, List.countP_cons, SendCall.is_send_write, hc1]
        · simp only [hs, Bool.not_false, if_true, Option.some.injEq] at h
          subst h
          refine ⟨?_, fun hsucc => by simp at hsucc⟩
          simp [List.countP_append, List.countP_cons, SendCall.is_send_write, hc1]
    · rw [send_pass_not_ready data a response hw hnot] at h
      simp only [Option.some.injEq] at h
      subst h
      refine ⟨?_, fun hsucc => by simp at hsucc⟩
      simp [not_ready_calls, List.countP_cons, SendCall.is_send_write]
  · simp only [send_pass, hw, Bool.not_false, if_true, Option.some.injEq] at h
    subst h
    refine ⟨?_, fun hsucc => by simp at hsucc⟩
    simp [List.countP_cons, SendCall.is_send_write]

/-- Whether or not the write of `AT+SEND` succeeds, a pass in which the device
does not report readiness fails without writing any payload byte. -/
theorem send_pass_not_ready_no_data (data : List Nat) (a : SendAttempt) (response : List Int)
    (p : PassResult) (h : send_pass data a response = some p)
    (hnot : ¬ (ready_result a = AT_RESP_DATA ∧
      strstr_found (ready_buffer a) (cstr "+SEND: READY") = true)) :
    p.success = false ∧ p.calls.countP SendCall.is_data_write = 0 ∧
    (a.send_write_ok = true → p.backoff = 2000000) := by
  by_cases hw : a.send_write_ok = true
  · rw [send_pass_not_ready data a response hw hnot] at h
    simp only [Option.some.injEq] at h
    subst h
    simp [not_ready_calls, List.countP_cons, SendCall.is_data_write]
  · simp only [send_pass, hw, Bool.not_false, if_true, Option.some.injEq] at h
    subst h
    simp [List.countP_cons, SendCall.is_data_write, hw]

/-- A pass that fails with retries left is followed by its backoff and the
next pass. -/
theorem send_loop_retry (data : List Nat) (attempt : Nat → SendAttempt) (retries : Nat)
    (response : List Int) (p : PassResult)
    (h : send_pass data (attempt (3 - (retries + 1))) response = some p)
    (hfail : p.success = false) :
    send_loop data attempt (retries + 1 + 1) response =
      (send_loop data attempt (retries + 1) p.response).map
        (SendResult.after (p.calls ++ [SendCall.usleep p.backoff])) := by
  have hpos : retries + 1 > 0 := by omega
  rw [send_loop]
  simp only [h, hfail, hpos, Bool.false_eq_true, if_false, if_true]

/-- The last pass, when it fails, returns -1 without a backoff. -/
theorem send_loop_last (data : List Nat) (attempt : Nat → SendAttempt)
    (response : List Int) (p : PassResult)
    (h : send_pass data (attempt (3 - 0)) response = some p) (hfail : p.success = false) :
    send_loop data attempt (0 + 1) response = some ⟨-1, p.calls⟩ := by
  rw [send_loop]
  simp only [h, hfail, Bool.false_eq_true, if_false, gt_iff_lt, lt_irrefl]

/-- A pass that succeeds returns 0. -/
theorem send_loop_success (data : List Nat) (attempt : Nat → SendAttempt) (retries : Nat)
    (response : List Int) (p : PassResult)
    (h : send_pass data (attempt (3 - retries)) response = some p)
    (hs : p.success = true) :
    send_loop data attempt (retries + 1) response = some ⟨0, p.calls⟩ := by
  rw [send_loop]
  simp only [h, hs, if_true]

/-- The outer loop writes `AT+SEND` at most once per pass it may run. -/
theorem send_loop_send_writes (data : List Nat) (attempt : Nat → SendAttempt) :
    ∀ (retries : Nat) (response : List Int) (r : SendResult),
      send_loop data attempt retries response = some r →
      r.trace.countP SendCall.is_send_write ≤ retries := by
  intro retries
  induction retries with
  | zero =>
    intro response r h
    simp only [send_loop, Option.some.injEq] at h
    subst h
    simp
  | succ retries ih =>
    intro response r h
    cases hp : send_pass data (attempt (3 - retries)) response with
    | none => rw [send_loop, hp] at h; simp at h
    | some p =>
      have hone := (send_pass_outcome data _ response p hp).1
      cases hs : p.success with
      | true =>
        rw [send_loop_success data attempt retries response p hp hs] at h
        simp only [Option.some.injEq] at h
        subst h
        simp only [hone]
        omega
      | false =>
        cases retries with
        | zero =>
          rw [send_loop_last data attempt response p hp hs] at h
          simp only [Option.some.injEq] at h
          subst h
          simp only [hone]
          omega
        | succ retries =>
          rw [send_loop_retry data attempt retries response p hp hs] at h
          cases hrec : send_loop data attempt (retries + 1) p.response with
          | none => rw [hrec] at h; simp at h
          | some r1 =>
            rw [hrec] at h
            simp only [Option.map_some', Option.some.injEq] at h
            subst h
            have h1 := ih p.response r1 hrec
            simp only [SendResult.after, List.countP_append, List.countP_cons, List.countP_nil,
              SendCall.is_send_write, hone]
            simp
            omega

/-- A return value of 0 comes from a successful pass, whose calls end the
trace. -/
theorem send_loop_ret_zero (data : List Nat) (attempt : Nat → SendAttempt) :
    ∀ (retries : Nat) (response : List Int) (r : SendResult), retries ≤ 3 →
      send_loop data attempt retries response = some r → r.ret = 0 →
      ∃ (k : Nat) (buf : List Int) (p : PassResult) (pre : List SendCall),
        4 - retries ≤ k ∧ k ≤ 3 ∧ send_pass data (attempt k) buf = some p ∧
        p.success = true ∧ r.trace = pre ++ p.calls := by
  intro retries
  induction retries with
  | zero =>
    intro response r _ h hret
    simp only [send_loop, Option.some.injEq] at h
    subst h
    simp at hret
  | succ retries ih =>
    intro response r hle h hret
    cases hp : send_pass data (attempt (3 - retries)) response with
    | none => rw [send_loop, hp] at h; simp at h
    | some p =>
      cases hs : p.success with
      | true =>
        rw [send_loop_success data attempt retries response p hp hs] at h
        simp only [Option.some.injEq] at h
        subst h
        exact ⟨3 - retries, response, p, [], by omega, by omega, hp, hs, by simp⟩
      | false =>
        cases retries with
        | zero =>
          rw [send_loop_last data attempt response p hp hs] at h
          simp only [Option.some.injEq] at h
          subst h
          simp at hret
        | succ retries =>
          rw [send_loop_retry data attempt retries response p hp hs] at h
          cases hrec : send_loop data attempt (retries + 1) p.response with
          | none => rw [hrec] at h; simp at h
          | some r1 =>
            rw [hrec] at h
            simp only [Option.map_some', Option.some.injEq] at h
            subst h
            obtain ⟨k, buf, p1, pre, hk1, hk2, hp1, hs1, htr⟩ :=
              ih p.response r1 (by omega) hrec hret
            refine ⟨k, buf, p1, p.calls ++ [SendCall.usleep p.backoff] ++ pre,
              by omega, hk2, hp1, hs1, ?_⟩
            show (p.calls ++ [SendCall.usleep p.backoff]) ++ r1.trace = _
            rw [htr]
            simp

/-- The transmitter, once the radio settings are accepted, is the outer loop
behind the two executor calls. -/
theorem send_flex_via_at_commands_configured (env : SendEnv) (config : FlexATConfig)
    (data : List Nat)
    (hfreq : command_result ("AT+FREQ=" ++ config.frequency_text ++ "\r\n") env.freq = 0)
    (hpower : command_result ("AT+POWER=" ++ toString config.power ++ "\r\n") env.power = 0) :
    ∃ buf, send_flex_via_at_commands env config data =
      (send_loop data env.attempt 3 buf).map
        (SendResult.after
          [SendCall.execute ("AT+FREQ=" ++ config.frequency_text ++ "\r\n") 0,
           SendCall.execute ("AT+POWER=" ++ toString config.power ++ "\r\n") 0]) := by
  refine ⟨(at_execute_flex_command ("AT+POWER=" ++ toString config.power ++ "\r\n")
    (at_execute_flex_command ("AT+FREQ=" ++ config.frequency_text ++ "\r\n") []
      AT_BUFFER_SIZE env.freq).response AT_BUFFER_SIZE env.power).response, ?_⟩
  simp only [send_flex_via_at_commands, command_ret, hfreq, hpower, lt_irrefl, if_false]

/-- Every complete run of the transmitter is either stopped by a radio
setting that fails or is the outer loop behind the two executor calls. -/
theorem send_flex_via_at_commands_cases (env : SendEnv) (config : FlexATConfig)
    (data : List Nat) :
    (∃ calls, send_flex_via_at_commands env config data = some ⟨-1, calls⟩ ∧
      calls.countP SendCall.is_send_write = 0) ∨
    ∃ buf calls, send_flex_via_at_commands env config data =
      (send_loop data env.attempt 3 buf).map (SendResult.after calls) ∧
      calls.countP SendCall.is_send_write = 0 := by
  by_cases hf : command_result ("AT+FREQ=" ++ config.frequency_text ++ "\r\n") env.freq < 0
  · left
    refine ⟨[SendCall.execute ("AT+FREQ=" ++ config.frequency_text ++ "\r\n")
      (command_result ("AT+FREQ=" ++ config.frequency_text ++ "\r\n") env.freq)], ?_, ?_⟩
    · simp only [send_flex_via_at_commands, command_ret, hf, if_true]
    · simp [List.countP_cons, SendCall.is_send_write]
  · by_cases hp : command_result ("AT+POWER=" ++ toString config.power ++ "\r\n")
        env.power < 0
    · left
      refine ⟨[SendCall.execute ("AT+FREQ=" ++ config.frequency_text ++ "\r\n")
          (command_result ("AT+FREQ=" ++ config.frequency_text ++ "\r\n") env.freq),
        SendCall.execute ("AT+POWER=" ++ toString config.power ++ "\r\n")
          (command_result ("AT+POWER=" ++ toString config.power ++ "\r\n") env.power)],
        ?_, ?_⟩
      · simp only [send_flex_via_at_commands, command_ret, hf, hp, if_true, if_false]
      · simp [List.countP_cons, SendCall.is_send_write]
    · right
      refine ⟨(at_execute_flex_command ("AT+POWER=" ++ toString config.power ++ "\r\n")
          (at_execute_flex_command ("AT+FREQ=" ++ config.frequency_text ++ "\r\n") []
            AT_BUFFER_SIZE env.freq).response AT_BUFFER_SIZE env.power).response,
        [SendCall.execute ("AT+FREQ=" ++ config.frequency_text ++ "\r\n")
          (command_result ("AT+FREQ=" ++ config.frequency_text ++ "\r\n") env.freq),
        SendCall.execute ("AT+POWER=" ++ toString config.power ++ "\r\n")
          (command_result ("AT+POWER=" ++ toString config.power ++ "\r\n") env.power)],
        ?_, ?_⟩
      · simp only [send_flex_via_at_commands, command_ret, hf, hp, if_false]
      · simp [List.countP_cons, SendCall.is_send_write]

theorem refused_not_ready :
    ¬ (ready_result refused_attempt = AT_RESP_DATA ∧
      strstr_found (ready_buffer refused_attempt) (cstr "+SEND: READY") = true) := by
  decide

theorem ready_ok_not_ready :
    ready_result ready_ok_attempt = AT_RESP_OK ∧
    strstr_found (ready_buffer ready_ok_attempt) (cstr "+SEND: READY") = true := by
  decide

theorem unconfirmed_final : final_result unconfirmed_attempt = AT_RESP_ERROR := by decide

theorem ok_command_succeeds (command : String) : command_result command always_ok_script = 0 := by
  have h := execute_loop_ok command AT_BUFFER_SIZE always_ok_script 4 [] rfl (by decide)
  show (execute_loop command AT_BUFFER_SIZE always_ok_script 5 []).ret = 0
  rw [h]

/-- C14: when the frequency and power commands succeed and the device never
reports readiness (each write of `AT+SEND` succeeding),
`send_flex_via_at_commands` runs the send sequence exactly 3 times, writing
`AT+SEND=<size>` exactly 3 times, sleeps the 2 s backoff exactly twice, after
the first and second attempt and not after the last, writes no payload byte
and returns -1; and in no execution is `AT+SEND` written more than 3 times. -/
theorem send_flex_via_at_commands_never_ready (env : SendEnv) (config : FlexATConfig)
    (data : List Nat) :
    (command_result ("AT+FREQ=" ++ config.frequency_text ++ "\r\n") env.freq = 0 →
      command_result ("AT+POWER=" ++ toString config.power ++ "\r\n") env.power = 0 →
      (∀ k, 1 ≤ k → k ≤ 3 →
        (env.attempt k).send_write_ok = true ∧
        ¬ (ready_result (env.attempt k) = AT_RESP_DATA ∧
          strstr_found (ready_buffer (env.attempt k)) (cstr "+SEND: READY") = true)) →
      ∃ r, send_flex_via_at_commands env config data = some r ∧ r.ret = -1 ∧
        r.trace =
          [SendCall.execute ("AT+FREQ=" ++ config.frequency_text ++ "\r\n") 0,
           SendCall.execute ("AT+POWER=" ++ toString config.power ++ "\r\n") 0] ++
          not_ready_calls data.length (env.attempt 1) ++ [SendCall.usleep 2000000] ++
          not_ready_calls data.length (env.attempt 2) ++ [SendCall.usleep 2000000] ++
          not_ready_calls data.length (env.attempt 3) ∧
        r.trace.countP SendCall.is_send_write = 3 ∧
        r.trace.count (SendCall.usleep 2000000) = 2 ∧
        r.trace.countP SendCall.is_data_write = 0) ∧
    (∀ r, send_flex_via_at_commands env config data = some r →
      r.trace.countP SendCall.is_send_write ≤ 3) := by
  constructor
  · intro hfreq hpower hall
    obtain ⟨buf, hcfg⟩ := send_flex_via_at_commands_configured env config data hfreq hpower
    have p1 := fun b => send_pass_not_ready data (env.attempt 1) b
      (hall 1 (by omega) (by omega)).1 (hall 1 (by omega) (by omega)).2
    have p2 := fun b => send_pass_not_ready data (env.attempt 2) b
      (hall 2 (by omega) (by omega)).1 (hall 2 (by omega) (by omega)).2
    have p3 := fun b => send_pass_not_ready data (env.attempt 3) b
      (hall 3 (by omega) (by omega)).1 (hall 3 (by omega) (by omega)).2
    have e3 : send_loop data env.attempt 3 buf = _ :=
      send_loop_retry data env.attempt 1 buf _ (p1 buf) rfl
    have e2 : ∀ b, send_loop data env.attempt 2 b = _ := fun b =>
      send_loop_retry data env.attempt 0 b _ (p2 b) rfl
    have e1 : ∀ b, send_loop data env.attempt 1 b = _ := fun b =>
      send_loop_last data env.attempt b _ (p3 b) rfl
    rw [hcfg, e3, e2, e1]
    refine ⟨_, rfl, rfl, ?_, ?_, ?_, ?_⟩
    · simp [SendResult.after]
    · simp [SendResult.after, not_ready_calls, List.countP_cons, SendCall.is_send_write]
    · simp [SendResult.after, not_ready_calls, List.count_cons]
    · simp [SendResult.after, not_ready_calls, List.countP_cons, SendCall.is_data_write]
  · intro r h
    rcases send_flex_via_at_commands_cases env config data with ⟨calls, hc, hn⟩ | ⟨buf, calls, hc, hn⟩
    · rw [hc] at h
      simp only [Option.some.injEq] at h
      subst h
      simp only [hn]
      omega
    · rw [hc] at h
      cases hl : send_loop data env.attempt 3 buf with
      | none => rw [hl] at h; simp at h
      | some r1 =>
        rw [hl] at h
        simp only [Option.map_some', Option.some.injEq] at h
        subst h
        have h3 := send_loop_send_writes data env.attempt 3 buf r1 hl
        simp only [SendResult.after, List.countP_append, hn]
        omega

/-- Witness for C14: a device that answers every `AT+SEND` with `ERROR`. -/
theorem send_flex_via_at_commands_never_ready_witness :
    command_result ("AT+FREQ=" ++ sample_radio.frequency_text ++ "\r\n")
      never_ready_env.freq = 0 ∧
    command_result ("AT+POWER=" ++ toString sample_radio.power ++ "\r\n")
      never_ready_env.power = 0 ∧
    ((never_ready_env.attempt 1).send_write_ok = true ∧
      ready_result (never_ready_env.attempt 1) = AT_RESP_ERROR) ∧
    ∃ r, send_flex_via_at_commands never_ready_env sample_radio sample_payload = some r ∧
      r.ret = -1 ∧ r.trace.countP SendCall.is_send_write = 3 ∧
      r.trace.count (SendCall.usleep 2000000) = 2 :=
  ⟨ok_command_succeeds _, ok_command_succeeds _, ⟨rfl, by decide⟩,
   match (send_flex_via_at_commands_never_ready never_ready_env sample_radio
      sample_payload).1 (ok_command_succeeds _) (ok_command_succeeds _)
      (fun _ _ _ => ⟨rfl, refused_not_ready⟩) with
   | ⟨r, h, hret, _, hsend, hsleep, _⟩ => ⟨r, h, hret, hsend, hsleep⟩⟩

/-- C15: `send_flex_via_at_commands` returns 0 only if its last outer attempt
succeeded, and in that attempt the read after `AT+SEND` was classified DATA
with `response` containing `+SEND: READY` and the read after the payload was
classified OK, that read being the last call made; a pass with any other
arming outcome (a `+SEND: READY` line classified OK because `OK` followed it
included) fails without writing a payload byte, and a pass whose final read
is classified anything but OK fails. -/
theorem send_flex_via_at_commands_success_only_if (env : SendEnv) (config : FlexATConfig)
    (data : List Nat) :
    (∀ r, send_flex_via_at_commands env config data = some r → r.ret = 0 →
      ∃ (k : Nat) (buf : List Int) (p : PassResult) (pre : List SendCall),
        1 ≤ k ∧ k ≤ 3 ∧ send_pass data (env.attempt k) buf = some p ∧ p.success = true ∧
        r.trace = pre ++ p.calls ∧
        ready_result (env.attempt k) = AT_RESP_DATA ∧
        strstr_found (ready_buffer (env.attempt k)) (cstr "+SEND: READY") = true ∧
        final_result (env.attempt k) = AT_RESP_OK ∧
        ∃ before, r.trace = before ++
          [SendCall.tcdrain, SendCall.sleep 5, SendCall.read AT_RESP_OK]) ∧
    (∀ (a : SendAttempt) (response : List Int) (p : PassResult),
      send_pass data a response = some p →
      ¬ (ready_result a = AT_RESP_DATA ∧
        strstr_found (ready_buffer a) (cstr "+SEND: READY") = true) →
      p.success = false ∧ p.calls.countP SendCall.is_data_write = 0) ∧
    (∀ (a : SendAttempt) (response : List Int) (p : PassResult),
      send_pass data a response = some p → final_result a ≠ AT_RESP_OK →
      p.success = false) := by
  refine ⟨?_, ?_, ?_⟩
  · intro r h hret
    rcases send_flex_via_at_commands_cases env config data with
      ⟨calls, hc, _⟩ | ⟨buf, calls, hc, _⟩
    · rw [hc] at h
      simp only [Option.some.injEq] at h
      subst h
      simp at hret
    · rw [hc] at h
      cases hl : send_loop data env.attempt 3 buf with
      | none => rw [hl] at h; simp at h
      | some r1 =>
        rw [hl] at h
        simp only [Option.map_some', Option.some.injEq] at h
        subst h
        obtain ⟨k, b, p, pre, hk1, hk2, hp, hs, htr⟩ :=
          send_loop_ret_zero data env.attempt 3 buf r1 (by omega) hl hret
        obtain ⟨_, hcond⟩ := send_pass_outcome data (env.attempt k) b p hp
        obtain ⟨_, hr, hstr, hfin, _, tail, htail⟩ := hcond hs
        refine ⟨k, b, p, calls ++ pre, by omega, hk2, hp, hs, ?_, hr, hstr, hfin,
          calls ++ pre ++ tail, ?_⟩
        · show calls ++ r1.trace = _
          rw [htr]
          simp
        · show calls ++ r1.trace = _
          rw [htr, htail]
          simp
  · intro a response p h hnot
    have hn := send_pass_not_ready_no_data data a response p h hnot
    exact ⟨hn.1, hn.2.1⟩
  · intro a response p h hfin
    cases hs : p.success with
    | false => rfl
    | true =>
      obtain ⟨_, hcond⟩ := send_pass_outcome data a response p h
      exact absurd (hcond hs).2.2.2.1 hfin

/-- Witness for C15: a device that leaves the first transmission unconfirmed
and confirms the second; and one that sends `OK` right after `+SEND: READY`. -/
theorem send_flex_via_at_commands_success_only_if_witness :
    (∃ r, send_flex_via_at_commands second_try_env sample_radio sample_payload = some r ∧
      r.ret = 0 ∧
      ∃ before, r.trace = before ++
        [SendCall.tcdrain, SendCall.sleep 5, SendCall.read AT_RESP_OK]) ∧
    (ready_result ready_ok_attempt = AT_RESP_OK ∧
      ∃ p, send_pass sample_payload ready_ok_attempt [] = some p ∧ p.success = false ∧
        p.calls.countP SendCall.is_data_write = 0) ∧
    (final_result unconfirmed_attempt ≠ AT_RESP_OK ∧
      ∃ p, send_pass sample_payload unconfirmed_attempt [] = some p ∧ p.success = false) := by
  refine ⟨?_, ⟨ready_ok_not_ready.1, ?_⟩, ⟨by rw [unconfirmed_final]; decide, ?_⟩⟩
  · have hret : (send_flex_via_at_commands second_try_env sample_radio sample_payload).map
        SendResult.ret = some 0 := by decide
    cases h : send_flex_via_at_commands second_try_env sample_radio sample_payload with
    | none => rw [h] at hret; simp at hret
    | some r =>
      rw [h] at hret
      have hr0 : r.ret = 0 := by simpa using hret
      obtain ⟨_, _, _, _, _, _, _, _, _, _, _, _, tail⟩ :=
        (send_flex_via_at_commands_success_only_if second_try_env sample_radio
          sample_payload).1 r h hr0
      exact ⟨r, rfl, hr0, tail⟩
  · have hsome : (send_pass sample_payload ready_ok_attempt []).isSome = true := by decide
    cases h : send_pass sample_payload ready_ok_attempt [] with
    | none => rw [h] at hsome; simp at hsome
    | some p =>
      have hp := (send_flex_via_at_commands_success_only_if second_try_env sample_radio
        sample_payload).2.1 ready_ok_attempt [] p h
        (fun hc => by
          have e := ready_ok_not_ready.1
          rw [e] at hc
          exact absurd hc.1 (by decide))
      exact ⟨p, rfl, hp.1, hp.2⟩
  · have hsome : (send_pass sample_payload unconfirmed_attempt []).isSome = true := by decide
    cases h : send_pass sample_payload unconfirmed_attempt [] with
    | none => rw [h] at hsome; simp at hsome
    | some p =>
      have hp := (send_flex_via_at_commands_success_only_if second_try_env sample_radio
        sample_payload).2.2 unconfirmed_attempt [] p h
        (by rw [unconfirmed_final]; decide)
      exact ⟨p, rfl, hp⟩

/-- C16: for every payload of `n` bytes, when every write accepts the whole
chunk offered and the 20 s ceiling is not hit, the chunk loop of
`send_flex_via_at_commands` issues exactly `ceil(n/32)` writes (none when
`n = 0`), offering `floor(n/32)` chunks of exactly 32 bytes followed, when 32
does not divide `n`, by one last chunk of `n mod 32` bytes, and the bytes
written in order are the payload; and whatever the writes return and the
clock shows, the bytes written in order are the first `bytes_sent` bytes of
the payload, and the loop ends with `send_success` set only when all `n`
bytes have been written. -/
theorem chunk_loop_streams_payload (data : List Nat) (steps : List ChunkStep) :
    ((∀ st ∈ steps, st.write_fails = false ∧ st.short = 0 ∧ st.elapsed ≤ 20) →
      (data.length + 31) / 32 ≤ steps.length →
      ∃ r, chunk_loop data steps 0 = some r ∧ r.send_success = true ∧
        r.calls.countP SendCall.is_data_write = (data.length + 31) / 32 ∧
        (chunks_offered r.calls).map List.length =
          List.replicate (data.length / 32) 32 ++
            (if data.length % 32 = 0 then [] else [data.length % 32]) ∧
        bytes_written r.calls = data) ∧
    (∀ r, chunk_loop data steps 0 = some r →
      bytes_written r.calls = data.take r.bytes_sent ∧
      r.bytes_sent ≤ data.length ∧
      (r.send_success = true → r.bytes_sent = data.length ∧ bytes_written r.calls = data)) := by
  constructor
  · intro hacc hlen
    obtain ⟨r, hr, hs, _, hc, hw, hn⟩ := chunk_loop_full data steps 0 (Nat.zero_le _) hacc
      (by simpa using hlen)
    exact ⟨r, hr, hs, by simpa using hn, by simpa using hc, by simpa using hw⟩
  · intro r hr
    obtain ⟨_, h2, h3, h4⟩ := chunk_loop_written data steps 0 r (Nat.zero_le _) hr
    have hw : bytes_written r.calls = data.take r.bytes_sent := by simpa using h3
    refine ⟨hw, h2, fun hs => ⟨h4 hs, ?_⟩⟩
    rw [hw, h4 hs, List.take_length]

/-- Witness for C16: 70 bytes go out as chunks of 32, 32 and 6 bytes; and a
write that takes 2 of 32 bytes followed by a failing write leaves exactly the
first 2 bytes of the payload on the wire. -/
theorem chunk_loop_streams_payload_witness :
    ((∀ st ∈ full_steps 3, st.write_fails = false ∧ st.short = 0 ∧ st.elapsed ≤ 20) ∧
      (sample_payload.length + 31) / 32 ≤ (full_steps 3).length ∧
      ∃ r, chunk_loop sample_payload (full_steps 3) 0 = some r ∧
        (chunks_offered r.calls).map List.length = [32, 32, 6] ∧
        bytes_written r.calls = sample_payload) ∧
    (chunk_loop sample_payload [⟨false, 30, 0⟩, ⟨true, 0, 0⟩] 0 =
        some ⟨false, 2, [SendCall.write_data (List.range 32) 2, SendCall.usleep 5000,
          SendCall.write_data ((List.range 34).drop 2) (-1)]⟩ ∧
      bytes_written [SendCall.write_data (List.range 32) 2, SendCall.usleep 5000,
          SendCall.write_data ((List.range 34).drop 2) (-1)] = sample_payload.take 2) :=
  ⟨⟨by decide, by decide,
    match (chunk_loop_streams_payload sample_payload (full_steps 3)).1 (by decide)
      (by decide) with
    | ⟨r, h, _, _, hlen, hw⟩ => ⟨r, h, hlen.trans (by decide), hw⟩⟩,
   ⟨by decide,
    ((chunk_loop_streams_payload sample_payload [⟨false, 30, 0⟩, ⟨true, 0, 0⟩]).2
      ⟨false, 2, [SendCall.write_data (List.range 32) 2, SendCall.usleep 5000,
          SendCall.write_data ((List.range 34).drop 2) (-1)]⟩ (by decide)).1⟩⟩

/-- C17, evaluated on the code: in debug mode, with a valid capcode, a valid
frequency and a successful encoding, `process_message` still opens the serial
device and runs the device initializer on it. With no device attached the
open fails and the request returns false; with a device that does not answer
the probes the request returns false; with a healthy device the request
returns true after opening, initialising and closing the device. -/
theorem process_message_debug_uses_serial :
    process_message no_device_env 1122334 "Hello" 916000000 ⟨0, true⟩ sample_config true =
      ⟨false, ⟨0, true⟩,
        [PipelineCall.tf_encode_flex_message_ex "Hello" 1122334,
         PipelineCall.open_flex_at_serial "/dev/ttyUSB0" 115200]⟩ ∧
    process_message mute_device_env 1122334 "Hello" 916000000 ⟨0, true⟩ sample_config true =
      ⟨false, ⟨0, true⟩,
        [PipelineCall.tf_encode_flex_message_ex "Hello" 1122334,
         PipelineCall.open_flex_at_serial "/dev/ttyUSB0" 115200,
         PipelineCall.at_initialize_flex_device 3,
         PipelineCall.close_flex_at_serial 3]⟩ ∧
    process_message sample_env 1122334 "Hello" 916000000 ⟨0, true⟩ sample_config true =
      ⟨true, ⟨0, true⟩,
        [PipelineCall.tf_encode_flex_message_ex "Hello" 1122334,
         PipelineCall.open_flex_at_serial "/dev/ttyUSB0" 115200,
         PipelineCall.at_initialize_flex_device 3,
         PipelineCall.close_flex_at_serial 3]⟩ := by
  decide

/-- C18: when EMR is due and debug mode is off (and the request has passed
the gates up to device initialization), `process_message` sends the 4-byte
pattern A5 5A A5 5A through `send_flex_via_at_commands` before the payload,
still sends the payload, and returns true exactly when the payload
transmission returned 0; the return value of the EMR transmission changes
nothing in the outcome. -/
theorem process_message_emr_best_effort (env : PipelineEnv) (capcode : Nat) (message : String)
    (frequency : Nat) (conn_state : ConnectionState) (config : Config)
    (hvalid : env.is_capcode_valid capcode = true)
    (hlow : 1000000 ≤ frequency) (hhigh : frequency ≤ 6000000000)
    (henc : 0 ≤ (env.tf_encode_flex_message_ex message capcode).2)
    (hopen : 0 ≤ env.open_result) (hinit : 0 ≤ env.init_result)
    (hemr : should_send_emr conn_state env.emr_now = true) :
    (process_message env capcode message frequency conn_state config false).trace =
      [PipelineCall.tf_encode_flex_message_ex message capcode,
       PipelineCall.open_flex_at_serial config.FLEX_DEVICE config.FLEX_BAUDRATE,
       PipelineCall.at_initialize_flex_device env.open_result,
       PipelineCall.send_flex_via_at_commands env.open_result frequency config.FLEX_POWER
         [0xA5, 0x5A, 0xA5, 0x5A],
       PipelineCall.send_flex_via_at_commands env.open_result frequency config.FLEX_POWER
         (env.tf_encode_flex_message_ex message capcode).1,
       PipelineCall.close_flex_at_serial env.open_result] ∧
    ((process_message env capcode message frequency conn_state config false).success = true ↔
      env.payload_send_result = 0) ∧
    ∀ emr_result : Int,
      process_message { env with emr_send_result := emr_result } capcode message frequency
        conn_state config false =
      process_message env capcode message frequency conn_state config false := by
  have h2 : ¬ (frequency < 1000000 ∨ frequency > 6000000000) := by omega
  have h3 : ¬ (env.tf_encode_flex_message_ex message capcode).2 < 0 := by omega
  have h4 : ¬ env.open_result < 0 := by omega
  have h5 : ¬ env.init_result < 0 := by omega
  refine ⟨?_, ?_, ?_⟩
  · by_cases h7 : env.payload_send_result = 0 <;>
      simp [process_message, hvalid, h2, h3, h4, h5, hemr, h7, send_emr_messages, emr_buffer]
  · by_cases h7 : env.payload_send_result = 0 <;>
      simp [process_message, hvalid, h2, h3, h4, h5, hemr, h7]
  · intro emr_result
    rfl

/-- Witness for C18: a first message whose EMR burst fails while the payload
transmission succeeds. -/
theorem process_message_emr_best_effort_witness :
    (sample_env.emr_send_result = -1 ∧ should_send_emr ⟨0, true⟩ sample_env.emr_now = true) ∧
    (process_message sample_env 1122334 "Hello" 916000000 ⟨0, true⟩ sample_config
      false).success = true ∧
    (process_message sample_env 1122334 "Hello" 916000000 ⟨0, true⟩ sample_config
      false).trace =
      [PipelineCall.tf_encode_flex_message_ex "Hello" 1122334,
       PipelineCall.open_flex_at_serial sample_config.FLEX_DEVICE sample_config.FLEX_BAUDRATE,
       PipelineCall.at_initialize_flex_device sample_env.open_result,
       PipelineCall.send_flex_via_at_commands sample_env.open_result 916000000
         sample_config.FLEX_POWER [0xA5, 0x5A, 0xA5, 0x5A],
       PipelineCall.send_flex_via_at_commands sample_env.open_result 916000000
         sample_config.FLEX_POWER (sample_env.tf_encode_flex_message_ex "Hello" 1122334).1,
       PipelineCall.close_flex_at_serial sample_env.open_result] :=
  ⟨⟨rfl, by decide⟩,
   (process_message_emr_best_effort sample_env 1122334 "Hello" 916000000 ⟨0, true⟩
      sample_config (by decide) (by decide) (by decide) (by decide) (by decide) (by decide)
      (by decide)).2.1.2 rfl,
   (process_message_emr_best_effort sample_env 1122334 "Hello" 916000000 ⟨0, true⟩
      sample_config (by decide) (by decide) (by decide) (by decide) (by decide) (by decide)
      (by decide)).1⟩

/-- C19: `process_message` changes the `ConnectionState` only on a successful
real transmission. When the request passes every gate, debug mode is off and
the payload transmission returns 0, the call returns true and leaves
`first_message` false and `last_transmission` at the clock reading taken
after that success; on every other path (a gate that fails, a transmission
that fails, debug mode) both fields are what they were before the call. -/
theorem process_message_conn_state (env : PipelineEnv) (capcode : Nat) (message : String)
    (frequency : Nat) (conn_state : ConnectionState) (config : Config) (debug_mode : Bool) :
    ((env.is_capcode_valid capcode = true ∧ 1000000 ≤ frequency ∧ frequency ≤ 6000000000 ∧
        0 ≤ (env.tf_encode_flex_message_ex message capcode).2 ∧ 0 ≤ env.open_result ∧
        0 ≤ env.init_result ∧ debug_mode = false ∧ env.payload_send_result = 0) →
      (process_message env capcode message frequency conn_state config debug_mode).success
        = true ∧
      (process_message env capcode message frequency conn_state config debug_mode).conn_state
        = ⟨env.success_now, false⟩) ∧
    (¬ (env.is_capcode_valid capcode = true ∧ 1000000 ≤ frequency ∧ frequency ≤ 6000000000 ∧
        0 ≤ (env.tf_encode_flex_message_ex message capcode).2 ∧ 0 ≤ env.open_result ∧
        0 ≤ env.init_result ∧ debug_mode = false ∧ env.payload_send_result = 0) →
      (process_message env capcode message frequency conn_state config debug_mode).conn_state
        = conn_state) := by
  constructor
  · rintro ⟨h1, hlow, hhigh, henc, hopen, hinit, hdebug, hpay⟩
    have h2 : ¬ (frequency < 1000000 ∨ frequency > 6000000000) := by omega
    have h3 : ¬ (env.tf_encode_flex_message_ex message capcode).2 < 0 := by omega
    have h4 : ¬ env.open_result < 0 := by omega
    have h5 : ¬ env.init_result < 0 := by omega
    subst hdebug
    simp [process_message, h1, h2, h3, h4, h5, hpay]
  · intro hnot
    unfold process_message
    by_cases h1 : env.is_capcode_valid capcode = true
    · by_cases h2 : frequency < 1000000 ∨ frequency > 6000000000
      · simp [h1, h2]
      · by_cases h3 : (env.tf_encode_flex_message_ex message capcode).2 < 0
        · simp [h1, h2, h3]
        · by_cases h4 : env.open_result < 0
          · simp [h1, h2, h3, h4]
          · by_cases h5 : env.init_result < 0
            · simp [h1, h2, h3, h4, h5]
            · cases debug_mode with
              | true => simp [h1, h2, h3, h4, h5]
              | false =>
                by_cases h7 : env.payload_send_result = 0
                · exact absurd ⟨h1, by omega, by omega, by omega, by omega, by omega, rfl, h7⟩
                    hnot
                · simp [h1, h2, h3, h4, h5, h7]
    · simp [h1]

/-- Witness for C19: a successful transmission, and the same request in debug
mode. -/
theorem process_message_conn_state_witness :
    (process_message sample_env 1122334 "Hello" 916000000 ⟨0, true⟩ sample_config
      false).conn_state = ⟨2000, false⟩ ∧
    (process_message sample_env 1122334 "Hello" 916000000 ⟨0, true⟩ sample_config
      true).conn_state = ⟨0, true⟩ :=
  ⟨((process_message_conn_state sample_env 1122334 "Hello" 916000000 ⟨0, true⟩ sample_config
      false).1 (by decide)).2,
   (process_message_conn_state sample_env 1122334 "Hello" 916000000 ⟨0, true⟩ sample_config
      true).2 (by decide)⟩

/-- C20: on every path of `process_message` on which `open_flex_at_serial` was
reached and returned a descriptor `>= 0`, `close_flex_at_serial` is called on
that descriptor exactly once, as the last call before the return (after a
failed initialization as well as after the transmission step); when the open
failed or was not reached it is never called. -/
theorem process_message_closes_once (env : PipelineEnv) (capcode : Nat) (message : String)
    (frequency : Nat) (conn_state : ConnectionState) (config : Config) (debug_mode : Bool) :
    ((env.is_capcode_valid capcode = true ∧ 1000000 ≤ frequency ∧ frequency ≤ 6000000000 ∧
        0 ≤ (env.tf_encode_flex_message_ex message capcode).2 ∧ 0 ≤ env.open_result) →
      (process_message env capcode message frequency conn_state config debug_mode).trace.countP
        PipelineCall.is_close = 1 ∧
      (process_message env capcode message frequency conn_state config debug_mode).trace.getLast?
        = some (PipelineCall.close_flex_at_serial env.open_result)) ∧
    (¬ (env.is_capcode_valid capcode = true ∧ 1000000 ≤ frequency ∧ frequency ≤ 6000000000 ∧
        0 ≤ (env.tf_encode_flex_message_ex message capcode).2 ∧ 0 ≤ env.open_result) →
      (process_message env capcode message frequency conn_state config debug_mode).trace.countP
        PipelineCall.is_close = 0) := by
  constructor
  · rintro ⟨h1, hlow, hhigh, henc, hopen⟩
    have h2 : ¬ (frequency < 1000000 ∨ frequency > 6000000000) := by omega
    have h3 : ¬ (env.tf_encode_flex_message_ex message capcode).2 < 0 := by omega
    have h4 : ¬ env.open_result < 0 := by omega
    by_cases h5 : env.init_result < 0
    · simp [process_message, h1, h2, h3, h4, h5, List.countP_cons, PipelineCall.is_close]
    · cases debug_mode <;> by_cases h7 : env.payload_send_result = 0 <;>
        cases hemr : should_send_emr conn_state env.emr_now <;>
        simp [process_message, h1, h2, h3, h4, h5, h7, hemr, send_emr_messages,
          List.countP_cons, List.countP_append, PipelineCall.is_close, List.getLast?_append]
  · intro hnot
    unfold process_message
    by_cases h1 : env.is_capcode_valid capcode = true
    · by_cases h2 : frequency < 1000000 ∨ frequency > 6000000000
      · simp [h1, h2]
      · by_cases h3 : (env.tf_encode_flex_message_ex message capcode).2 < 0
        · simp [h1, h2, h3, List.countP_cons, PipelineCall.is_close]
        · by_cases h4 : env.open_result < 0
          · simp [h1, h2, h3, h4, List.countP_cons, PipelineCall.is_close]
          · exact absurd ⟨h1, by omega, by omega, by omega, by omega⟩ hnot
    · simp [h1]

/-- Witness for C20: a device that fails initialization is closed once; with
no device to open nothing is closed. -/
theorem process_message_closes_once_witness :
    (process_message mute_device_env 1122334 "Hello" 916000000 ⟨0, true⟩ sample_config
      false).trace.countP PipelineCall.is_close = 1 ∧
    (process_message no_device_env 1122334 "Hello" 916000000 ⟨0, true⟩ sample_config
      false).trace.countP PipelineCall.is_close = 0 :=
  ⟨((process_message_closes_once mute_device_env 1122334 "Hello" 916000000 ⟨0, true⟩
      sample_config false).1 (by decide)).1,
   (process_message_closes_once no_device_env 1122334 "Hello" 916000000 ⟨0, true⟩
      sample_config false).2 (by decide)⟩

/-! ### Lemmas on the raw-TCP input split -/

theorem find_char_none (ch : Char) : ∀ (l : List Char), ch ∉ l → find_char ch l = none := by
  intro l
  induction l with
  | nil => intro _; rfl
  | cons c cs ih =>
    intro h
    simp only [List.mem_cons, not_or] at h
    have hne : ¬ c = ch := fun e => h.1 e.symm
    simp [find_char, hne, ih h.2]

theorem rfind_char_none (ch : Char) : ∀ (l : List Char), ch ∉ l → rfind_char ch l = none := by
  intro l
  induction l with
  | nil => intro _; rfl
  | cons c cs ih =>
    intro h
    simp only [List.mem_cons, not_or] at h
    have hne : ¬ c = ch := fun e => h.1 e.symm
    simp [rfind_char, hne, ih h.2]

/-- The first occurrence lies right behind a prefix free of the character. -/
theorem find_char_append (ch : Char) (rest : List Char) :
    ∀ (l : List Char), ch ∉ l → find_char ch (l ++ ch :: rest) = some l.length := by
  intro l
  induction l with
  | nil => intro _; simp [find_char]
  | cons c cs ih =>
    intro h
    simp only [List.mem_cons, not_or] at h
    have hne : ¬ c = ch := fun e => h.1 e.symm
    simp [find_char, hne, ih h.2]

/-- The last occurrence lies right before a tail free of the character. -/
theorem rfind_char_append (ch : Char) (tail : List Char) (htail : ch ∉ tail) :
    ∀ (l : List Char), rfind_char ch (l ++ ch :: tail) = some l.length := by
  intro l
  induction l with
  | nil => simp [rfind_char, rfind_char_none ch tail htail]
  | cons c cs ih => simp [rfind_char, ih]

/-- With at most one occurrence the first and the last one coincide. -/
theorem find_char_eq_rfind_char (ch : Char) :
    ∀ (l : List Char), l.count ch ≤ 1 → find_char ch l = rfind_char ch l := by
  intro l
  induction l with
  | nil => intro _; rfl
  | cons c cs ih =>
    intro h
    by_cases hc : c = ch
    · subst hc
      have h0 : cs.count c = 0 := by
        simp only [List.count_cons_self] at h
        omega
      have hnot : c ∉ cs := List.count_eq_zero.mp h0
      simp [find_char, rfind_char, rfind_char_none c cs hnot]
    · have h1 : cs.count ch ≤ 1 := by
        simp only [List.count_cons, beq_iff_eq, hc, if_false, Nat.add_zero] at h
        exact h
      have e := ih h1
      simp only [find_char, rfind_char, hc, if_false, e]
      cases rfind_char ch cs <;> rfl

/-- An input with fewer than two occurrences of the delimiter is rejected. -/
theorem split_serial_input_rejects (input : List Char) (h : input.count '|' < 2) :
    split_serial_input input = none := by
  have e := find_char_eq_rfind_char '|' input (by omega)
  unfold split_serial_input
  rw [e]
  cases rfind_char '|' input with
  | none => rfl
  | some p => simp

/-- An input of three fields, the outer two free of the delimiter, is split
into exactly these fields. -/
theorem split_serial_input_three (c m f : List Char) (hc : '|' ∉ c) (hf : '|' ∉ f) :
    split_serial_input (c ++ ['|'] ++ m ++ ['|'] ++ f) = some ⟨c, m, f⟩ := by
  have e1 : c ++ ['|'] ++ m ++ ['|'] ++ f = c ++ '|' :: (m ++ '|' :: f) := by simp
  have e2 : c ++ ['|'] ++ m ++ ['|'] ++ f = (c ++ '|' :: m) ++ '|' :: f := by simp
  have hfind : find_char '|' (c ++ ['|'] ++ m ++ ['|'] ++ f) = some c.length := by
    rw [e1]
    exact find_char_append '|' _ c hc
  have hrfind : rfind_char '|' (c ++ ['|'] ++ m ++ ['|'] ++ f) = some (c ++ '|' :: m).length := by
    rw [e2]
    exact rfind_char_append '|' f hf _
  unfold split_serial_input
  rw [hfind, hrfind]
  have hne : ¬ (c.length = (c ++ '|' :: m).length) := by
    simp only [List.length_append, List.length_cons]
    omega
  simp only [hne, if_false, Option.some.injEq, SerialFields.mk.injEq]
  refine ⟨?_, ?_, ?_⟩
  · rw [e1]
    exact List.take_left _ _
  · have hd : (c ++ ['|'] ++ m ++ ['|'] ++ f).drop (c.length + 1) = m ++ '|' :: f := by
      have : c ++ ['|'] ++ m ++ ['|'] ++ f = (c ++ ['|']) ++ (m ++ '|' :: f) := by simp
      have hlen : c.length + 1 = (c ++ ['|']).length := by simp
      rw [this, hlen]
      exact List.drop_left _ _
    have hl : (c ++ '|' :: m).length - c.length - 1 = m.length := by
      simp only [List.length_append, List.length_cons]
      omega
    rw [hd, hl]
    exact List.take_left _ _
  · have hl : (c ++ '|' :: m).length + 1 = (c ++ '|' :: m ++ ['|']).length := by
      simp only [List.length_append, List.length_cons, List.length_nil]
    have : c ++ ['|'] ++ m ++ ['|'] ++ f = (c ++ '|' :: m ++ ['|']) ++ f := by simp
    rw [hl, this]
    exact List.drop_left _ _

/-- C22: the raw-TCP parser of `handle_serial_client` splits at the first and
the last `|`: for every capcode text `c` and frequency text `f` without `|`
and every message `m`, with or without `|`, the input `c|m|f` yields exactly
the fields `c`, `m` and `f`, and `m` is the message handed to
`process_message`; every input with fewer than two `|` is answered with the
format error, and `process_message` is not called. -/
theorem handle_serial_client_split (stoull : List Char → Option Nat) (env : PipelineEnv)
    (valRead : Int) (conn_state : ConnectionState) (config : Config) (debug_mode : Bool)
    (c m f input : List Char) :
    ('|' ∉ c → '|' ∉ f →
      split_serial_input (c ++ ['|'] ++ m ++ ['|'] ++ f) = some ⟨c, m, f⟩ ∧
      (0 < valRead → ∀ capcode frequency : Nat,
        stoull c = some capcode → stoull f = some frequency →
        (handle_serial_client stoull env valRead (c ++ ['|'] ++ m ++ ['|'] ++ f) conn_state
          config debug_mode).processed =
          some ⟨capcode, String.mk m, frequency,
            process_message env capcode (String.mk m) frequency conn_state config
              debug_mode⟩)) ∧
    (input.count '|' < 2 → 0 < valRead →
      handle_serial_client stoull env valRead input conn_state config debug_mode =
        ⟨some "Invalid input format. Expected: CAPCODE|MESSAGE|FREQUENCY", none,
          conn_state⟩) := by
  constructor
  · intro hc hf
    have hsplit := split_serial_input_three c m f hc hf
    refine ⟨hsplit, ?_⟩
    intro hread capcode frequency hcap hfreq
    have hnr : ¬ valRead ≤ 0 := by omega
    simp only [handle_serial_client, hnr, if_false, hsplit, hcap, hfreq]
    split <;> rfl
  · intro hcount hread
    have hnr : ¬ valRead ≤ 0 := by omega
    simp only [handle_serial_client, hnr, if_false, split_serial_input_rejects input hcount]

/-- Witness for C22: a message that itself holds a `|`, and an input with
one `|` only. -/
theorem handle_serial_client_split_witness :
    split_serial_input
      ("1122334".toList ++ ['|'] ++ "a|b".toList ++ ['|'] ++ "916000000".toList) =
      some ⟨"1122334".toList, "a|b".toList, "916000000".toList⟩ ∧
    (handle_serial_client sample_stoull sample_env 21
      ("1122334".toList ++ ['|'] ++ "a|b".toList ++ ['|'] ++ "916000000".toList)
      ⟨0, true⟩ sample_config false).processed =
      some ⟨1122334, String.mk "a|b".toList, 916000000,
        process_message sample_env 1122334 (String.mk "a|b".toList) 916000000 ⟨0, true⟩
          sample_config false⟩ ∧
    handle_serial_client sample_stoull sample_env 13 "1122334|Hello".toList ⟨0, true⟩
      sample_config false =
      ⟨some "Invalid input format. Expected: CAPCODE|MESSAGE|FREQUENCY", none, ⟨0, true⟩⟩ :=
  ⟨((handle_serial_client_split sample_stoull sample_env 21 ⟨0, true⟩ sample_config false
      "1122334".toList "a|b".toList "916000000".toList []).1 (by decide) (by decide)).1,
   ((handle_serial_client_split sample_stoull sample_env 21 ⟨0, true⟩ sample_config false
      "1122334".toList "a|b".toList "916000000".toList []).1 (by decide) (by decide)).2
      (by decide) 1122334 916000000 (by decide) (by decide),
   (handle_serial_client_split sample_stoull sample_env 13 ⟨0, true⟩ sample_config false
      [] [] [] "1122334|Hello".toList).2 (by decide) (by decide)⟩

/-- C23: once the request has been read, `handle_http_client` answers 405
when the method is not `POST`; otherwise 401, the status that
`send_unauthorized_response` sends according to the spec, when the
`Authorization` header is missing or fails authentication; otherwise 400 when
the JSON is invalid, the capcode is 0 or the message is empty; in none of
these cases is `process_message` called; otherwise it calls `process_message` and answers
200 exactly when that returns true and 500 exactly when it returns false. -/
theorem handle_http_client_status (http : HttpEnv) (env : PipelineEnv)
    (conn_state : ConnectionState) (config : Config) (debug_mode : Bool)
    (hread : 0 < http.initial_read) :
    (http.request.method ≠ "POST" →
      handle_http_client http env conn_state config debug_mode = ⟨405, none, conn_state⟩) ∧
    (http.request.method = "POST" →
      (http.request.authorization = none ∨
        ∃ credentials, http.request.authorization = some credentials ∧
          http.authenticate_user credentials = false) →
      handle_http_client http env conn_state config debug_mode = ⟨401, none, conn_state⟩) ∧
    (http.request.method = "POST" → ∀ credentials,
      http.request.authorization = some credentials →
      http.authenticate_user credentials = true →
      ((http.parse_json_message http.request.body).valid = false ∨
        (http.parse_json_message http.request.body).capcode = 0 ∨
        (http.parse_json_message http.request.body).message.isEmpty = true) →
      handle_http_client http env conn_state config debug_mode = ⟨400, none, conn_state⟩) ∧
    (http.request.method = "POST" → ∀ credentials,
      http.request.authorization = some credentials →
      http.authenticate_user credentials = true →
      (http.parse_json_message http.request.body).valid = true →
      (http.parse_json_message http.request.body).capcode ≠ 0 →
      (http.parse_json_message http.request.body).message.isEmpty = false →
      (handle_http_client http env conn_state config debug_mode).processed =
        some ⟨(http.parse_json_message http.request.body).capcode,
          (http.parse_json_message http.request.body).message,
          (if (http.parse_json_message http.request.body).frequency > 0 then
            (http.parse_json_message http.request.body).frequency
           else config.DEFAULT_FREQUENCY),
          process_message env (http.parse_json_message http.request.body).capcode
            (http.parse_json_message http.request.body).message
            (if (http.parse_json_message http.request.body).frequency > 0 then
              (http.parse_json_message http.request.body).frequency
             else config.DEFAULT_FREQUENCY) conn_state config debug_mode⟩ ∧
      ((handle_http_client http env conn_state config debug_mode).status = 200 ↔
        (process_message env (http.parse_json_message http.request.body).capcode
          (http.parse_json_message http.request.body).message
          (if (http.parse_json_message http.request.body).frequency > 0 then
            (http.parse_json_message http.request.body).frequency
           else config.DEFAULT_FREQUENCY) conn_state config debug_mode).success = true) ∧
      ((handle_http_client http env conn_state config debug_mode).status = 500 ↔
        (process_message env (http.parse_json_message http.request.body).capcode
          (http.parse_json_message http.request.body).message
          (if (http.parse_json_message http.request.body).frequency > 0 then
            (http.parse_json_message http.request.body).frequency
           else config.DEFAULT_FREQUENCY) conn_state config debug_mode).success = false)) := by
  have hnr : ¬ http.initial_read ≤ 0 := by omega
  refine ⟨?_, ?_, ?_, ?_⟩
  · intro hm
    simp [handle_http_client, hnr, hm]
  · intro hm hauth
    rcases hauth with hnone | ⟨credentials, hsome, hfail⟩
    · simp [handle_http_client, hnr, hm, hnone, unauthorized_status]
    · simp [handle_http_client, hnr, hm, hsome, hfail, unauthorized_status]
  · intro hm credentials hsome hok hbad
    rcases hbad with hv | hc | he
    · simp [handle_http_client, hnr, hm, hsome, hok, hv]
    · by_cases hv : (http.parse_json_message http.request.body).valid = true
      · simp [handle_http_client, hnr, hm, hsome, hok, hv, hc]
      · simp [handle_http_client, hnr, hm, hsome, hok, hv]
    · by_cases hv : (http.parse_json_message http.request.body).valid = true
      · by_cases hc : (http.parse_json_message http.request.body).capcode = 0
        · simp [handle_http_client, hnr, hm, hsome, hok, hv, hc]
        · simp [handle_http_client, hnr, hm, hsome, hok, hv, hc, he]
      · simp [handle_http_client, hnr, hm, hsome, hok, hv]
  · intro hm credentials hsome hok hv hc he
    cases hs : (process_message env (http.parse_json_message http.request.body).capcode
        (http.parse_json_message http.request.body).message
        (if (http.parse_json_message http.request.body).frequency > 0 then
          (http.parse_json_message http.request.body).frequency
         else config.DEFAULT_FREQUENCY) conn_state config debug_mode).success <;>
      simp [handle_http_client, hnr, hm, hsome, hok, hv, hc, he, hs]

/-- Witness for C23: a `GET`, a request without credentials, a capcode of 0,
and a valid request that is transmitted. -/
theorem handle_http_client_status_witness :
    handle_http_client get_http sample_env ⟨0, true⟩ sample_config false =
      ⟨405, none, ⟨0, true⟩⟩ ∧
    handle_http_client anonymous_http sample_env ⟨0, true⟩ sample_config false =
      ⟨401, none, ⟨0, true⟩⟩ ∧
    handle_http_client capcode_zero_http sample_env ⟨0, true⟩ sample_config false =
      ⟨400, none, ⟨0, true⟩⟩ ∧
    (handle_http_client sample_http sample_env ⟨0, true⟩ sample_config false).status = 200 :=
  ⟨(handle_http_client_status get_http sample_env ⟨0, true⟩ sample_config false
      (by decide)).1 (by decide),
   (handle_http_client_status anonymous_http sample_env ⟨0, true⟩ sample_config false
      (by decide)).2.1 (by decide) (Or.inl rfl),
   (handle_http_client_status capcode_zero_http sample_env ⟨0, true⟩ sample_config false
      (by decide)).2.2.1 (by decide) "Basic YWRtaW46cGFzc3cwcmQ=" rfl (by decide)
      (Or.inr (Or.inl rfl)),
   ((handle_http_client_status sample_http sample_env ⟨0, true⟩ sample_config false
      (by decide)).2.2.2 (by decide) "Basic YWRtaW46cGFzc3cwcmQ=" rfl (by decide) rfl
      (by decide) (by decide)).2.1.2 (by decide)⟩

/-- C24: the configuration checks of `main` return exit code 2 exactly when
`FLEX_POWER < 2`, `FLEX_POWER > 20`, or `SERIAL_LISTEN_PORT` and
`HTTP_LISTEN_PORT` are both 0; for every power in the inclusive range 2..20
with at least one non-zero port, the boundary powers 2 and 20 included, they
let start-up go on. -/
theorem startup_validation_exit (config : Config) :
    (startup_validation config = some 2 ↔
      (config.FLEX_POWER < 2 ∨ config.FLEX_POWER > 20 ∨
        (config.SERIAL_LISTEN_PORT = 0 ∧ config.HTTP_LISTEN_PORT = 0))) ∧
    (2 ≤ config.FLEX_POWER → config.FLEX_POWER ≤ 20 →
      (config.SERIAL_LISTEN_PORT ≠ 0 ∨ config.HTTP_LISTEN_PORT ≠ 0) →
      startup_validation config = none) := by
  unfold startup_validation
  constructor
  · by_cases hp : config.FLEX_POWER < 2 ∨ config.FLEX_POWER > 20
    · rw [if_pos hp]
      refine ⟨fun _ => ?_, fun _ => rfl⟩
      rcases hp with h | h
      · exact Or.inl h
      · exact Or.inr (Or.inl h)
    · rw [if_neg hp]
      by_cases hports : config.SERIAL_LISTEN_PORT = 0 ∧ config.HTTP_LISTEN_PORT = 0
      · rw [if_pos hports]
        exact ⟨fun _ => Or.inr (Or.inr hports), fun _ => rfl⟩
      · rw [if_neg hports]
        constructor
        · intro h
          cases h
        · rintro (h | h | h)
          · exact absurd (Or.inl h) hp
          · exact absurd (Or.inr h) hp
          · exact absurd h hports
  · intro h2 h20 hports
    have hp : ¬ (config.FLEX_POWER < 2 ∨ config.FLEX_POWER > 20) := by omega
    have hq : ¬ (config.SERIAL_LISTEN_PORT = 0 ∧ config.HTTP_LISTEN_PORT = 0) := by
      rintro ⟨h1, h2⟩
      rcases hports with h | h
      · exact h h1
      · exact h h2
    simp only [hp, if_false, hq]

/-- Witness for C24: the powers 1, 2, 20 and 21, and both ports disabled. -/
theorem startup_validation_exit_witness :
    startup_validation { sample_config with FLEX_POWER := 1 } = some 2 ∧
    startup_validation { sample_config with FLEX_POWER := 2 } = none ∧
    startup_validation { sample_config with FLEX_POWER := 20 } = none ∧
    startup_validation { sample_config with FLEX_POWER := 21 } = some 2 ∧
    startup_validation { sample_config with SERIAL_LISTEN_PORT := 0, HTTP_LISTEN_PORT := 0 }
      = some 2 :=
  ⟨(startup_validation_exit { sample_config with FLEX_POWER := 1 }).1.2 (Or.inl (by decide)),
   (startup_validation_exit { sample_config with FLEX_POWER := 2 }).2 (by decide) (by decide)
     (Or.inl (by decide)),
   (startup_validation_exit { sample_config with FLEX_POWER := 20 }).2 (by decide) (by decide)
     (Or.inl (by decide)),
   (startup_validation_exit { sample_config with FLEX_POWER := 21 }).1.2
     (Or.inr (Or.inl (by decide))),
   (startup_validation_exit
     { sample_config with SERIAL_LISTEN_PORT := 0, HTTP_LISTEN_PORT := 0 }).1.2
     (Or.inr (Or.inr ⟨rfl, rfl⟩))⟩

/-- After a successful transmission outside debug mode the connection state
holds the time of the success and a cleared first-message flag. -/
theorem process_message_success_state (env : PipelineEnv) (capcode : Nat) (message : String)
    (frequency : Nat) (conn_state : ConnectionState) (config : Config)
    (h : (process_message env capcode message frequency conn_state config false).success
      = true) :
    (process_message env capcode message frequency conn_state config false).conn_state =
      ⟨env.success_now, false⟩ := by
  revert h
  unfold process_message
  simp only []
  repeat' split
  all_goals intro h
  all_goals first
    | rfl
    | (simp at h; done)
    | (rename_i hd _; exact absurd rfl hd)

/-- A call of `process_message` recorded by the raw-TCP handler was made with
the state the handler was given, and the handler leaves the state the call
left. -/
theorem handle_serial_client_processed (stoull : List Char → Option Nat) (env : PipelineEnv)
    (valRead : Int) (input : List Char) (conn_state : ConnectionState) (config : Config)
    (debug_mode : Bool) (p : ProcessCall)
    (h : (handle_serial_client stoull env valRead input conn_state config debug_mode).processed
      = some p) :
    p.result = process_message env p.capcode p.message p.frequency conn_state config
      debug_mode ∧
    (handle_serial_client stoull env valRead input conn_state config debug_mode).conn_state =
      p.result.conn_state := by
  revert h
  unfold handle_serial_client
  simp only []
  repeat' split
  all_goals intro h
  all_goals first
    | (simp only [Option.some.injEq] at h; subst h; exact ⟨rfl, rfl⟩)
    | (simp at h)

/-- A call of `process_message` recorded by the HTTP handler was made with
the state the handler was given, and the handler leaves the state the call
left. -/
theorem handle_http_client_processed (http : HttpEnv) (env : PipelineEnv)
    (conn_state : ConnectionState) (config : Config) (debug_mode : Bool) (p : ProcessCall)
    (h : (handle_http_client http env conn_state config debug_mode).processed = some p) :
    p.result = process_message env p.capcode p.message p.frequency conn_state config
      debug_mode ∧
    (handle_http_client http env conn_state config debug_mode).conn_state =
      p.result.conn_state := by
  revert h
  unfold handle_http_client
  simp only []
  repeat' split
  all_goals intro h
  all_goals first
    | (simp only [Option.some.injEq] at h; subst h; exact ⟨rfl, rfl⟩)
    | (simp at h)

/-- The same for a connection on either listener. -/
theorem handle_connection_processed (stoull : List Char → Option Nat) (config : Config)
    (debug_mode : Bool) (conn_state : ConnectionState) (c : Connection) (p : ProcessCall)
    (h : (handle_connection stoull config debug_mode conn_state c).processed = some p) :
    p.result = process_message c.env p.capcode p.message p.frequency conn_state config
      debug_mode ∧
    (handle_connection stoull config debug_mode conn_state c).conn_state =
      p.result.conn_state := by
  cases c with
  | serial valRead input env =>
    exact handle_serial_client_processed stoull env valRead input conn_state config
      debug_mode p h
  | http request env =>
    exact handle_http_client_processed request env conn_state config debug_mode p h

/-- C21, refuted as stated: a successful transmission handled by the raw-TCP
listener changes the state consulted for the next request on the HTTP
listener. That request, the first one on the HTTP listener, is processed with
`first_message = false` and the raw-TCP success time, and sends no EMR (one
transmitter call), while the same request served on a fresh state sends it
(two calls). -/
theorem main_loop_listeners_share_state :
    (main_loop sample_stoull sample_config false
      [Connection.serial 23 "1122334|Hello|916000000".toList sample_env,
       Connection.http sample_http later_env]).map
      (fun o => o.processed.map (fun p => p.result)) =
      [some (process_message sample_env 1122334 "Hello" 916000000 ⟨0, true⟩ sample_config
        false),
       some (process_message later_env 1122334 "Hi" 916000000 ⟨2000, false⟩ sample_config
        false)] ∧
    (main_loop sample_stoull sample_config false
      [Connection.serial 23 "1122334|Hello|916000000".toList sample_env,
       Connection.http sample_http later_env]).map
      (fun o => o.processed.map (fun p => p.result.trace.countP PipelineCall.is_send)) =
      [some 2, some 1] ∧
    (main_loop sample_stoull sample_config false
      [Connection.http sample_http later_env]).map
      (fun o => o.processed.map (fun p => p.result.trace.countP PipelineCall.is_send)) =
      [some 2] := by
  decide

/-- C21, amended: `main` has one `ConnectionState`, which both listeners
share. Each connection, on whichever listener it was accepted, is handled
with the state the previous connection left; after a successful transmission
outside debug mode on either listener that state is the time of the success
with the first-message flag cleared; and it is the state `process_message`
consults for the next request on either listener. -/
theorem serve_shares_conn_state (stoull : List Char → Option Nat) (config : Config)
    (debug_mode : Bool) (conn_state : ConnectionState) (first second : Connection) :
    serve stoull config debug_mode conn_state [first, second] =
      [handle_connection stoull config debug_mode conn_state first,
       handle_connection stoull config debug_mode
         (handle_connection stoull config debug_mode conn_state first).conn_state second] ∧
    (∀ p, (handle_connection stoull config debug_mode conn_state first).processed = some p →
      p.result.success = true → debug_mode = false →
      (handle_connection stoull config debug_mode conn_state first).conn_state =
        ⟨first.env.success_now, false⟩) ∧
    (∀ p, (handle_connection stoull config debug_mode
        (handle_connection stoull config debug_mode conn_state first).conn_state
        second).processed = some p →
      p.result = process_message second.env p.capcode p.message p.frequency
        (handle_connection stoull config debug_mode conn_state first).conn_state config
        debug_mode) := by
  refine ⟨rfl, ?_, ?_⟩
  · intro p hp hs hd
    subst hd
    have h := handle_connection_processed stoull config false conn_state first p hp
    rw [h.2]
    rw [h.1] at hs ⊢
    exact process_message_success_state _ _ _ _ _ _ hs
  · intro p hp
    exact (handle_connection_processed stoull config debug_mode _ second p hp).1

/-- Witness for C21: a raw-TCP request that is transmitted, followed by an
HTTP request. -/
theorem serve_shares_conn_state_witness :
    (handle_connection sample_stoull sample_config false ConnectionState.fresh
      (Connection.serial 23 "1122334|Hello|916000000".toList sample_env)).conn_state =
      ⟨2000, false⟩ :=
  (serve_shares_conn_state sample_stoull sample_config false ConnectionState.fresh
    (Connection.serial 23 "1122334|Hello|916000000".toList sample_env)
    (Connection.http sample_http later_env)).2.1
    ⟨1122334, "Hello", 916000000,
      process_message sample_env 1122334 "Hello" 916000000 ConnectionState.fresh sample_config
        false⟩ (by decide) (by decide) rfl

/-- C25, refuted as stated: DEL (127) does not reset the line: after `O` and
DEL the line still holds `O`, so `O`, DEL, `K`, LF is read as the terminal
line `OK`; and a byte in 32..126 that arrives when the line already holds
1023 characters is not appended. -/
theorem reader_del_keeps_line :
    reader_state_after 1024 (bytes [79, 127]) reader_init =
      some { reader_init with line_buffer := [79] } ∧
    (at_read_flex_response 1024 [] (bytes [79, 127, 75, 10])).result = AT_RESP_OK ∧
    reader_state_after 1024 [PollEvent.byte 66]
      { reader_init with line_buffer := List.replicate 1023 65 } =
      some { reader_init with line_buffer := List.replicate 1023 65 } :=
  ⟨by decide, by decide,
   reader_state_after_full_line 1024 { reader_init with line_buffer := List.replicate 1023 65 }
     66 rfl rfl (by simp [AT_BUFFER_SIZE]) (by decide)⟩

/-- C25, amended: for a byte read in any state of the line assembler, a byte
in 32..126 is appended to the in-progress line while the line holds fewer
than 1023 characters and is dropped once it holds 1023; CR leaves the line
unchanged; LF on an empty line changes nothing, and LF on a non-empty line
ends it: the call returns or goes on with an empty line; and every byte below
32 other than CR and LF leaves the line empty. -/
theorem reader_step_byte_classes (buffer_size : Nat) (s : ReaderState) (c : Int) :
    (32 ≤ c → c ≤ 126 → s.line_buffer.length < 1023 →
      reader_step buffer_size s (PollEvent.byte c) =
        ReaderStep.next { s with empty_reads := 0, line_buffer := s.line_buffer ++ [c],
                                 total_timeout := AT_TIMEOUT_MS }) ∧
    (32 ≤ c → c ≤ 126 → 1023 ≤ s.line_buffer.length →
      reader_step buffer_size s (PollEvent.byte c) =
        ReaderStep.next { s with empty_reads := 0, total_timeout := AT_TIMEOUT_MS }) ∧
    (c = 13 →
      reader_step buffer_size s (PollEvent.byte c) =
        ReaderStep.next { s with empty_reads := 0 }) ∧
    (c = 10 → s.line_buffer = [] →
      reader_step buffer_size s (PollEvent.byte c) =
        ReaderStep.next { s with empty_reads := 0 }) ∧
    (c = 10 → s.line_buffer ≠ [] →
      (∃ r s1, reader_step buffer_size s (PollEvent.byte c) = ReaderStep.done r s1) ∨
      (∃ s1, reader_step buffer_size s (PollEvent.byte c) = ReaderStep.next s1 ∧
        s1.line_buffer = [])) ∧
    (c < 32 → c ≠ 13 → c ≠ 10 →
      reader_step buffer_size s (PollEvent.byte c) =
        ReaderStep.next { s with empty_reads := 0, line_buffer := [],
                                 total_timeout := AT_TIMEOUT_MS }) := by
  refine ⟨?_, ?_, ?_, ?_, ?_, ?_⟩
  · intro h1 h2 h3
    have h13 : c ≠ 13 := by omega
    have h10 : c ≠ 10 := by omega
    have hlt : s.line_buffer.length < AT_BUFFER_SIZE - 1 ∧ c ≥ 32 ∧ c ≤ 126 := by
      simp only [AT_BUFFER_SIZE]; omega
    simp only [reader_step, reader_char, h13, h10, if_false, hlt, and_self, if_true]
  · intro h1 h2 h3
    have h13 : c ≠ 13 := by omega
    have h10 : c ≠ 10 := by omega
    have hlt : ¬ (s.line_buffer.length < AT_BUFFER_SIZE - 1 ∧ c ≥ 32 ∧ c ≤ 126) := by
      simp only [AT_BUFFER_SIZE]; omega
    have hctl : ¬ (c < 32 ∧ c ≠ 13 ∧ c ≠ 10) := by omega
    simp only [reader_step, reader_char, h13, h10, if_false, hlt, hctl]
  · intro h13
    simp only [reader_step, reader_char, h13, if_true]
  · intro h10 hline
    subst h10
    simp [reader_step, reader_char, hline]
  · intro h10 hline
    subst h10
    have hlen : s.line_buffer.length ≠ 0 := by
      intro h0
      exact hline (List.length_eq_zero.mp h0)
    simp only [reader_step, reader_char, reader_end_of_line]
    split_ifs <;> simp_all
  · intro h32 h13 h10
    have hlt : ¬ (s.line_buffer.length < AT_BUFFER_SIZE - 1 ∧ c ≥ 32 ∧ c ≤ 126) := by omega
    have hctl : c < 32 ∧ c ≠ 13 ∧ c ≠ 10 := ⟨h32, h13, h10⟩
    simp only [reader_step, reader_char]
    rw [if_neg h13, if_neg h10, if_neg hlt, if_pos hctl]
    by_cases hlen : s.line_buffer.length > 0
    · rw [if_pos hlen]
    · have h0 : s.line_buffer = [] := List.length_eq_zero.mp (by omega)
      rw [if_neg hlen, h0]

/-- Witness for C25: `A` after `+`, `B` on a full line, CR, LF on an empty
line, LF after `+A`, and BEL (7) after `+A`. -/
theorem reader_step_byte_classes_witness :
    reader_step 1024 { reader_init with line_buffer := [43] } (PollEvent.byte 65) =
      ReaderStep.next { reader_init with line_buffer := [43, 65] } ∧
    reader_step 1024 { reader_init with line_buffer := List.replicate 1023 65 }
      (PollEvent.byte 66) =
      ReaderStep.next { reader_init with line_buffer := List.replicate 1023 65 } ∧
    reader_step 1024 { reader_init with line_buffer := [43, 65] } (PollEvent.byte 13) =
      ReaderStep.next { reader_init with line_buffer := [43, 65] } ∧
    reader_step 1024 reader_init (PollEvent.byte 10) = ReaderStep.next reader_init ∧
    ((∃ r s1, reader_step 1024 { reader_init with line_buffer := [43, 65] }
        (PollEvent.byte 10) = ReaderStep.done r s1) ∨
      (∃ s1, reader_step 1024 { reader_init with line_buffer := [43, 65] }
        (PollEvent.byte 10) = ReaderStep.next s1 ∧ s1.line_buffer = [])) ∧
    reader_step 1024 { reader_init with line_buffer := [43, 65] } (PollEvent.byte 7) =
      ReaderStep.next reader_init :=
  ⟨(reader_step_byte_classes 1024 { reader_init with line_buffer := [43] } 65).1
      (by decide) (by decide) (by decide),
   (reader_step_byte_classes 1024 { reader_init with line_buffer := List.replicate 1023 65 }
      66).2.1 (by decide) (by decide) (by simp),
   (reader_step_byte_classes 1024 { reader_init with line_buffer := [43, 65] } 13).2.2.1 rfl,
   (reader_step_byte_classes 1024 reader_init 10).2.2.2.1 rfl rfl,
   (reader_step_byte_classes 1024 { reader_init with line_buffer := [43, 65] }
      10).2.2.2.2.1 rfl (by decide),
   (reader_step_byte_classes 1024 { reader_init with line_buffer := [43, 65] }
      7).2.2.2.2.2 (by decide) (by decide) (by decide)⟩

theorem event_bytes_bytes (cs : List Int) : event_bytes (bytes cs) = cs := by
  induction cs with
  | nil => rfl
  | cons c cs ih =>
    simp only [bytes, List.map_cons, event_bytes] at ih ⊢
    rw [ih]

theorem event_bytes_append (es rest : List PollEvent) :
    event_bytes (es ++ rest) = event_bytes es ++ event_bytes rest := by
  induction es with
  | nil => rfl
  | cons e es ih =>
    cases e <;> (rw [List.cons_append]; simp only [event_bytes, ih, List.cons_append])

theorem line_after_append (pre rest : List Int) :
    ∀ line, line_after line (pre ++ rest) = line_after (line_after line pre) rest := by
  induction pre with
  | nil => intro line; rfl
  | cons c pre ih =>
    intro line
    rw [List.cons_append]
    simp only [line_after, ih]

theorem line_after_char_lf (line : List Int) : line_after_char line 10 = [] := by
  simp [line_after_char]

theorem completed_lines_append (pre rest : List Int) :
    ∀ line, completed_lines line (pre ++ rest) =
      completed_lines line pre ++ completed_lines (line_after line pre) rest := by
  induction pre with
  | nil => intro line; rfl
  | cons c pre ih =>
    intro line
    rw [List.cons_append]
    simp only [completed_lines, line_after]
    by_cases hc : c = 10 ∧ line.length ≠ 0
    · rw [if_pos hc, if_pos hc, ih, hc.1, line_after_char_lf, List.cons_append]
    · rw [if_neg hc, if_neg hc, ih]

/-- An in-progress line never grows beyond 1023 characters. -/
theorem line_after_char_length (line : List Int) (c : Int) (h : line.length ≤ 1023) :
    (line_after_char line c).length ≤ 1023 := by
  unfold line_after_char
  split_ifs with h1 h2 h3 h4
  · exact h
  · simp
  · simp only [List.length_append, List.length_cons, List.length_nil]
    simp only [AT_BUFFER_SIZE] at h3
    omega
  · simp
  · exact h

/-- No completed line is longer than 1023 characters. -/
theorem completed_lines_length (cs : List Int) :
    ∀ line, line.length ≤ 1023 → ∀ l ∈ completed_lines line cs, l.length ≤ 1023 := by
  induction cs with
  | nil => intro line _ l hl; simp [completed_lines] at hl
  | cons c cs ih =>
    intro line hline l hl
    simp only [completed_lines] at hl
    by_cases hc : c = 10 ∧ line.length ≠ 0
    · rw [if_pos hc] at hl
      rcases List.mem_cons.mp hl with h | h
      · rw [h]; exact hline
      · exact ih [] (by simp) l h
    · rw [if_neg hc] at hl
      exact ih _ (line_after_char_length line c hline) l hl

theorem is_terminal_line_iff (line : List Int) :
    is_terminal_line line = true ↔ line = cstr "OK" ∨ line = cstr "ERROR" := by
  simp [is_terminal_line]

theorem is_stored_line_nil (buffer_size : Nat) : is_stored_line buffer_size [] = false := by
  simp [is_stored_line]

/-- The last element of a filtered list, with a default, read from the left. -/
theorem filter_getLast_cons {α : Type} (p : α → Bool) (l : α) (ls : List α) (d : α) :
    (((l :: ls).filter p).getLast?).getD d =
      ((ls.filter p).getLast?).getD (if p l = true then l else d) := by
  by_cases hp : p l = true
  · rw [List.filter_cons_of_pos hp, if_pos hp]
    cases hf : ls.filter p with
    | nil => rfl
    | cons x xs => rw [List.getLast?_cons_cons]; rfl
  · rw [List.filter_cons_of_neg hp, if_neg hp]

/-- The last element of a filtered list is the default or a member that
passes the filter. -/
theorem filter_getLast_mem {α : Type} (p : α → Bool) (ls : List α) (d : α) :
    ((ls.filter p).getLast?).getD d = d ∨
      (((ls.filter p).getLast?).getD d ∈ ls ∧ p (((ls.filter p).getLast?).getD d) = true) := by
  cases hf : (ls.filter p).getLast? with
  | none => exact Or.inl rfl
  | some x =>
    right
    have hx : x ∈ ls.filter p := List.mem_of_getLast?_eq_some hf
    simpa using List.mem_filter.mp hx

/-- An LF after a terminal line makes the reader return. -/
theorem reader_step_terminal (buffer_size : Nat) (s : ReaderState)
    (h : is_terminal_line s.line_buffer = true) :
    reader_step buffer_size s (PollEvent.byte 10) =
      ReaderStep.done (if s.line_buffer = cstr "OK" then AT_RESP_OK else AT_RESP_ERROR)
        { s with empty_reads := 0 } := by
  rcases (is_terminal_line_iff _).mp h with hl | hl
  · simp [reader_step, reader_char, reader_end_of_line, hl, cstr_ok]
  · simp [reader_step, reader_char, reader_end_of_line, hl, cstr_ok, cstr_error]

/-- An LF after a non-empty line that is not terminal completes the line. -/
theorem reader_step_complete (buffer_size : Nat) (s : ReaderState)
    (hlen : s.line_buffer.length ≠ 0) (h : is_terminal_line s.line_buffer = false) :
    ∃ s1, reader_step buffer_size s (PollEvent.byte 10) = ReaderStep.next s1 ∧
      s1.line_buffer = [] ∧
      s1.buffer = (if is_stored_line buffer_size s.line_buffer = true then s.line_buffer
                   else s.buffer) ∧
      s1.got_response = (s.got_response || is_stored_line buffer_size s.line_buffer) ∧
      s1.empty_reads = 0 ∧ s1.total_timeout = AT_TIMEOUT_MS := by
  have hok : s.line_buffer ≠ cstr "OK" := by
    intro hl
    rw [(is_terminal_line_iff _).mpr (Or.inl hl)] at h
    exact Bool.noConfusion h
  have herr : s.line_buffer ≠ cstr "ERROR" := by
    intro hl
    rw [(is_terminal_line_iff _).mpr (Or.inr hl)] at h
    exact Bool.noConfusion h
  simp only [reader_step, reader_char, reader_end_of_line, is_stored_line, h]
  rw [if_pos True.intro, if_neg hlen, if_neg hok, if_neg herr]
  by_cases hplus : s.line_buffer.head? = some 43
  · by_cases hsize : s.line_buffer.length < buffer_size
    · rw [if_pos hplus, if_pos hsize]
      exact ⟨_, rfl, rfl, by simp [hplus, hsize], by simp [hplus, hsize], rfl, rfl⟩
    · rw [if_pos hplus, if_neg hsize]
      exact ⟨_, rfl, rfl, by simp [hsize], by simp [hsize], rfl, rfl⟩
  · rw [if_neg hplus]
    exact ⟨_, rfl, rfl, by simp [hplus], by simp [hplus], rfl, rfl⟩

/-- Any other character goes into the line or is dropped; the output buffer
is not touched. -/
theorem reader_step_continue (buffer_size : Nat) (s : ReaderState) (c : Int)
    (h : ¬ (c = 10 ∧ s.line_buffer.length ≠ 0)) :
    ∃ s1, reader_step buffer_size s (PollEvent.byte c) = ReaderStep.next s1 ∧
      s1.line_buffer = line_after_char s.line_buffer c ∧
      s1.buffer = s.buffer ∧ s1.got_response = s.got_response ∧
      s1.empty_reads = 0 ∧
      (s1.total_timeout = s.total_timeout ∨ s1.total_timeout = AT_TIMEOUT_MS) := by
  simp only [reader_step, reader_char, line_after_char]
  by_cases h13 : c = 13
  · rw [if_pos h13, if_pos h13]
    exact ⟨_, rfl, rfl, rfl, rfl, rfl, Or.inl rfl⟩
  · rw [if_neg h13, if_neg h13]
    by_cases h10 : c = 10
    · have h0 : s.line_buffer.length = 0 := by
        by_contra hne
        exact h ⟨h10, hne⟩
      rw [if_pos h10, if_pos h10, if_pos h0]
      exact ⟨_, rfl, List.length_eq_zero.mp h0, rfl, rfl, rfl, Or.inl rfl⟩
    · rw [if_neg h10, if_neg h10]
      by_cases hp : s.line_buffer.length < AT_BUFFER_SIZE - 1 ∧ c ≥ 32 ∧ c ≤ 126
      · rw [if_pos hp, if_pos hp]
        exact ⟨_, rfl, rfl, rfl, rfl, rfl, Or.inr rfl⟩
      · rw [if_neg hp, if_neg hp]
        by_cases hctl : c < 32 ∧ c ≠ 13 ∧ c ≠ 10
        · rw [if_pos hctl, if_pos hctl]
          by_cases hlen : s.line_buffer.length > 0
          · rw [if_pos hlen]
            exact ⟨_, rfl, rfl, rfl, rfl, rfl, Or.inr rfl⟩
          · rw [if_neg hlen]
            exact ⟨_, rfl, List.length_eq_zero.mp (Nat.eq_zero_of_not_pos hlen), rfl, rfl, rfl,
              Or.inr rfl⟩
        · rw [if_neg hctl, if_neg hctl]
          exact ⟨_, rfl, rfl, rfl, rfl, rfl, Or.inr rfl⟩

/-- A pass that reads no character leaves the line and the output buffer as
they are, and either returns `AT_RESP_INVALID` or takes 50 ms off the
budget. -/
theorem reader_step_no_byte (buffer_size : Nat) (s : ReaderState) (e : PollEvent)
    (h : ∀ c, e ≠ PollEvent.byte c) :
    reader_step buffer_size s e = ReaderStep.done AT_RESP_INVALID s ∨
    ∃ s1, reader_step buffer_size s e = ReaderStep.next s1 ∧
      s1.line_buffer = s.line_buffer ∧ s1.buffer = s.buffer ∧
      s1.got_response = s.got_response ∧ s1.total_timeout = s.total_timeout - 50 := by
  cases e with
  | byte c => exact absurd rfl (h c)
  | pollError => exact Or.inl rfl
  | readError => exact Or.inl rfl
  | pollTimeout => exact Or.inr ⟨_, rfl, rfl, rfl, rfl, rfl⟩
  | noPollin => exact Or.inr ⟨_, rfl, rfl, rfl, rfl, rfl⟩
  | readEmpty => exact Or.inr ⟨_, rfl, rfl, rfl, rfl, rfl⟩

/-- A pass returns only with `AT_RESP_INVALID`, on a failed `poll` or `read`,
or with `AT_RESP_OK` or `AT_RESP_ERROR`, on the LF of a terminal line. -/
theorem reader_step_done (buffer_size : Nat) (s s1 : ReaderState) (e : PollEvent)
    (r : at_response_t) (h : reader_step buffer_size s e = ReaderStep.done r s1) :
    ((∀ c, e ≠ PollEvent.byte c) ∧ r = AT_RESP_INVALID ∧ s1 = s) ∨
    (e = PollEvent.byte 10 ∧ is_terminal_line s.line_buffer = true ∧
      r = (if s.line_buffer = cstr "OK" then AT_RESP_OK else AT_RESP_ERROR) ∧
      s1.buffer = s.buffer ∧ s1.got_response = s.got_response) := by
  by_cases hb : ∀ c, e ≠ PollEvent.byte c
  · rcases reader_step_no_byte buffer_size s e hb with h1 | ⟨s2, h2, _⟩
    · rw [h1] at h
      simp only [ReaderStep.done.injEq] at h
      exact Or.inl ⟨hb, h.1.symm, h.2.symm⟩
    · rw [h2] at h
      exact ReaderStep.noConfusion h
  · right
    have hb1 : ∃ c, e = PollEvent.byte c := by
      by_contra hne
      exact hb (fun c hc => hne ⟨c, hc⟩)
    obtain ⟨c, hc⟩ := hb1
    subst hc
    by_cases hcomp : c = 10 ∧ s.line_buffer.length ≠ 0
    · obtain ⟨h10, hlen⟩ := hcomp
      subst h10
      cases hterm : is_terminal_line s.line_buffer with
      | true =>
        rw [reader_step_terminal buffer_size s hterm] at h
        simp only [ReaderStep.done.injEq] at h
        refine ⟨rfl, rfl, h.1.symm, ?_, ?_⟩
        · rw [← h.2]
        · rw [← h.2]
      | false =>
        obtain ⟨s2, h2, _⟩ := reader_step_complete buffer_size s hlen hterm
        rw [h2] at h
        exact ReaderStep.noConfusion h
    · obtain ⟨s2, h2, _⟩ := reader_step_continue buffer_size s c hcomp
      rw [h2] at h
      exact ReaderStep.noConfusion h

/-- What the loop has done once it has consumed a run of events without
returning: the in-progress line, the output buffer and `got_response` are
determined by the lines the bytes among the events completed, none of these
lines was terminal, and the budget never exceeds its start value. -/
theorem reader_state_after_lines (buffer_size : Nat) (es : List PollEvent) :
    ∀ (s st : ReaderState), reader_state_after buffer_size es s = some st →
      st.line_buffer = line_after s.line_buffer (event_bytes es) ∧
      st.buffer = (((completed_lines s.line_buffer (event_bytes es)).filter
        (is_stored_line buffer_size)).getLast?).getD s.buffer ∧
      st.got_response = (s.got_response ||
        (completed_lines s.line_buffer (event_bytes es)).any (is_stored_line buffer_size)) ∧
      (∀ l ∈ completed_lines s.line_buffer (event_bytes es), is_terminal_line l = false) ∧
      (s.total_timeout ≤ AT_TIMEOUT_MS → st.total_timeout ≤ AT_TIMEOUT_MS) := by
  induction es with
  | nil =>
    intro s st h
    simp only [reader_state_after, Option.some.injEq] at h
    subst h
    simp [event_bytes, line_after, completed_lines]
  | cons e es ih =>
    intro s st h
    simp only [reader_state_after] at h
    by_cases hrun : s.total_timeout > 0 ∧ s.empty_reads < 20
    · rw [if_pos hrun] at h
      by_cases hb : ∀ c, e ≠ PollEvent.byte c
      · have hev : event_bytes (e :: es) = event_bytes es := by
          cases e with
          | byte c => exact absurd rfl (hb c)
          | _ => rfl
        rcases reader_step_no_byte buffer_size s e hb with h1 | ⟨s1, h1, hl, hbuf, hg, ht⟩
        · rw [h1] at h
          exact Option.noConfusion h
        · rw [h1] at h
          obtain ⟨i1, i2, i3, i4, i5⟩ := ih s1 st h
          rw [hev]
          rw [hl] at i1 i2 i3 i4
          rw [hbuf] at i2
          rw [hg] at i3
          exact ⟨i1, i2, i3, i4, fun hle => i5 (by omega)⟩
      · have hb1 : ∃ c, e = PollEvent.byte c := by
          by_contra hne
          exact hb (fun c hc => hne ⟨c, hc⟩)
        obtain ⟨c, hc⟩ := hb1
        subst hc
        have hev : event_bytes (PollEvent.byte c :: es) = c :: event_bytes es := rfl
        rw [hev]
        by_cases hcomp : c = 10 ∧ s.line_buffer.length ≠ 0
        · obtain ⟨h10, hlen⟩ := hcomp
          subst h10
          cases hterm : is_terminal_line s.line_buffer with
          | true =>
            rw [reader_step_terminal buffer_size s hterm] at h
            exact Option.noConfusion h
          | false =>
            obtain ⟨s1, h1, hl, hbuf, hg, _, ht⟩ := reader_step_complete buffer_size s hlen hterm
            rw [h1] at h
            obtain ⟨i1, i2, i3, i4, i5⟩ := ih s1 st h
            rw [hl] at i1 i2 i3 i4
            have hcl : completed_lines s.line_buffer (10 :: event_bytes es) =
                s.line_buffer :: completed_lines [] (event_bytes es) := by
              simp only [completed_lines]
              rw [if_pos ⟨True.intro, hlen⟩]
            rw [hcl]
            refine ⟨?_, ?_, ?_, ?_, ?_⟩
            · simp only [line_after, line_after_char_lf]
              exact i1
            · rw [filter_getLast_cons, i2, hbuf]
            · rw [i3, hg, List.any_cons, Bool.or_assoc]
            · intro l hl
              rcases List.mem_cons.mp hl with h0 | h0
              · rw [h0]; exact hterm
              · exact i4 l h0
            · intro _
              exact i5 (by rw [ht])
        · obtain ⟨s1, h1, hl, hbuf, hg, _, ht⟩ := reader_step_continue buffer_size s c hcomp
          rw [h1] at h
          obtain ⟨i1, i2, i3, i4, i5⟩ := ih s1 st h
          rw [hl] at i1 i2 i3 i4
          rw [hbuf] at i2
          rw [hg] at i3
          have hcl : completed_lines s.line_buffer (c :: event_bytes es) =
              completed_lines (line_after_char s.line_buffer c) (event_bytes es) := by
            simp only [completed_lines]
            rw [if_neg hcomp]
          rw [hcl]
          refine ⟨i1, i2, i3, i4, ?_⟩
          intro hle
          apply i5
          rcases ht with ht | ht
          · rw [ht]; exact hle
          · rw [ht]
    · rw [if_neg hrun] at h
      exact Option.noConfusion h

/-- Silence does not touch the output buffer: the call leaves the loop with
`AT_RESP_DATA` or `AT_RESP_TIMEOUT`, according to `got_response`, after at
most as many further passes as the counter allows. -/
theorem reader_silence_exit (buffer_size : Nat) :
    ∀ (quiet : Nat) (s : ReaderState) (n : Nat),
      (reader_silence buffer_size quiet s n).rest = [] ∧
      (reader_silence buffer_size quiet s n).state.buffer = s.buffer ∧
      (reader_silence buffer_size quiet s n).state.got_response = s.got_response ∧
      ((reader_silence buffer_size quiet s n).result = AT_RESP_DATA ∧ s.got_response = true ∨
        (reader_silence buffer_size quiet s n).result = AT_RESP_TIMEOUT ∧
          s.got_response = false) ∧
      n ≤ (reader_silence buffer_size quiet s n).slices ∧
      (reader_silence buffer_size quiet s n).slices ≤ n + quiet := by
  have hexit : ∀ (s : ReaderState) (n : Nat),
      (reader_exit s n []).rest = [] ∧ (reader_exit s n []).state.buffer = s.buffer ∧
      (reader_exit s n []).state.got_response = s.got_response ∧
      ((reader_exit s n []).result = AT_RESP_DATA ∧ s.got_response = true ∨
        (reader_exit s n []).result = AT_RESP_TIMEOUT ∧ s.got_response = false) ∧
      (reader_exit s n []).slices = n := by
    intro s n
    unfold reader_exit
    cases hg : s.got_response <;> simp [hg]
  intro quiet
  induction quiet with
  | zero =>
    intro s n
    simp only [reader_silence]
    obtain ⟨h1, h2, h3, h4, h5⟩ := hexit s n
    exact ⟨h1, h2, h3, h4, by omega, by omega⟩
  | succ quiet ih =>
    intro s n
    simp only [reader_silence]
    by_cases hrun : s.total_timeout > 0 ∧ s.empty_reads < 20
    · rw [if_pos hrun]
      simp only [reader_step]
      obtain ⟨h1, h2, h3, h4, h5, h6⟩ := ih
        { s with total_timeout := s.total_timeout - 50, empty_reads := s.empty_reads + 1 } (n + 1)
      exact ⟨h1, h2, h3, h4, by omega, by omega⟩
    · rw [if_neg hrun]
      obtain ⟨h1, h2, h3, h4, h5⟩ := hexit s n
      exact ⟨h1, h2, h3, h4, by omega, by omega⟩

/-- How a call ends. Either it leaves the loop, after consuming a run of
events without returning, with `AT_RESP_DATA` or `AT_RESP_TIMEOUT` according
to `got_response`, events being left over only when the loop test failed and
at most 20 further passes being made when none is left; or the pass on the
next event returns, and no later event is consumed. -/
theorem reader_loop_cases (buffer_size : Nat) (events : List PollEvent) :
    ∀ (s : ReaderState) (n : Nat),
      (∃ consumed st, events = consumed ++ (reader_loop buffer_size events s n).rest ∧
        reader_state_after buffer_size consumed s = some st ∧
        (reader_loop buffer_size events s n).state.buffer = st.buffer ∧
        ((reader_loop buffer_size events s n).result = AT_RESP_DATA ∧
            st.got_response = true ∨
          (reader_loop buffer_size events s n).result = AT_RESP_TIMEOUT ∧
            st.got_response = false) ∧
        ((reader_loop buffer_size events s n).rest ≠ [] → ¬ st.running) ∧
        n + consumed.length ≤ (reader_loop buffer_size events s n).slices ∧
        (reader_loop buffer_size events s n).slices ≤ n + consumed.length + 20 ∧
        ((reader_loop buffer_size events s n).rest ≠ [] →
          (reader_loop buffer_size events s n).slices = n + consumed.length)) ∨
      (∃ consumed e st, events = consumed ++ e :: (reader_loop buffer_size events s n).rest ∧
        reader_state_after buffer_size consumed s = some st ∧ st.running ∧
        reader_step buffer_size st e =
          ReaderStep.done (reader_loop buffer_size events s n).result
            (reader_loop buffer_size events s n).state ∧
        (reader_loop buffer_size events s n).slices = n + consumed.length + 1) := by
  induction events with
  | nil =>
    intro s n
    left
    simp only [reader_loop]
    obtain ⟨h1, h2, _, h4, h5, h6⟩ := reader_silence_exit buffer_size 20 s n
    refine ⟨[], s, ?_, rfl, h2, h4, ?_, ?_, ?_, ?_⟩
    · rw [h1]; rfl
    · intro hne; exact absurd h1 hne
    · simpa using h5
    · simpa using h6
    · intro hne; exact absurd h1 hne
  | cons e es ih =>
    intro s n
    simp only [reader_loop]
    by_cases hrun : s.total_timeout > 0 ∧ s.empty_reads < 20
    · rw [if_pos hrun]
      cases hstep : reader_step buffer_size s e with
      | next s1 =>
        simp only []
        have hafter : ∀ consumed, reader_state_after buffer_size (e :: consumed) s =
            reader_state_after buffer_size consumed s1 := by
          intro consumed
          simp only [reader_state_after]
          rw [if_pos hrun, hstep]
        rcases ih s1 (n + 1) with ⟨consumed, st, h1, h2, h3, h4, h5, h6, h7, h8⟩ |
            ⟨consumed, e1, st, h1, h2, h3, h4, h5⟩
        · left
          refine ⟨e :: consumed, st, ?_, ?_, h3, h4, h5, ?_, ?_, ?_⟩
          · rw [List.cons_append, ← h1]
          · rw [hafter]; exact h2
          · simp only [List.length_cons]; omega
          · simp only [List.length_cons]; omega
          · intro hne
            rw [h8 hne]
            simp only [List.length_cons]; omega
        · right
          refine ⟨e :: consumed, e1, st, ?_, ?_, h3, h4, ?_⟩
          · rw [List.cons_append, ← h1]
          · rw [hafter]; exact h2
          · rw [h5]
            simp only [List.length_cons]; omega
      | done r s1 =>
        right
        exact ⟨[], e, s, rfl, rfl, hrun, hstep, rfl⟩
    · rw [if_neg hrun]
      left
      refine ⟨[], s, ?_, rfl, ?_, ?_, ?_, ?_, ?_, ?_⟩
      · unfold reader_exit; split <;> rfl
      · unfold reader_exit; split <;> rfl
      · unfold reader_exit
        cases hg : s.got_response <;> simp
      · intro _; exact hrun
      · unfold reader_exit; split <;> simp
      · unfold reader_exit; split <;> simp
      · intro _; unfold reader_exit; split <;> simp

/-- A prefix of a run of bytes is a run of bytes. -/
theorem bytes_eq_append (cs : List Int) (consumed rest : List PollEvent)
    (h : bytes cs = consumed ++ rest) :
    ∃ c1 c2, cs = c1 ++ c2 ∧ consumed = bytes c1 ∧ rest = bytes c2 := by
  unfold bytes at h
  obtain ⟨c1, c2, h1, h2, h3⟩ := List.map_eq_append_iff.mp h
  exact ⟨c1, c2, h1, h2.symm, h3.symm⟩

theorem reader_init_running : reader_init.running := by
  unfold ReaderState.running
  decide

/-- A call that returns `AT_RESP_OK` or `AT_RESP_ERROR` does so on the LF that
completes the first terminal line, having consumed nothing after it. -/
theorem reader_loop_returns_on_terminal (buffer_size : Nat) (events : List PollEvent)
    (t : at_response_t) (ht : t = AT_RESP_OK ∨ t = AT_RESP_ERROR)
    (h : (reader_loop buffer_size events reader_init 0).result = t) :
    ∃ pre, events = pre ++ PollEvent.byte 10 :: (reader_loop buffer_size events reader_init 0).rest ∧
      (∀ l ∈ completed_lines [] (event_bytes pre), is_terminal_line l = false) ∧
      line_after [] (event_bytes pre) = (if t = AT_RESP_OK then cstr "OK" else cstr "ERROR") ∧
      (reader_loop buffer_size events reader_init 0).slices = pre.length + 1 := by
  rcases reader_loop_cases buffer_size events reader_init 0 with
    ⟨consumed, st, _, _, _, h4, _⟩ | ⟨consumed, e, st, h1, h2, _, h4, h5⟩
  · rw [h] at h4
    rcases ht with ht | ht <;> rcases h4 with h4 | h4 <;> rw [ht] at h4 <;>
      exact at_response_t.noConfusion h4.1
  · obtain ⟨i1, _, _, i4, _⟩ := reader_state_after_lines buffer_size consumed reader_init st h2
    have hline : reader_init.line_buffer = [] := rfl
    rw [hline] at i1 i4
    rcases reader_step_done buffer_size st _ e _ h4 with ⟨_, hr, _⟩ | ⟨he, hterm, hr, _⟩
    · rw [h] at hr
      rcases ht with ht | ht <;> rw [ht] at hr <;> exact at_response_t.noConfusion hr
    · refine ⟨consumed, ?_, i4, ?_, ?_⟩
      · rw [← he]; exact h1
      · rw [← i1]
        rw [h] at hr
        by_cases hok : st.line_buffer = cstr "OK"
        · rw [if_pos hok] at hr
          rw [if_pos hr, hok]
        · rw [if_neg hok] at hr
          have hne : ¬ t = AT_RESP_OK := by
            rw [hr]; exact fun h0 => at_response_t.noConfusion h0
          rw [if_neg hne]
          rcases (is_terminal_line_iff _).mp hterm with h0 | h0
          · exact absurd h0 hok
          · exact h0
      · rw [h5]; omega

/-- On a run of bytes followed by silence the result is decided by the first
terminal line among the lines the bytes complete. -/
theorem reader_loop_bytes_result (buffer_size : Nat) (cs : List Int) :
    ((completed_lines [] cs).find? is_terminal_line = none ∧
      ((reader_loop buffer_size (bytes cs) reader_init 0).result = AT_RESP_DATA ∨
        (reader_loop buffer_size (bytes cs) reader_init 0).result = AT_RESP_TIMEOUT)) ∨
    (∃ l, (completed_lines [] cs).find? is_terminal_line = some l ∧
      (reader_loop buffer_size (bytes cs) reader_init 0).result =
        (if l = cstr "OK" then AT_RESP_OK else AT_RESP_ERROR)) := by
  have hline : reader_init.line_buffer = [] := rfl
  rcases reader_loop_cases buffer_size (bytes cs) reader_init 0 with
    ⟨consumed, st, h1, h2, _, h4, h5, _⟩ | ⟨consumed, e, st, h1, h2, _, h4, _⟩
  · left
    obtain ⟨c1, c2, hcs, hcon, hrest⟩ := bytes_eq_append cs _ _ h1
    rw [hcon] at h2
    have hrun : st.running :=
      reader_bytes_running buffer_size c1 reader_init st reader_init_running h2
    have hnil : (reader_loop buffer_size (bytes cs) reader_init 0).rest = [] := by
      by_contra hne
      exact h5 hne hrun
    rw [hnil] at hrest
    have hc2 : c2 = [] := by
      cases c2 with
      | nil => rfl
      | cons c c2 => exact List.noConfusion hrest
    rw [hc2, List.append_nil] at hcs
    obtain ⟨_, _, _, i4, _⟩ :=
      reader_state_after_lines buffer_size (bytes c1) reader_init st h2
    rw [hline, event_bytes_bytes, ← hcs] at i4
    refine ⟨List.find?_eq_none.mpr (fun l hl => ?_), ?_⟩
    · rw [i4 l hl]; exact Bool.noConfusion
    · rcases h4 with h4 | h4
      · exact Or.inl h4.1
      · exact Or.inr h4.1
  · right
    obtain ⟨c1, c2, hcs, hcon, hrest⟩ := bytes_eq_append cs _ _ h1
    rw [hcon] at h2
    obtain ⟨i1, _, _, i4, _⟩ :=
      reader_state_after_lines buffer_size (bytes c1) reader_init st h2
    rw [hline, event_bytes_bytes] at i1 i4
    rcases reader_step_done buffer_size st _ e _ h4 with ⟨hb, _, _⟩ | ⟨he, hterm, hr, _⟩
    · exfalso
      cases c2 with
      | nil => exact List.noConfusion hrest
      | cons c c2 =>
        simp only [bytes, List.map_cons, List.cons.injEq] at hrest
        exact hb c hrest.1
    · subst he
      cases c2 with
      | nil => exact List.noConfusion hrest
      | cons c c3 =>
        simp only [bytes, List.map_cons, List.cons.injEq, PollEvent.byte.injEq] at hrest
        have hc : c = 10 := hrest.1.symm
        subst hc
        have hlen : st.line_buffer.length ≠ 0 := by
          intro h0
          rw [List.length_eq_zero.mp h0] at hterm
          exact Bool.noConfusion hterm
        refine ⟨st.line_buffer, ?_, hr⟩
        rw [hcs, completed_lines_append, List.find?_append,
          List.find?_eq_none.mpr (fun l hl => by rw [i4 l hl]; exact Bool.noConfusion), ← i1]
        simp only [completed_lines]
        rw [if_pos ⟨True.intro, hlen⟩]
        simp [hterm]

/-- The result of a call is decided by the first terminal line among the
lines completed by the bytes it consumed. -/
theorem reader_loop_result_lines (buffer_size : Nat) (events consumed : List PollEvent)
    (hsplit : events = consumed ++ (reader_loop buffer_size events reader_init 0).rest) :
    ((completed_lines [] (event_bytes consumed)).find? is_terminal_line = none ∧
      (reader_loop buffer_size events reader_init 0).result ≠ AT_RESP_OK ∧
      (reader_loop buffer_size events reader_init 0).result ≠ AT_RESP_ERROR) ∨
    (∃ l, (completed_lines [] (event_bytes consumed)).find? is_terminal_line = some l ∧
      (reader_loop buffer_size events reader_init 0).result =
        (if l = cstr "OK" then AT_RESP_OK else AT_RESP_ERROR)) := by
  have hline : reader_init.line_buffer = [] := rfl
  rcases reader_loop_cases buffer_size events reader_init 0 with
    ⟨pre, st, h1, h2, _, h4, _⟩ | ⟨pre, e, st, h1, h2, _, h4, _⟩
  · left
    have hpre : consumed = pre := List.append_cancel_right (hsplit.symm.trans h1)
    obtain ⟨_, _, _, i4, _⟩ := reader_state_after_lines buffer_size pre reader_init st h2
    rw [hline] at i4
    rw [hpre]
    refine ⟨List.find?_eq_none.mpr (fun l hl => ?_), ?_, ?_⟩
    · rw [i4 l hl]; exact Bool.noConfusion
    · intro h
      rcases h4 with h4 | h4 <;> rw [h] at h4 <;> exact at_response_t.noConfusion h4.1
    · intro h
      rcases h4 with h4 | h4 <;> rw [h] at h4 <;> exact at_response_t.noConfusion h4.1
  · have h1b : events = (pre ++ [e]) ++ (reader_loop buffer_size events reader_init 0).rest := by
      rw [List.append_assoc]; exact h1
    have hpre : consumed = pre ++ [e] := List.append_cancel_right (hsplit.symm.trans h1b)
    obtain ⟨i1, _, _, i4, _⟩ := reader_state_after_lines buffer_size pre reader_init st h2
    rw [hline] at i1 i4
    have hnone : (completed_lines [] (event_bytes pre)).find? is_terminal_line = none :=
      List.find?_eq_none.mpr (fun l hl => by rw [i4 l hl]; exact Bool.noConfusion)
    rw [hpre, event_bytes_append]
    rcases reader_step_done buffer_size st _ e _ h4 with ⟨hb, hr, _⟩ | ⟨he, hterm, hr, _⟩
    · left
      have hev : event_bytes [e] = [] := by
        cases e with
        | byte c => exact absurd rfl (hb c)
        | _ => rfl
      rw [hev, List.append_nil]
      refine ⟨hnone, ?_, ?_⟩
      · rw [hr]; exact fun h => at_response_t.noConfusion h
      · rw [hr]; exact fun h => at_response_t.noConfusion h
    · right
      have hlen : st.line_buffer.length ≠ 0 := by
        intro h0
        rw [List.length_eq_zero.mp h0] at hterm
        exact Bool.noConfusion hterm
      refine ⟨st.line_buffer, ?_, hr⟩
      rw [he, completed_lines_append, List.find?_append, hnone, ← i1]
      simp only [event_bytes, completed_lines]
      rw [if_pos ⟨True.intro, hlen⟩]
      simp [hterm]

/-- From the first terminal line to the two results. -/
theorem result_iff_first_terminal (lines : List (List Int)) (r : at_response_t)
    (h : (lines.find? is_terminal_line = none ∧ r ≠ AT_RESP_OK ∧ r ≠ AT_RESP_ERROR) ∨
      (∃ l, lines.find? is_terminal_line = some l ∧
        r = (if l = cstr "OK" then AT_RESP_OK else AT_RESP_ERROR))) :
    (r = AT_RESP_OK ↔ lines.find? is_terminal_line = some (cstr "OK")) ∧
    (r = AT_RESP_ERROR ↔ lines.find? is_terminal_line = some (cstr "ERROR")) := by
  have hne : cstr "ERROR" ≠ cstr "OK" := by decide
  rcases h with ⟨h1, h2, h3⟩ | ⟨l, h1, h2⟩
  · rw [h1]
    exact ⟨⟨fun h => absurd h h2, fun h => Option.noConfusion h⟩,
      ⟨fun h => absurd h h3, fun h => Option.noConfusion h⟩⟩
  · have hterm : is_terminal_line l = true := List.find?_some h1
    rw [h1, h2]
    by_cases hok : l = cstr "OK"
    · rw [if_pos hok, hok]
      exact ⟨⟨fun _ => rfl, fun _ => rfl⟩,
        ⟨fun h => at_response_t.noConfusion h,
          fun h => absurd (Option.some.inj h).symm hne⟩⟩
    · rw [if_neg hok]
      rcases (is_terminal_line_iff l).mp hterm with h0 | h0
      · exact absurd h0 hok
      · rw [h0]
        exact ⟨⟨fun h => at_response_t.noConfusion h,
            fun h => absurd (Option.some.inj h) hne⟩,
          ⟨fun _ => rfl, fun _ => rfl⟩⟩

/-- C26: `at_read_flex_response` returns `AT_RESP_OK` (respectively
`AT_RESP_ERROR`) exactly when the first line equal to `OK` or `ERROR` as a
whole among the non-empty lines completed by the bytes it consumed is `OK`
(respectively `ERROR`); on a run of bytes followed by silence that is the
first such line of the whole run; it returns on the LF that completes that
line and consumes nothing after it; and a line is terminal only if it is
exactly `OK` or `ERROR`. -/
theorem at_read_flex_response_exact_terminal (buffer_size : Nat) (buffer : List Int)
    (events : List PollEvent) (cs : List Int) :
    (∀ consumed, events = consumed ++ (at_read_flex_response buffer_size buffer events).rest →
      ((at_read_flex_response buffer_size buffer events).result = AT_RESP_OK ↔
        (completed_lines [] (event_bytes consumed)).find? is_terminal_line =
          some (cstr "OK")) ∧
      ((at_read_flex_response buffer_size buffer events).result = AT_RESP_ERROR ↔
        (completed_lines [] (event_bytes consumed)).find? is_terminal_line =
          some (cstr "ERROR"))) ∧
    ((at_read_flex_response buffer_size buffer (bytes cs)).result = AT_RESP_OK ↔
      (completed_lines [] cs).find? is_terminal_line = some (cstr "OK")) ∧
    ((at_read_flex_response buffer_size buffer (bytes cs)).result = AT_RESP_ERROR ↔
      (completed_lines [] cs).find? is_terminal_line = some (cstr "ERROR")) ∧
    (∀ t, (t = AT_RESP_OK ∨ t = AT_RESP_ERROR) →
      (at_read_flex_response buffer_size buffer events).result = t →
      ∃ pre, events = pre ++ PollEvent.byte 10 ::
          (at_read_flex_response buffer_size buffer events).rest ∧
        (∀ l ∈ completed_lines [] (event_bytes pre), is_terminal_line l = false) ∧
        line_after [] (event_bytes pre) =
          (if t = AT_RESP_OK then cstr "OK" else cstr "ERROR") ∧
        (at_read_flex_response buffer_size buffer events).slices = pre.length + 1) ∧
    (∀ line, is_terminal_line line = true ↔
      line = [79, 75] ∨ line = [69, 82, 82, 79, 82]) := by
  have hbytes : ((at_read_flex_response buffer_size buffer (bytes cs)).result = AT_RESP_OK ↔
        (completed_lines [] cs).find? is_terminal_line = some (cstr "OK")) ∧
      ((at_read_flex_response buffer_size buffer (bytes cs)).result = AT_RESP_ERROR ↔
        (completed_lines [] cs).find? is_terminal_line = some (cstr "ERROR")) := by
    unfold at_read_flex_response
    apply result_iff_first_terminal
    rcases reader_loop_bytes_result buffer_size cs with ⟨h1, h2⟩ | ⟨l, h1, h2⟩
    · left
      refine ⟨h1, ?_, ?_⟩
      · intro h
        rcases h2 with h2 | h2 <;> rw [h] at h2 <;> exact at_response_t.noConfusion h2
      · intro h
        rcases h2 with h2 | h2 <;> rw [h] at h2 <;> exact at_response_t.noConfusion h2
    · exact Or.inr ⟨l, h1, h2⟩
  refine ⟨?_, hbytes.1, hbytes.2, ?_, ?_⟩
  · intro consumed hsplit
    exact result_iff_first_terminal _ _
      (reader_loop_result_lines buffer_size events consumed hsplit)
  · intro t ht h
    exact reader_loop_returns_on_terminal buffer_size events t ht h
  · intro line
    rw [is_terminal_line_iff, cstr_ok, cstr_error]

/-- Witness for C26: after the lines `OK `, `XOK`, `+OK` and `ERROR: 1` the
line `ERROR` ends the call, and the line `OK` that follows is left unread. -/
theorem at_read_flex_response_exact_terminal_witness :
    (at_read_flex_response 1024 [] (bytes near_terminal_stream)).result = AT_RESP_ERROR ∧
    (∃ pre, bytes near_terminal_stream = pre ++ PollEvent.byte 10 ::
        (at_read_flex_response 1024 [] (bytes near_terminal_stream)).rest ∧
      (∀ l ∈ completed_lines [] (event_bytes pre), is_terminal_line l = false) ∧
      line_after [] (event_bytes pre) =
        (if AT_RESP_ERROR = AT_RESP_OK then cstr "OK" else cstr "ERROR") ∧
      (at_read_flex_response 1024 [] (bytes near_terminal_stream)).slices = pre.length + 1) ∧
    (at_read_flex_response 1024 [] (bytes near_terminal_stream)).rest =
      bytes (cstr "OK\r\n") ∧
    ((at_read_flex_response 1024 []
        (List.replicate 20 PollEvent.pollTimeout ++ bytes (cstr "OK\r\n"))).result =
        AT_RESP_OK ↔
      (completed_lines [] (event_bytes (List.replicate 20 PollEvent.pollTimeout))).find?
        is_terminal_line = some (cstr "OK")) :=
  ⟨(at_read_flex_response_exact_terminal 1024 [] [] near_terminal_stream).2.2.1.mpr
      (by decide),
   (at_read_flex_response_exact_terminal 1024 [] (bytes near_terminal_stream) []).2.2.2.1
      AT_RESP_ERROR (Or.inr rfl) (by decide),
   by decide,
   ((at_read_flex_response_exact_terminal 1024 []
      (List.replicate 20 PollEvent.pollTimeout ++ bytes (cstr "OK\r\n")) []).1
      (List.replicate 20 PollEvent.pollTimeout) (by decide)).1⟩

theorem is_stored_line_true (buffer_size : Nat) (l : List Int)
    (h : is_stored_line buffer_size l = true) :
    l.head? = some 43 ∧ l.length < buffer_size := by
  simp only [is_stored_line, Bool.and_eq_true, decide_eq_true_eq] at h
  exact ⟨h.1.2, h.2⟩

/-- On return the output buffer holds the last stored line among the lines
completed by the bytes consumed, and is empty when there is none; the call
reports data only if a line was stored, and a timeout only if none was. -/
theorem reader_loop_buffer (buffer_size : Nat) (events : List PollEvent) :
    ∃ consumed, events = consumed ++ (reader_loop buffer_size events reader_init 0).rest ∧
      (reader_loop buffer_size events reader_init 0).state.buffer =
        (((completed_lines [] (event_bytes consumed)).filter
          (is_stored_line buffer_size)).getLast?).getD [] ∧
      ((reader_loop buffer_size events reader_init 0).result = AT_RESP_DATA →
        (completed_lines [] (event_bytes consumed)).any (is_stored_line buffer_size) = true) ∧
      ((reader_loop buffer_size events reader_init 0).result = AT_RESP_TIMEOUT →
        (completed_lines [] (event_bytes consumed)).any (is_stored_line buffer_size)
          = false) := by
  have hline : reader_init.line_buffer = [] := rfl
  have hbuf : reader_init.buffer = [] := rfl
  have hgot : reader_init.got_response = false := rfl
  rcases reader_loop_cases buffer_size events reader_init 0 with
    ⟨consumed, st, h1, h2, h3, h4, _⟩ | ⟨consumed, e, st, h1, h2, _, h4, _⟩
  · obtain ⟨_, i2, i3, _, _⟩ := reader_state_after_lines buffer_size consumed reader_init st h2
    rw [hline, hbuf] at i2
    rw [hline, hgot, Bool.false_or] at i3
    refine ⟨consumed, h1, ?_, ?_, ?_⟩
    · rw [h3, i2]
    · intro hd
      rcases h4 with h4 | h4
      · rw [← i3]; exact h4.2
      · rw [hd] at h4
        exact at_response_t.noConfusion h4.1
    · intro hd
      rcases h4 with h4 | h4
      · rw [hd] at h4
        exact at_response_t.noConfusion h4.1
      · rw [← i3]; exact h4.2
  · obtain ⟨i1, i2, _, _, _⟩ := reader_state_after_lines buffer_size consumed reader_init st h2
    rw [hline] at i1
    rw [hline, hbuf] at i2
    have hsplit : events =
        (consumed ++ [e]) ++ (reader_loop buffer_size events reader_init 0).rest := by
      rw [List.append_assoc]
      exact h1
    rcases reader_step_done buffer_size st _ e _ h4 with ⟨hb, hr, hs⟩ | ⟨he, hterm, hr, hs, _⟩
    · have hev : event_bytes (consumed ++ [e]) = event_bytes consumed := by
        rw [event_bytes_append]
        cases e with
        | byte c => exact absurd rfl (hb c)
        | _ => exact List.append_nil _
      refine ⟨consumed ++ [e], hsplit, ?_, ?_, ?_⟩
      · rw [hev, hs, i2]
      · intro hd
        rw [hd] at hr
        exact at_response_t.noConfusion hr
      · intro hd
        rw [hd] at hr
        exact at_response_t.noConfusion hr
    · have hlen : st.line_buffer.length ≠ 0 := by
        intro h0
        rw [List.length_eq_zero.mp h0] at hterm
        exact Bool.noConfusion hterm
      have hnot : is_stored_line buffer_size st.line_buffer = false := by
        simp [is_stored_line, hterm]
      have hev : (completed_lines [] (event_bytes (consumed ++ [e]))).filter
          (is_stored_line buffer_size) =
          (completed_lines [] (event_bytes consumed)).filter (is_stored_line buffer_size) := by
        rw [event_bytes_append, completed_lines_append, ← i1, he]
        simp only [event_bytes, completed_lines]
        rw [if_pos ⟨True.intro, hlen⟩]
        simp [hnot]
      refine ⟨consumed ++ [e], hsplit, ?_, ?_, ?_⟩
      · rw [hev, hs, i2]
      · intro hd
        rw [hd] at hr
        split at hr <;> exact at_response_t.noConfusion hr
      · intro hd
        rw [hd] at hr
        split at hr <;> exact at_response_t.noConfusion hr

/-- C27: whatever the output buffer held before the call and whatever the
input, when `at_read_flex_response` returns the buffer is the last line
starting with `+` and shorter than `buffer_size` among the lines completed by
the bytes the call consumed, and empty when there is none; the call returns
`AT_RESP_DATA` only with a non-empty buffer that starts with `+`, and
`AT_RESP_TIMEOUT` only with an empty buffer; no completed line is longer than
1023 characters, so with `buffer_size` at least `AT_BUFFER_SIZE` every
completed line that starts with `+` is stored. -/
theorem at_read_flex_response_buffer (buffer_size : Nat) (buffer : List Int)
    (events : List PollEvent) :
    (∃ consumed, events = consumed ++ (at_read_flex_response buffer_size buffer events).rest ∧
      (at_read_flex_response buffer_size buffer events).buffer =
        (((completed_lines [] (event_bytes consumed)).filter
          (is_stored_line buffer_size)).getLast?).getD []) ∧
    ((at_read_flex_response buffer_size buffer events).buffer = [] ∨
      ((at_read_flex_response buffer_size buffer events).buffer.head? = some 43 ∧
        (at_read_flex_response buffer_size buffer events).buffer.length < buffer_size)) ∧
    ((at_read_flex_response buffer_size buffer events).result = AT_RESP_DATA →
      (at_read_flex_response buffer_size buffer events).buffer ≠ [] ∧
      (at_read_flex_response buffer_size buffer events).buffer.head? = some 43) ∧
    ((at_read_flex_response buffer_size buffer events).result = AT_RESP_TIMEOUT →
      (at_read_flex_response buffer_size buffer events).buffer = []) ∧
    (∀ l ∈ completed_lines [] (event_bytes events), l.length ≤ 1023) ∧
    (AT_BUFFER_SIZE ≤ buffer_size →
      ∀ l ∈ completed_lines [] (event_bytes events), l.head? = some 43 →
        is_stored_line buffer_size l = true) := by
  have hlen := completed_lines_length (event_bytes events) [] (by simp)
  unfold at_read_flex_response ReadResult.buffer
  obtain ⟨consumed, h1, h2, h3, h4⟩ := reader_loop_buffer buffer_size events
  refine ⟨⟨consumed, h1, h2⟩, ?_, ?_, ?_, hlen, ?_⟩
  · rcases filter_getLast_mem (is_stored_line buffer_size)
      (completed_lines [] (event_bytes consumed)) [] with h | ⟨_, h⟩
    · left
      rw [h2]; exact h
    · right
      rw [h2]
      exact is_stored_line_true buffer_size _ h
  · intro hd
    obtain ⟨x, hx, hp⟩ := List.any_eq_true.mp (h3 hd)
    have hmem : x ∈ (completed_lines [] (event_bytes consumed)).filter
        (is_stored_line buffer_size) := List.mem_filter.mpr ⟨hx, hp⟩
    cases hf : ((completed_lines [] (event_bytes consumed)).filter
        (is_stored_line buffer_size)).getLast? with
    | none =>
      rw [List.getLast?_eq_none_iff.mp hf] at hmem
      exact absurd hmem (List.not_mem_nil x)
    | some y =>
      have hy : is_stored_line buffer_size y = true :=
        (List.mem_filter.mp (List.mem_of_getLast?_eq_some hf)).2
      have hhead := (is_stored_line_true buffer_size y hy).1
      rw [h2, hf]
      simp only [Option.getD_some]
      refine ⟨?_, hhead⟩
      intro h0
      rw [h0] at hhead
      exact Option.noConfusion hhead
  · intro hd
    have hnone : (completed_lines [] (event_bytes consumed)).filter
        (is_stored_line buffer_size) = [] := by
      apply List.filter_eq_nil_iff.mpr
      intro a ha hp
      have hany : (completed_lines [] (event_bytes consumed)).any
          (is_stored_line buffer_size) = true := List.any_eq_true.mpr ⟨a, ha, hp⟩
      rw [h4 hd] at hany
      exact Bool.noConfusion hany
    rw [h2, hnone]
    rfl
  · intro hsize l hl hhead
    have h1023 := hlen l hl
    have hok : l ≠ cstr "OK" := by
      intro h0
      rw [h0, cstr_ok] at hhead
      exact absurd hhead (by decide)
    have herr : l ≠ cstr "ERROR" := by
      intro h0
      rw [h0, cstr_error] at hhead
      exact absurd hhead (by decide)
    have hlt : l.length < buffer_size := by
      simp only [AT_BUFFER_SIZE] at hsize
      omega
    simp [is_stored_line, is_terminal_line, hok, herr, hhead, hlt]

/-- Witness for C27: with a buffer that held `X` before the call, two data
lines leave the second one in the buffer, and silence leaves it empty. -/
theorem at_read_flex_response_buffer_witness :
    ((at_read_flex_response 1024 [88] (bytes (cstr "+A\r\n+B\r\n"))).buffer ≠ [] ∧
      (at_read_flex_response 1024 [88] (bytes (cstr "+A\r\n+B\r\n"))).buffer.head? = some 43) ∧
    (at_read_flex_response 1024 [88] []).buffer = [] ∧
    is_stored_line 1024 (cstr "+B") = true :=
  ⟨(at_read_flex_response_buffer 1024 [88] (bytes (cstr "+A\r\n+B\r\n"))).2.2.1 (by decide),
   (at_read_flex_response_buffer 1024 [88] []).2.2.2.1 (by decide),
   (at_read_flex_response_buffer 1024 [88] (bytes (cstr "+A\r\n+B\r\n"))).2.2.2.2.2
     (by decide) (cstr "+B") (by decide) (by decide)⟩

/-- The loop state after one more event. -/
theorem reader_state_after_snoc (buffer_size : Nat) (es : List PollEvent) (e : PollEvent)
    (s st : ReaderState) (h : reader_state_after buffer_size es s = some st) :
    reader_state_after buffer_size (es ++ [e]) s =
      (if st.total_timeout > 0 ∧ st.empty_reads < 20 then
        match reader_step buffer_size st e with
        | ReaderStep.next s1 => some s1
        | ReaderStep.done _ _ => none
       else none) := by
  rw [reader_state_after_append, h, Option.some_bind]
  by_cases hrun : st.total_timeout > 0 ∧ st.empty_reads < 20
  · cases hstep : reader_step buffer_size st e with
    | next s1 => simp only [reader_state_after, if_pos hrun, hstep]
    | done r s1 => simp only [reader_state_after, if_pos hrun, hstep]
  · simp only [reader_state_after, if_neg hrun]

/-- The loop does not survive 161 passes in a row that read no character. -/
theorem reader_state_after_no_bytes (buffer_size : Nat) (stream : Nat → PollEvent) (n : Nat)
    (hno : ∀ m, n ≤ m → ∀ c, stream m ≠ PollEvent.byte c)
    (hrun : ∀ k, reader_state_after buffer_size (first_events stream k) reader_init ≠ none) :
    ∀ k, ∃ st, reader_state_after buffer_size (first_events stream (n + k)) reader_init
        = some st ∧ st.total_timeout ≤ 8000 - 50 * (k : Int) := by
  intro k
  induction k with
  | zero =>
    cases hst : reader_state_after buffer_size (first_events stream n) reader_init with
    | none => exact absurd hst (hrun n)
    | some st =>
      refine ⟨st, hst, ?_⟩
      have h5 := (reader_state_after_lines buffer_size _ reader_init st hst).2.2.2.2
      have h8 : st.total_timeout ≤ AT_TIMEOUT_MS := h5 (by decide)
      simp only [AT_TIMEOUT_MS] at h8
      simpa using h8
  | succ k ih =>
    obtain ⟨st, hst, hle⟩ := ih
    have hnext := hrun (n + (k + 1))
    have hpre : first_events stream (n + (k + 1)) =
        first_events stream (n + k) ++ [stream (n + k)] := rfl
    rw [hpre, reader_state_after_snoc buffer_size _ _ reader_init st hst] at hnext ⊢
    by_cases hloop : st.total_timeout > 0 ∧ st.empty_reads < 20
    · rw [if_pos hloop] at hnext ⊢
      rcases reader_step_no_byte buffer_size st (stream (n + k))
          (hno (n + k) (by omega)) with h1 | ⟨s1, h1, _, _, _, ht⟩
      · rw [h1] at hnext
        exact absurd rfl hnext
      · rw [h1]
        refine ⟨s1, rfl, ?_⟩
        rw [ht]
        push_cast
        omega
    · rw [if_neg hloop] at hnext
      exact absurd rfl hnext

/-- A call that never returns keeps receiving bytes. -/
theorem reader_runs_on_bytes (buffer_size : Nat) (stream : Nat → PollEvent)
    (hrun : ∀ k, reader_state_after buffer_size (first_events stream k) reader_init ≠ none)
    (n : Nat) : ∃ m, n ≤ m ∧ ∃ c, stream m = PollEvent.byte c := by
  by_contra hcon
  have hno : ∀ m, n ≤ m → ∀ c, stream m ≠ PollEvent.byte c := by
    intro m hm c hc
    exact hcon ⟨m, hm, c, hc⟩
  obtain ⟨st, hst, hle⟩ := reader_state_after_no_bytes buffer_size stream n hno hrun 160
  have hnext := hrun (n + 161)
  have hpre : first_events stream (n + 161) =
      first_events stream (n + 160) ++ [stream (n + 160)] := rfl
  rw [hpre, reader_state_after_snoc buffer_size _ _ reader_init st hst] at hnext
  have hloop : ¬ (st.total_timeout > 0 ∧ st.empty_reads < 20) := by
    push_cast at hle
    omega
  rw [if_neg hloop] at hnext
  exact hnext rfl

/-- The reader never returns on an unending run of the letter `A`. -/
theorem reader_state_after_letters (buffer_size : Nat) :
    ∀ n, reader_state_after buffer_size (first_events letter_stream n) reader_init ≠ none := by
  have hstrong : ∀ n, ∃ st,
      reader_state_after buffer_size (first_events letter_stream n) reader_init = some st ∧
      st.running := by
    intro n
    induction n with
    | zero => exact ⟨reader_init, rfl, reader_init_running⟩
    | succ n ih =>
      obtain ⟨st, hst, hrun⟩ := ih
      have hpre : first_events letter_stream (n + 1) =
          first_events letter_stream n ++ [PollEvent.byte 65] := rfl
      have hloop : st.total_timeout > 0 ∧ st.empty_reads < 20 := hrun
      rw [hpre, reader_state_after_snoc buffer_size _ _ reader_init st hst, if_pos hloop]
      obtain ⟨s1, h1, _, _, _, he, ht⟩ :=
        reader_step_continue buffer_size st 65 (fun h => absurd h.1 (by decide))
      rw [h1]
      refine ⟨s1, rfl, ?_⟩
      unfold ReaderState.running at hrun ⊢
      rw [he]
      rcases ht with ht | ht
      · rw [ht]; exact ⟨hrun.1, by decide⟩
      · rw [ht]; exact ⟨by decide, by decide⟩
  intro n
  obtain ⟨st, hst, _⟩ := hstrong n
  rw [hst]
  exact fun h => Option.noConfusion h

/-- C28: on every finite list of events followed by silence
`at_read_flex_response`, a total function, returns after at most one pass per
listed event and at most 20 further passes on the silent line, the further
passes being made only when the whole list was consumed; and a call on an
unending sequence of events that never returns receives bytes again and
again without end, and none of the lines they complete is `OK` or `ERROR`. -/
theorem at_read_flex_response_terminates (buffer_size : Nat) (buffer : List Int)
    (events : List PollEvent) (stream : Nat → PollEvent) :
    ((at_read_flex_response buffer_size buffer events).slices +
        (at_read_flex_response buffer_size buffer events).rest.length ≤ events.length + 20 ∧
      ((at_read_flex_response buffer_size buffer events).rest ≠ [] →
        (at_read_flex_response buffer_size buffer events).slices +
          (at_read_flex_response buffer_size buffer events).rest.length = events.length)) ∧
    ((∀ n, reader_state_after buffer_size (first_events stream n) reader_init ≠ none) →
      (∀ n, ∃ m, n ≤ m ∧ ∃ c, stream m = PollEvent.byte c) ∧
      (∀ n, ∀ l ∈ completed_lines [] (event_bytes (first_events stream n)),
        is_terminal_line l = false)) := by
  constructor
  · unfold at_read_flex_response
    rcases reader_loop_cases buffer_size events reader_init 0 with
      ⟨consumed, st, h1, _, _, _, _, _, h7, h8⟩ | ⟨consumed, e, st, h1, _, _, _, h5⟩
    · have hlen := congrArg List.length h1
      simp only [List.length_append] at hlen
      constructor
      · omega
      · intro hne
        have := h8 hne
        omega
    · have hlen := congrArg List.length h1
      simp only [List.length_append, List.length_cons] at hlen
      constructor
      · omega
      · intro _
        omega
  · intro hrun
    refine ⟨reader_runs_on_bytes buffer_size stream hrun, ?_⟩
    intro n l hl
    cases hst : reader_state_after buffer_size (first_events stream n) reader_init with
    | none => exact absurd hst (hrun n)
    | some st =>
      exact (reader_state_after_lines buffer_size _ reader_init st hst).2.2.2.1 l hl

/-- Witness for C28: two data bytes and silence take 22 passes, and the
unending run of `A` on which the call never returns has a byte after every
position and completes no line. -/
theorem at_read_flex_response_terminates_witness :
    (at_read_flex_response 1024 [] (bytes [43, 65])).slices = 22 ∧
    (∃ m, 1000 ≤ m ∧ ∃ c, letter_stream m = PollEvent.byte c) ∧
    (∀ l ∈ completed_lines [] (event_bytes (first_events letter_stream 3)),
      is_terminal_line l = false) :=
  ⟨by decide,
   ((at_read_flex_response_terminates 1024 [] [] letter_stream).2
      (reader_state_after_letters 1024)).1 1000,
   ((at_read_flex_response_terminates 1024 [] [] letter_stream).2
      (reader_state_after_letters 1024)).2 3⟩

end FlexHttpServer
